import Mathlib

/-!
# Snowflake navigation: collision detection and distance correction

A shallow embedding of `src/SnowflakeNavigation.js`.

* JavaScript numbers are modelled by an arbitrary linearly ordered field `α`
  (exact arithmetic); concrete evaluations are carried out over `ℚ`.
* The functions of the JavaScript `Math` object that are not field operations
  (`cos`, `sin`, `acos`, `sqrt`, `PI`) are taken as a parameter `JSMath α`.
* React component instances are addressed by a position index (`Nat`); the
  mounted instances form a `World`, and `setState` is modelled as an immediate
  update of the world. This is what React does when an instance receives one
  call of `setState` in a commit. Inside a commit React queues the calls and
  `this.state` stays the state the commit started with; the commit in which a
  node is deactivated is modelled with the queue (`QueuedLedger`, `flushQueue`,
  `commitDeactivation`).
* Where the identity of objects matters (the in-place methods of `Point` and
  `Line.move`), the objects with fields `x` and `y` live in a `Store` and the
  methods are programs over it (`Heap.*`); these programs are related to the
  pure definitions by `Prog.Spec`.
-/

namespace Snowflake

/-! ## Geometry kernel -/

/-- The members of the JavaScript `Math` object that the program uses and that are
not field operations. -/
structure JSMath (α : Type) where
  cos : α → α
  sin : α → α
  acos : α → α
  sqrt : α → α
  PI : α

/-- Flow type `Coords` (also the fields of class `Point`). -/
structure Coords (α : Type) where
  x : α
  y : α
deriving DecidableEq, Repr

/-- Class `Line`: an ordered pair of points. The fields `x1, y1, x2, y2` of the
source are copies of the coordinates of the two points, refreshed by `setup()`
after every change, so they are modelled as projections. -/
structure Line (α : Type) where
  point1 : Coords α
  point2 : Coords α
deriving DecidableEq, Repr

section Kernel

variable {α : Type}

/-- Field `x1` of a `Line` (set by `setup`). -/
def Line.x1 (l : Line α) : α := l.point1.x

/-- Field `y1` of a `Line` (set by `setup`). -/
def Line.y1 (l : Line α) : α := l.point1.y

/-- Field `x2` of a `Line` (set by `setup`). -/
def Line.x2 (l : Line α) : α := l.point2.x

/-- Field `y2` of a `Line` (set by `setup`). -/
def Line.y2 (l : Line α) : α := l.point2.y

variable [LinearOrderedField α]

/-- Constant `minLineDistance` of the source. -/
def minLineDistance : α := 120

/-- Constant `activeRadius` of the source. -/
def activeRadius : α := 80

/-- Constant `inactiveRadius` of the source. -/
def inactiveRadius : α := 20

/-- Source: `dot = (a, b) => (a.x * b.x) + (a.y * b.y)`. -/
def dot (a b : Coords α) : α := (a.x * b.x) + (a.y * b.y)

/-- Source: `magnitude = (a) => Math.sqrt(pow(a.x, 2) + pow(a.y, 2))`. -/
def magnitude (M : JSMath α) (a : Coords α) : α := M.sqrt (a.x ^ 2 + a.y ^ 2)

/-- The denominator computed by `intersect`. -/
def intersect.denominator (l v : Line α) : α :=
  (v.y2 - v.y1) * (l.x2 - l.x1) - (v.x2 - v.x1) * (l.y2 - l.y1)

/-- The parameter `ua` computed by `intersect`. -/
def intersect.ua (l v : Line α) : α :=
  ((v.x2 - v.x1) * (l.y1 - v.y1) - (v.y2 - v.y1) * (l.x1 - v.x1)) / intersect.denominator l v

/-- Function `intersect` of the source; the result `false` is `none`. -/
def intersect (l v : Line α) : Option (Coords α) :=
  -- Check if none of the lines are of length 0
  if (l.x1 = l.x2 ∧ l.y1 = l.y2) ∨ (v.x1 = v.x2 ∧ v.y1 = v.y2) then none
  -- Lines are considered parallel
  else if intersect.denominator l v > -0.001 ∧ intersect.denominator l v < 0.001 then none
  -- is the intersection along the segments
  else if intersect.ua l v < 0.001 ∨ intersect.ua l v > 0.999 then none
  else some
    { x := l.x1 + intersect.ua l v * (l.x2 - l.x1)
      y := l.y1 + intersect.ua l v * (l.y2 - l.y1) }

/-- Method `Point.move`: a new point translated by the offset. -/
def Point.move (p : Coords α) (o : Coords α) : Coords α :=
  { x := p.x + o.x, y := p.y + o.y }

/-- Method `Point.subtract`: the receiver after the in-place subtraction. -/
def Point.subtract (p : Coords α) (o : Coords α) : Coords α :=
  { x := p.x - o.x, y := p.y - o.y }

/-- Method `Point.negative`. -/
def Point.negative (p : Coords α) : Coords α :=
  { x := -p.x, y := -p.y }

/-- Method `Point.lineTo`. -/
def Point.lineTo (p : Coords α) (point : Coords α) : Line α :=
  { point1 := p, point2 := point }

/-- Method `Line.move`: both points are moved by the offset. -/
def Line.move (l : Line α) (offset : Coords α) : Line α :=
  { point1 := Point.move l.point1 offset, point2 := Point.move l.point2 offset }

end Kernel

/-! ## JavaScript objects used as string-keyed maps -/

section Obj

variable {β : Type}

/-- The object `{ ...o, [k]: v }`: an existing key keeps its place and takes the new
value, a new key is appended. -/
def Obj.set (o : List (String × β)) (k : String) (v : β) : List (String × β) :=
  match o with
  | [] => [(k, v)]
  | e :: rest => if e.1 = k then (k, v) :: rest else e :: Obj.set rest k v

/-- The property read `o[k]`; `undefined` is `none`. -/
def Obj.get? (o : List (String × β)) (k : String) : Option β :=
  match o with
  | [] => none
  | e :: rest => if e.1 = k then some e.2 else Obj.get? rest k

/-- The object `JSON.parse(JSON.stringify({ ...o, [k]: undefined }))`: the key `k` is
dropped (JSON omits properties whose value is `undefined`), the rest is kept. -/
def Obj.erase (o : List (String × β)) (k : String) : List (String × β) :=
  match o with
  | [] => []
  | e :: rest => if e.1 = k then Obj.erase rest k else e :: Obj.erase rest k

/-- The array `Object.values(o)`. -/
def Obj.values (o : List (String × β)) : List β := o.map (fun e => e.2)

/-- Equality of `stringifyOrdered a` and `stringifyOrdered b`: the two objects list
the same keys with the same values (the keys are sorted before printing). -/
def Obj.sameEntries [DecidableEq β] (a b : List (String × β)) : Bool :=
  a.all (fun e => Obj.get? b e.1 = some e.2) && b.all (fun e => Obj.get? a e.1 = some e.2)

/-- JavaScript `a || b` on values that are either `false` (`none`) or an object. -/
def jsOr (a b : Option β) : Option β :=
  match a with
  | some x => some x
  | none => b

/-- JavaScript `a && b` where `a` is either `false` (`none`) or an object. -/
def jsAnd {γ : Type} (a : Option γ) (b : β) : Option β :=
  match a with
  | some _ => some b
  | none => none

end Obj

/-! ## Data model -/

/-- Flow type `NodeType`, the static input tree. The optional field `nodes` is only
read as `node.nodes || []`, so an absent list is the empty list. -/
inductive NodeType (α : Type) where
  | mk (id : String) (title : String) (activeRadius : α) (inactiveRadius : α)
      (active : Bool) (nodes : List (NodeType α))

/-- Field `id`. -/
def NodeType.id {α : Type} : NodeType α → String
  | .mk id _ _ _ _ _ => id

/-- Field `options.activeRadius`. -/
def NodeType.activeRadius {α : Type} : NodeType α → α
  | .mk _ _ r _ _ _ => r

/-- Field `options.inactiveRadius`. -/
def NodeType.inactiveRadius {α : Type} : NodeType α → α
  | .mk _ _ _ r _ _ => r

/-- Field `active`. -/
def NodeType.active {α : Type} : NodeType α → Bool
  | .mk _ _ _ _ a _ => a

/-- The list `node.nodes || []`. -/
def NodeType.nodes {α : Type} : NodeType α → List (NodeType α)
  | .mk _ _ _ _ _ ns => ns

/-- The prop `parent`: either the object `{ getRadius: () => activeRadius }` built by
`SnowflakeNavigation.render`, or the `Node` instance that rendered this one. -/
inductive ParentRef where
  | root
  | node (position : Nat)
deriving DecidableEq, Repr

/-- Flow type `NodeProps`. `parent` and `startingAngle` may be absent (`getOffset`
tests `!parent`, and `startingAngle` is read with default `0`); `ancestors` and
`absolutePosition` are spread and stringified without a default by `render` and
`componentDidUpdate`, so they are always present. Instances are referred to by
position. -/
structure NodeProps (α : Type) where
  node : NodeType α
  angle : α
  startingAngle : Option α
  parent : Option ParentRef
  absolutePosition : Coords α
  ancestors : List Nat
  angleDifference : α

/-- The closure `target.clearDistance.bind(target, id)`, the only kind of action the
program registers with `removeOnDeactivate`. -/
structure DeactivateAction where
  target : Nat
  id : String
deriving DecidableEq, Repr

/-- Flow type `NodeState`, restricted to the fields the program reads or writes
(`position` and `collisions` are initialised and never used). -/
structure NodeState (α : Type) where
  active : Bool
  distanceIncreases : List (String × α)
  deactivateActions : List (String × DeactivateAction)

/-- A mounted `Node` component instance. -/
structure Node (α : Type) where
  props : NodeProps α
  state : NodeState α

/-- The mounted instances, by position. -/
abbrev World (α : Type) := Nat → Node α

/-- The value of `intersectionData` in a collision record. -/
structure IntersectionData (α : Type) where
  line : Line α
  clockwise : Option (Line α)
  anticlockwise : Option (Line α)
deriving DecidableEq, Repr

/-- The records returned by `getCollisions` (Flow type `Collision`); `node` and
`ancestor` are the positions of the two instances. -/
structure Collision (α : Type) where
  endPoint : Coords α
  line : Line α
  intersectionData : IntersectionData α
  clockwise : Option (Coords α)
  anticlockwise : Option (Coords α)
  hasIntersect : Bool
  intersect : Option (Coords α)
  node : Nat
  ancestor : Nat
deriving DecidableEq, Repr

/-- The initial `state` of a `Node` with the given props. -/
def Node.mount {α : Type} (props : NodeProps α) : Node α :=
  { props := props
    state := { active := props.node.active, distanceIncreases := [], deactivateActions := [] } }

/-! ## Class `Node` -/

section NodeMethods

variable {α : Type} [LinearOrderedField α]

/-- The call `this.setState({ active })` on the instance at `self`. -/
def setActive (w : World α) (self : Nat) (active : Bool) : World α :=
  Function.update w self { w self with state := { (w self).state with active := active } }

/-- The call `this.setState({ distanceIncreases })` on the instance at `self`. -/
def setDistanceIncreases (w : World α) (self : Nat) (d : List (String × α)) : World α :=
  Function.update w self { w self with state := { (w self).state with distanceIncreases := d } }

/-- The call `this.setState({ deactivateActions })` on the instance at `self`. -/
def setDeactivateActions (w : World α) (self : Nat) (d : List (String × DeactivateAction)) :
    World α :=
  Function.update w self { w self with state := { (w self).state with deactivateActions := d } }

/-- Method `getRadius`. -/
def getRadius (w : World α) (self : Nat) : α :=
  if (w self).state.active then (w self).props.node.activeRadius
  else (w self).props.node.inactiveRadius

/-- The call `parent.getRadius()` on the prop `parent`. -/
def ParentRef.getRadius (w : World α) : ParentRef → α
  | .root => activeRadius
  | .node p => Snowflake.getRadius w p

/-- Method `toggleActive`; `none` is the call without an argument. -/
def toggleActive (w : World α) (self : Nat) (active : Option Bool) : World α :=
  setActive w self (active.getD (!(w self).state.active))

/-- Method `clearDistance`. -/
def clearDistance (w : World α) (self : Nat) (id : String) : World α :=
  setDistanceIncreases w self (Obj.erase (w self).state.distanceIncreases id)

/-- Method `removeOnDeactivate`. -/
def removeOnDeactivate (w : World α) (self : Nat) (id : String) (action : DeactivateAction) :
    World α :=
  setDeactivateActions w self (Obj.set (w self).state.deactivateActions id action)

/-- The call `Math.max(...init, last)`. -/
def mathMax (init : List α) (last : α) : α := init.foldr max last

/-- The constant `offsetDistance` of `getOffset`. -/
def getOffset.offsetDistance (w : World α) (self : Nat) : α :=
  mathMax (Obj.values (w self).state.distanceIncreases) minLineDistance

/-- The constant `dist` of `getOffset`, for a node whose prop `parent` is present. -/
def getOffset.dist (w : World α) (self : Nat) (parent : ParentRef) : α :=
  getRadius w self + parent.getRadius w
    + (if (w self).state.active then getOffset.offsetDistance w self else -getRadius w self)

/-- Method `getOffset`. -/
def getOffset (M : JSMath α) (w : World α) (self : Nat) : Coords α :=
  match (w self).props.parent with
  | none => { x := 0, y := 0 }
  | some parent =>
    { x := M.cos (((w self).props.startingAngle.getD 0 + (w self).props.angle) * 0.0174533)
        * getOffset.dist w self parent
      y := M.sin (((w self).props.startingAngle.getD 0 + (w self).props.angle) * 0.0174533)
        * getOffset.dist w self parent }

/-- Method `getNodeBoundaries`; the default `dist = 10` is supplied by the callers. -/
def getNodeBoundaries (M : JSMath α) (w : World α) (self : Nat) (dist : α) : Line α × Line α :=
  let diff := (w self).props.angleDifference / 2
  let angle := (w self).props.startingAngle.getD 0 + (w self).props.angle
  let offset := getOffset M w self
  ( Point.lineTo (Point.negative offset)
      { x := (M.cos ((angle + diff) * 0.0174533) * dist) - offset.x
        y := (M.sin ((angle + diff) * 0.0174533) * dist) - offset.y },
    Point.lineTo (Point.negative offset)
      { x := (M.cos ((angle - diff) * 0.0174533) * dist) - offset.x
        y := (M.sin ((angle - diff) * 0.0174533) * dist) - offset.y } )

/-- The record that the callback of `ancestors.map` in `getCollisions` builds for one
ancestor. -/
def getCollisions.record (M : JSMath α) (w : World α) (self : Nat) (ancestor : Nat) :
    Collision α :=
  let absolutePosition := (w self).props.absolutePosition
  let offset := getOffset M w self
  let start : Coords α := { x := 0, y := 0 }
  let abs := (w ancestor).props.absolutePosition
  let boundaries := getNodeBoundaries M w ancestor 10
  let ancestorOffset := getOffset M w ancestor
  let endPoint : Coords α :=
    { x := -((absolutePosition.x + offset.x) - (abs.x + ancestorOffset.x))
      y := -((absolutePosition.y + offset.y) - (abs.y + ancestorOffset.y)) }
  let lineAbsolute : Line α := { point1 := start, point2 := endPoint }
  let absoluteOffset := Point.subtract absolutePosition abs
  let clockwiseAbsolute :=
    ((boundaries.1.move (Point.negative offset)).move (Point.negative absoluteOffset)).move
      ancestorOffset
  let anticlockwiseAbsolute :=
    ((boundaries.2.move (Point.negative offset)).move (Point.negative absoluteOffset)).move
      ancestorOffset
  let clockwiseIntersect := intersect lineAbsolute clockwiseAbsolute
  let anticlockwiseIntersect := intersect lineAbsolute anticlockwiseAbsolute
  { endPoint := endPoint
    line := lineAbsolute
    intersectionData :=
      { line := lineAbsolute
        clockwise := jsAnd clockwiseIntersect clockwiseAbsolute
        anticlockwise := jsAnd anticlockwiseIntersect anticlockwiseAbsolute }
    clockwise := clockwiseIntersect
    anticlockwise := anticlockwiseIntersect
    hasIntersect := clockwiseIntersect.isSome || anticlockwiseIntersect.isSome
    intersect := jsOr clockwiseIntersect anticlockwiseIntersect
    node := self
    ancestor := ancestor }

/-- Method `getCollisions`. -/
def getCollisions (M : JSMath α) (w : World α) (self : Nat) : List (Collision α) :=
  (w self).props.ancestors.map (getCollisions.record M w self)

/-- The constant `distance` of `updatePosition`, for the intersecting ray
`intersectingVector`. -/
def updatePosition.distance (M : JSMath α) (w : World α) (collisionData : Collision α)
    (intersectingVector : Line α) : α :=
  let intersectedLine := collisionData.intersectionData.line
  let intersectingVectorFromZero : Coords α :=
    { x := intersectingVector.x2 - intersectingVector.x1
      y := intersectingVector.y2 - intersectingVector.y1 }
  let angleOfIntersection :=
    180 - M.acos (dot intersectedLine.point2 intersectingVectorFromZero
        / (magnitude M intersectedLine.point2 * magnitude M intersectingVectorFromZero))
      * (180 / M.PI)
  let a2 := (w collisionData.ancestor).props.angleDifference / 2
  |((magnitude M intersectedLine.point2) / M.sin (a2 * 0.0174533))
      * M.sin (angleOfIntersection * 0.0174533)|

/-- The constant `distanceId` of `updatePosition`. -/
def updatePosition.distanceId (w : World α) (collisionData : Collision α) : String :=
  (w collisionData.node).props.node.id ++ "_" ++ (w collisionData.ancestor).props.node.id

/-- Method `updatePosition`, called on the instance at `self`. When the record carries
no intersecting ray the source computes with the fields of `false`; that case is
outside the number model and is `none`. -/
def updatePosition (M : JSMath α) (w : World α) (self : Nat) (collisionData : Collision α) :
    Option (World α) :=
  match jsOr collisionData.intersectionData.clockwise
      collisionData.intersectionData.anticlockwise with
  | none => none
  | some intersectingVector =>
    let distance := updatePosition.distance M w collisionData intersectingVector
    let distanceId := updatePosition.distanceId w collisionData
    let w1 := setDistanceIncreases w self
      (Obj.set (w self).state.distanceIncreases distanceId distance)
    some (removeOnDeactivate w1 collisionData.node distanceId
      { target := self, id := distanceId })

/-- The constant `lastCollision` of `runCollisionChecks`, for the list returned by
`getCollisions`; `undefined` is `none`. -/
def runCollisionChecks.lastCollision (records : List (Collision α)) : Option (Collision α) :=
  (records.filter (fun c => c.hasIntersect)).getLast?

/-- Method `runCollisionChecks`. -/
def runCollisionChecks (M : JSMath α) (w : World α) (self : Nat) : Option (World α) :=
  match runCollisionChecks.lastCollision (getCollisions M w self) with
  | some lastCollision => updatePosition M w lastCollision.ancestor lastCollision
  | none => some w

/-- The loop `Object.values(this.state.deactivateActions).forEach((action) => action())`,
for the given list of registered actions. -/
def runDeactivateActions (w : World α) (actions : List (String × DeactivateAction)) : World α :=
  (Obj.values actions).foldl (fun w action => clearDistance w action.target action.id) w

/-- Method `componentDidUpdate`, called on the instance at `self` (whose props and
state in `w` are the new ones) with the previous props and state. -/
def componentDidUpdate (M : JSMath α) (w : World α) (self : Nat) (oldProps : NodeProps α)
    (oldState : NodeState α) : Option (World α) :=
  if oldState.active && !(w self).state.active then
    some (runDeactivateActions w (w self).state.deactivateActions)
  else if !(Obj.sameEntries oldState.distanceIncreases (w self).state.distanceIncreases)
      || decide (oldProps.absolutePosition ≠ (w self).props.absolutePosition)
      || (!oldState.active && (w self).state.active) then
    runCollisionChecks M w self
  else some w

/-- Method `componentWillUnmount`. -/
def componentWillUnmount (w : World α) (self : Nat) : World α :=
  runDeactivateActions w (w self).state.deactivateActions

/-- JavaScript `a % b` on numbers: the remainder of the division truncated towards
zero. -/
def jsRem [FloorRing α] (a b : α) : α :=
  a - b * (if 0 ≤ a / b then (⌊a / b⌋ : α) else (⌈a / b⌉ : α))

/-- The props of the child elements that `Node.render` creates for the instance at
`self`: none while the node is inactive. -/
def Node.render [FloorRing α] (M : JSMath α) (w : World α) (self : Nat) : List (NodeProps α) :=
  let props := (w self).props
  let startingAngle := props.startingAngle.getD 0
  let offset := getOffset M w self
  if (w self).state.active then
    props.node.nodes.enum.map fun (i, n) =>
      { node := n
        parent := some (ParentRef.node self)
        ancestors := props.ancestors ++ [self]
        startingAngle := some (jsRem (startingAngle + 180 + props.angle) 360)
        angleDifference := 360 / ((props.node.nodes.length : α) + 1)
        angle := (360 / ((props.node.nodes.length : α) + 1)) * ((i : α) + 1)
        absolutePosition := Point.move props.absolutePosition offset }
  else []

/-- The props of the `Node` elements that `SnowflakeNavigation.render` creates for the
children of the tree root. -/
def SnowflakeNavigation.render (tree : NodeType α) : List (NodeProps α) :=
  tree.nodes.enum.map fun (i, n) =>
    { node := n
      parent := some ParentRef.root
      ancestors := []
      startingAngle := some 0
      angleDifference := 360 / (tree.nodes.length : α)
      angle := (360 / (tree.nodes.length : α)) * (i : α)
      absolutePosition := { x := 0, y := 0 } }

end NodeMethods

/-! ## Mounting and user events -/

section Events

variable {α : Type} [LinearOrderedField α]

/-- The props held by positions at which nothing is mounted. -/
def blankProps : NodeProps α :=
  { node := NodeType.mk "" "" 0 0 false [], angle := 0, startingAngle := none, parent := none,
    absolutePosition := { x := 0, y := 0 }, ancestors := [], angleDifference := 0 }

/-- The world in which nothing is mounted. -/
def blank : World α := fun _ => Node.mount blankProps

/-- Mounting of a new `Node` with the props at index `i` of a rendered list. -/
def mountAt (w : World α) (position : Nat) (rendered : List (NodeProps α)) (i : Nat) : World α :=
  Function.update w position (Node.mount (rendered.getD i blankProps))

/-- A click on the node at `self`: the handler calls `toggleActive()`, and React then
calls `componentDidUpdate` on the instance with its previous props and state. -/
def clickNode (M : JSMath α) (w : World α) (self : Nat) : Option (World α) :=
  componentDidUpdate M (toggleActive w self none) self (w self).props (w self).state

/-- The top-level nodes of a tree, mounted at positions `0, 1, 2, ...` in the order of
`SnowflakeNavigation.render`. -/
def mountTopLevel (tree : NodeType α) : World α :=
  fun p => Node.mount ((SnowflakeNavigation.render tree).getD p blankProps)

end Events

/-! ## Quantities named by the specification -/

section SpecDefs

variable {α : Type} [LinearOrderedField α]

/-- Specification §4.1, `angleBetween(v1, v2)` in degrees:
`acos(dot/(|v1||v2|)) * 180/π`. -/
def Spec.angleBetween (M : JSMath α) (v1 v2 : Coords α) : α :=
  M.acos (dot v1 v2 / (magnitude M v1 * magnitude M v2)) * (180 / M.PI)

/-- The sine of an angle given in degrees, converted to radians by the factor
`0.0174533` of the source. -/
def Spec.sinDeg (M : JSMath α) (degrees : α) : α := M.sin (degrees * 0.0174533)

/-- Specification §4.6, `requiredDistance` for the connecting segment vector `c`, the
direction vector `r` of the intersecting ray and the wedge width `angleDifference` of
the ancestor:
`| magnitude(c) / sin(halfWedge) * sin(angleOfIntersection) |` with
`halfWedge = angleDifference / 2` and `angleOfIntersection = 180 − angleBetween(c, r)`. -/
def Spec.requiredDistance (M : JSMath α) (c r : Coords α) (angleDifference : α) : α :=
  |magnitude M c / Spec.sinDeg M (angleDifference / 2)
    * Spec.sinDeg M (180 - Spec.angleBetween M c r)|

/-- Specification §3, `pairKey = descendantId + "_" + thisNode.id`. -/
def Spec.pairKey (descendantId ancestorId : String) : String :=
  descendantId ++ "_" ++ ancestorId

end SpecDefs

/-! ## Concrete inputs over the rationals -/

/-- The point `(x, y)` over `ℚ`. -/
def pt (x y : ℚ) : Coords ℚ := { x := x, y := y }

/-- The segment from `(a, b)` to `(c, d)` over `ℚ`. -/
def seg (a b c d : ℚ) : Line ℚ := { point1 := pt a b, point2 := pt c d }

/-- The rational value used for `Math.PI` in concrete evaluations. -/
def qPI : ℚ := 355 / 113

/-- Bhaskara's rational approximation of the sine of `x` radians, after reduction of
`x` to one turn. -/
def qSin (x : ℚ) : ℚ :=
  let r := x - 2 * qPI * (⌊x / (2 * qPI)⌋ : ℚ)
  if r ≤ qPI then 16 * r * (qPI - r) / (5 * qPI ^ 2 - 4 * r * (qPI - r))
  else -(16 * (r - qPI) * (2 * qPI - r) / (5 * qPI ^ 2 - 4 * (r - qPI) * (2 * qPI - r)))

/-- Bisection for the integer square root: the result `r` satisfies `lo ≤ r < hi`, and
`r * r ≤ n < (r + 1) * (r + 1)` when `lo * lo ≤ n < hi * hi` and the fuel suffices. -/
def qSqrt.bisect (n : Nat) : Nat → Nat → Nat → Nat
  | 0, lo, _ => lo
  | fuel + 1, lo, hi =>
    if hi ≤ lo + 1 then lo
    else if ((lo + hi) / 2) * ((lo + hi) / 2) ≤ n then qSqrt.bisect n fuel ((lo + hi) / 2) hi
    else qSqrt.bisect n fuel lo ((lo + hi) / 2)

/-- The square root of `x` rounded down to six decimal places (`0` for negative `x`). -/
def qSqrt (x : ℚ) : ℚ :=
  (qSqrt.bisect (⌊x * 10 ^ 12⌋).toNat 200 0 ((⌊x * 10 ^ 12⌋).toNat + 1) : ℚ) / 10 ^ 6

/-- The inverse of Bhaskara's approximation of the cosine. -/
def qAcos (c : ℚ) : ℚ :=
  if 0 ≤ c then qPI * qSqrt ((1 - c) / (4 + c)) else qPI - qPI * qSqrt ((1 + c) / (4 - c))

/-- A computable rational stand-in for the JavaScript `Math` object, used to evaluate
the definitions on concrete inputs. -/
def qMath : JSMath ℚ :=
  { cos := fun x => qSin (x + qPI / 2)
    sin := qSin
    acos := qAcos
    sqrt := qSqrt
    PI := qPI }

/-- A leaf of the input tree with the radii of the source (`80` and `20`). -/
def leaf (id : String) : NodeType ℚ := NodeType.mk id "" 80 20 false []

/-- An input tree: the root has six children, the first of which has three. -/
def tree6 : NodeType ℚ :=
  NodeType.mk "root" "" 80 20 false
    [ NodeType.mk "t0" "" 80 20 false [leaf "n0", leaf "n1", leaf "n2"],
      leaf "t1", leaf "t2", leaf "t3", leaf "t4", leaf "t5" ]

/-- Scenario A, step 1: the first child of the root of `tree6` is mounted at position 0
and activated. -/
def worldA1 : World ℚ :=
  toggleActive (mountAt blank 0 (SnowflakeNavigation.render tree6) 0) 0 none

/-- Scenario A, step 2: its first child is mounted at position 1 (inactive). -/
def worldA2 : World ℚ := mountAt worldA1 1 (Node.render qMath worldA1 0) 0

/-- Scenario A, step 3: the node at position 1 is activated. -/
def worldA3 : World ℚ := toggleActive worldA2 1 none

/-- Scenario A: the record of the node at position 1 for its ancestor at position 0. -/
def recordA : Collision ℚ := getCollisions.record qMath worldA3 1 0

/-- Scenario A: the anticlockwise boundary ray of the ancestor, in the frame of the
node at position 1. -/
def rayA : Line ℚ := recordA.intersectionData.anticlockwise.getD (seg 0 0 0 0)

/-- An input tree: the root has three children, the first of which has three
children, the first of which has five. -/
def tree35 : NodeType ℚ :=
  NodeType.mk "root" "" 80 20 false
    [ NodeType.mk "t0" "" 80 20 false
        [ NodeType.mk "n0" "" 80 20 false
            [leaf "g0", leaf "g1", leaf "g2", leaf "g3", leaf "g4"],
          leaf "n1", leaf "n2" ],
      leaf "t1", leaf "t2" ]

/-- Scenario B, step 1: the first child of the root of `tree35` is mounted at position 0
and activated. -/
def worldB1 : World ℚ :=
  toggleActive (mountAt blank 0 (SnowflakeNavigation.render tree35) 0) 0 none

/-- Scenario B, step 2: its first child is mounted at position 1 and activated. -/
def worldB2 : World ℚ :=
  toggleActive (mountAt worldB1 1 (Node.render qMath worldB1 0) 0) 1 none

/-- Scenario B, step 3: the first grandchild is mounted at position 2 (inactive). -/
def worldB3 : World ℚ := mountAt worldB2 2 (Node.render qMath worldB2 1) 0

/-- Scenario B, step 4: the grandchild is activated. -/
def worldB4 : World ℚ := toggleActive worldB3 2 none

/-- Scenario B: the record of the grandchild for the top-level node. -/
def recordB0 : Collision ℚ := getCollisions.record qMath worldB4 2 0

/-- Scenario B: the record of the grandchild for its parent. -/
def recordB1 : Collision ℚ := getCollisions.record qMath worldB4 2 1

/-- An excerpt of the tree of the source (`const tree`): under "Teams" the specialties
"ALLIED HEALTH OTHER" and "CARDIO THORACIC" both contain the subtree "Outpatients" with
the same id. -/
def treeC : NodeType ℚ :=
  NodeType.mk "e835ca06-31e9-4f06-a2c0-eb0e0d38c5fb" "SystemView" 80 20 false
    [ NodeType.mk "e09376e9-1c08-4ec3-f836-40a25a0d1e70" "Teams" 80 20 false
        [ NodeType.mk "dcc3ac8e-0c7c-4fc8-ca20-10071e90884f" "ALLIED HEALTH OTHER" 80 20 false
            [NodeType.mk "0fcfa7cc-f093-4fde-8b75-27d3008adc9b" "Outpatients" 80 20 false []],
          NodeType.mk "7f97070c-7ae2-48fd-e800-f9d9436080b9" "CARDIO THORACIC" 80 20 false
            [NodeType.mk "0fcfa7cc-f093-4fde-8b75-27d3008adc9b" "Outpatients" 80 20 false []] ] ]

/-- Scenario C, step 1: "Teams" is mounted at position 0 and activated. -/
def worldC1 : World ℚ :=
  toggleActive (mountAt blank 0 (SnowflakeNavigation.render treeC) 0) 0 none

/-- Scenario C, step 2: the two specialties are mounted at positions 1 and 2 and
activated. -/
def worldC2 : World ℚ :=
  toggleActive
    (toggleActive
      (mountAt (mountAt worldC1 1 (Node.render qMath worldC1 0) 0) 2
        (Node.render qMath worldC1 0) 1)
      1 none)
    2 none

/-- Scenario C, step 3: the two "Outpatients" nodes are mounted at positions 3 and 4. -/
def worldC3 : World ℚ :=
  mountAt (mountAt worldC2 3 (Node.render qMath worldC2 1) 0) 4 (Node.render qMath worldC2 2) 0

/-- An input tree whose root has three children, all inactive, with radii `80` and
`20`. -/
def tree3 : NodeType ℚ :=
  NodeType.mk "root" "" 80 20 false [leaf "s1", leaf "s2", leaf "s3"]

/-- Scenario D: sibling 2 (position 1) has been clicked. -/
def worldD1 : World ℚ := (clickNode qMath (mountTopLevel tree3) 1).getD blank

/-- Scenario D: sibling 1 (position 0) has been toggled active, before its update
runs. -/
def worldD2 : World ℚ := toggleActive worldD1 0 none

/-- Scenario D: the world after the update of sibling 1. -/
def worldD3 : World ℚ := (clickNode qMath worldD1 0).getD blank

/-- Scenario A, step 4: the collision checks run by the update of position 1. -/
def worldA4 : World ℚ := (runCollisionChecks qMath worldA3 1).getD worldA3

/-- Scenario E: scenario A with one entry of value `130` in the ledger of the active
top-level node at position 0. -/
def worldE : World ℚ := setDistanceIncreases worldA3 0 [("n1_t0", 130)]

/-- An input tree over any number type: the root has two children without children. -/
def treeTwo {α : Type} [LinearOrderedField α] : NodeType α :=
  NodeType.mk "root" "" 80 20 false
    [NodeType.mk "s1" "" 80 20 false [], NodeType.mk "s2" "" 80 20 false []]

/-! ## Mutable objects: the store of `Point` objects

Class `Point` has the in-place methods `add` and `subtract`, and `Line.move` replaces
the points of its receiver. To state what a call of `getCollisions` may change, the
objects with fields `x` and `y` are placed in a store, and the methods become programs
over the store. -/

section HeapModel

variable {α : Type}

/-- The objects with fields `x` and `y`, by address; `next` is the first free
address. -/
structure Store (α : Type) where
  next : Nat
  cell : Nat → Coords α

/-- A program over the store: it returns a result and the store it leaves. -/
def Prog (α : Type) (β : Type) : Type := Store α → β × Store α

instance : Monad (Prog α) where
  pure b := fun h => (b, h)
  bind m f := fun h => f (m h).1 (m h).2

/-- Creation of a new object with the given fields (`new Point({ x, y })`, or an object
literal). -/
def Heap.alloc (c : Coords α) : Prog α Nat :=
  fun h => (h.next, { next := h.next + 1, cell := Function.update h.cell h.next c })

/-- Read of the fields of the object at an address. -/
def Heap.read (a : Nat) : Prog α (Coords α) := fun h => (h.cell a, h)

/-- Assignment to the fields of the object at an address. -/
def Heap.write (a : Nat) (c : Coords α) : Prog α Unit :=
  fun h => ((), { next := h.next, cell := Function.update h.cell a c })

/-- A `Line` object: the addresses of its two points and the copies `x1, y1, x2, y2`
made by `setup()`. -/
structure LineObj (α : Type) where
  point1 : Nat
  point2 : Nat
  x1 : α
  y1 : α
  x2 : α
  y2 : α

/-- The fields `{ x1, y1, x2, y2 }` that `intersect` destructures from a `Line`. -/
def LineObj.toVector (l : LineObj α) : Line α :=
  { point1 := { x := l.x1, y := l.y1 }, point2 := { x := l.x2, y := l.y2 } }

/-- The constructor `new Point(p)` applied to an existing object: a copy. -/
def Heap.Point.new (p : Nat) : Prog α Nat := do
  let c ← Heap.read p
  Heap.alloc c

/-- The constructor `new Line(point1, point2)`, which keeps the two objects and runs
`setup()`. -/
def Heap.Line.new (point1 point2 : Nat) : Prog α (LineObj α) := do
  let c1 ← Heap.read point1
  let c2 ← Heap.read point2
  pure { point1 := point1, point2 := point2, x1 := c1.x, y1 := c1.y, x2 := c2.x, y2 := c2.y }

/-- The two points of a `Line` object, read from the store. -/
def Heap.Line.value (l : LineObj α) : Prog α (Line α) := do
  let c1 ← Heap.read l.point1
  let c2 ← Heap.read l.point2
  pure { point1 := c1, point2 := c2 }

variable [LinearOrderedField α]

/-- Method `Point.move` on the object at `self`: a new `Point`. -/
def Heap.Point.move (self offset : Nat) : Prog α Nat := do
  let c ← Heap.read self
  let o ← Heap.read offset
  Heap.alloc (Snowflake.Point.move c o)

/-- Method `Point.subtract` on the object at `self`: the fields of the receiver are
overwritten, and the receiver is returned. -/
def Heap.Point.subtract (self other : Nat) : Prog α Nat := do
  let c ← Heap.read self
  let o ← Heap.read other
  Heap.write self (Snowflake.Point.subtract c o)
  pure self

/-- Method `Point.negative` on the object at `self`: a new `Point`. -/
def Heap.Point.negative (self : Nat) : Prog α Nat := do
  let c ← Heap.read self
  Heap.alloc (Snowflake.Point.negative c)

/-- Method `Point.lineTo`. -/
def Heap.Point.lineTo (self point : Nat) : Prog α (LineObj α) :=
  Heap.Line.new self point

/-- Method `Line.move`: both points of the receiver are replaced by moved copies and
`setup()` is run; the receiver is returned. -/
def Heap.Line.move (l : LineObj α) (offset : Nat) : Prog α (LineObj α) := do
  let copy1 ← Heap.Point.new l.point1
  let moved1 ← Heap.Point.move copy1 offset
  let copy2 ← Heap.Point.new l.point2
  let moved2 ← Heap.Point.move copy2 offset
  Heap.Line.new moved1 moved2

/-- Method `getOffset` as a program: it reads props and state only and returns a new
`Point` with the computed fields. -/
def Heap.getOffset (M : JSMath α) (w : World α) (self : Nat) : Prog α Nat :=
  Heap.alloc (Snowflake.getOffset M w self)

/-- One element of the array that `getNodeBoundaries` returns, for the angle
`angle + diff` or `angle - diff` given as `direction`:
`new Point(offset.negative()).lineTo({ x: ..., y: ... })`. -/
def Heap.getNodeBoundaries.ray (M : JSMath α) (direction dist : α) (offset : Nat) :
    Prog α (LineObj α) := do
  let negative ← Heap.Point.negative offset
  let start ← Heap.Point.new negative
  let o ← Heap.read offset
  let target ← Heap.alloc
    { x := (M.cos (direction * 0.0174533) * dist) - o.x
      y := (M.sin (direction * 0.0174533) * dist) - o.y }
  Heap.Point.lineTo start target

/-- Method `getNodeBoundaries` as a program. -/
def Heap.getNodeBoundaries (M : JSMath α) (w : World α) (self : Nat) (dist : α) :
    Prog α (LineObj α × LineObj α) := do
  let diff := (w self).props.angleDifference / 2
  let angle := (w self).props.startingAngle.getD 0 + (w self).props.angle
  let offset ← Heap.getOffset M w self
  let first ← Heap.getNodeBoundaries.ray M (angle + diff) dist offset
  let second ← Heap.getNodeBoundaries.ray M (angle - diff) dist offset
  pure (first, second)

/-- The chain `.move(offset.negative()).move(absoluteOffset.negative()).move(ancestorOffset)`
that `getCollisions` applies to each boundary ray. -/
def Heap.getCollisions.toAbsolute (ray : LineObj α) (offset absoluteOffset ancestorOffset : Nat) :
    Prog α (LineObj α) := do
  let negativeOffset ← Heap.Point.negative offset
  let moved1 ← Heap.Line.move ray negativeOffset
  let negativeAbsolute ← Heap.Point.negative absoluteOffset
  let moved2 ← Heap.Line.move moved1 negativeAbsolute
  Heap.Line.move moved2 ancestorOffset

/-- The callback of `ancestors.map` in `getCollisions` as a program, for the node at
`self` whose prop `absolutePosition` is the object at `absolutePosition`, the ancestor
whose prop `absolutePosition` is the object at `abs`, and the objects `offset` and
`start` created before the loop with the constants `x` and `y` read from `offset`
there (here the fields of `xy`). The record is returned with the fields of the objects
it refers to. -/
def Heap.getCollisions.record (M : JSMath α) (w : World α) (self absolutePosition : Nat)
    (offset : Nat) (xy : Coords α) (start : Nat) (ancestor abs : Nat) :
    Prog α (Collision α) := do
  let boundaries ← Heap.getNodeBoundaries M w ancestor 10
  let ancestorOffset ← Heap.getOffset M w ancestor
  let ap ← Heap.read absolutePosition
  let ab ← Heap.read abs
  let ao ← Heap.read ancestorOffset
  let endPoint ← Heap.alloc
    { x := -((ap.x + xy.x) - (ab.x + ao.x))
      y := -((ap.y + xy.y) - (ab.y + ao.y)) }
  let lineAbsolute ← Heap.Line.new start endPoint
  let absoluteOffset ← (do
    let copy ← Heap.Point.new absolutePosition
    Heap.Point.subtract copy abs)
  let clockwiseAbsolute ←
    Heap.getCollisions.toAbsolute boundaries.1 offset absoluteOffset ancestorOffset
  let anticlockwiseAbsolute ←
    Heap.getCollisions.toAbsolute boundaries.2 offset absoluteOffset ancestorOffset
  let clockwiseIntersect := intersect lineAbsolute.toVector clockwiseAbsolute.toVector
  let anticlockwiseIntersect := intersect lineAbsolute.toVector anticlockwiseAbsolute.toVector
  let endPointValue ← Heap.read endPoint
  let lineValue ← Heap.Line.value lineAbsolute
  let clockwiseValue ← Heap.Line.value clockwiseAbsolute
  let anticlockwiseValue ← Heap.Line.value anticlockwiseAbsolute
  pure
    { endPoint := endPointValue
      line := lineValue
      intersectionData :=
        { line := lineValue
          clockwise := jsAnd clockwiseIntersect clockwiseValue
          anticlockwise := jsAnd anticlockwiseIntersect anticlockwiseValue }
      clockwise := clockwiseIntersect
      anticlockwise := anticlockwiseIntersect
      hasIntersect := clockwiseIntersect.isSome || anticlockwiseIntersect.isSome
      intersect := jsOr clockwiseIntersect anticlockwiseIntersect
      node := self
      ancestor := ancestor }

/-- The method `Array.prototype.map` with a callback that is a program: the callback is
run on the elements in order. -/
def Heap.mapProg {β γ : Type} (f : β → Prog α γ) : List β → Prog α (List γ)
  | [] => pure []
  | b :: rest => do
    let c ← f b
    let cs ← Heap.mapProg f rest
    pure (c :: cs)

/-- A snapshot: the props and state of the mounted instances, the address of the object
held by the prop `absolutePosition` of each instance, and the store. -/
structure Snapshot (α : Type) where
  world : World α
  absolutePositionRef : Nat → Nat
  store : Store α

/-- Method `getCollisions` as a program over the store. -/
def Heap.getCollisions.prog (M : JSMath α) (w : World α) (absolutePositionRef : Nat → Nat)
    (self : Nat) : Prog α (List (Collision α)) := do
  let offset ← Heap.getOffset M w self
  let xy ← Heap.read offset
  let start ← Heap.alloc { x := 0, y := 0 }
  Heap.mapProg
    (fun ancestor => Heap.getCollisions.record M w self (absolutePositionRef self) offset xy
      start ancestor (absolutePositionRef ancestor))
    (w self).props.ancestors

/-- Method `getCollisions` on a snapshot: the records and the snapshot after the
call. -/
def Heap.getCollisions (M : JSMath α) (s : Snapshot α) (self : Nat) :
    List (Collision α) × Snapshot α :=
  ((Heap.getCollisions.prog M s.world s.absolutePositionRef self s.store).1,
    { s with store := (Heap.getCollisions.prog M s.world s.absolutePositionRef self s.store).2 })

/-- The object at address `a` exists in the store and has the fields `v`. -/
def Store.Holds (h : Store α) (a : Nat) (v : Coords α) : Prop :=
  a < h.next ∧ h.cell a = v

/-- The objects held by the props `absolutePosition` of the node at `self` and of its
ancestors exist in the store and have the fields recorded in the props. -/
def Snapshot.Consistent (s : Snapshot α) (self : Nat) : Prop :=
  ∀ p ∈ self :: (s.world self).props.ancestors,
    s.store.Holds (s.absolutePositionRef p) (s.world p).props.absolutePosition

end HeapModel

/-- Scenario B as a snapshot: the objects of the props `absolutePosition` of the three
mounted instances are at the addresses `0, 1, 2`. -/
def snapshotB : Snapshot ℚ :=
  { world := worldB4
    absolutePositionRef := fun p => p
    store := { next := 3, cell := fun p => (worldB4 p).props.absolutePosition } }

section HeapSpec

variable {α : Type}

/-- The store `h2` extends `h1`: every object of `h1` exists in `h2` with the same
fields. -/
def Store.Frame (h1 h2 : Store α) : Prop :=
  h1.next ≤ h2.next ∧ ∀ a : Nat, a < h1.next → h2.cell a = h1.cell a

/-- Run from the store `h`, the program `m` leaves every existing object unchanged and
returns a result and a store that satisfy `Q`. -/
def Prog.Spec {β : Type} (m : Prog α β) (h : Store α) (Q : β → Store α → Prop) : Prop :=
  h.Frame (m h).2 ∧ Q (m h).1 (m h).2

/-- The `Line` object `l` has its two points in the store with the fields of `v`, and
its copies `x1, y1, x2, y2` agree with them. -/
def LineObj.Holds (h : Store α) (l : LineObj α) (v : Line α) : Prop :=
  h.Holds l.point1 v.point1 ∧ h.Holds l.point2 v.point2 ∧ l.toVector = v

end HeapSpec

/-! ## Further quantities named by the specification -/

section SpecDefsMore

variable {α : Type} [LinearOrderedField α]

/-- The absolute position of the node at `p`: its prop `absolutePosition` moved by its
offset (specification §4.3). -/
def Spec.absolute (M : JSMath α) (w : World α) (p : Nat) : Coords α :=
  Point.move (w p).props.absolutePosition (getOffset M w p)

/-- The direction vector of a segment: its second point minus its first. -/
def Line.direction (l : Line α) : Coords α :=
  Point.subtract l.point2 l.point1

/-- The point of parameter `t` on the line through a segment:
`p1 + t * (p2 - p1)`. -/
def Line.pointAt (l : Line α) (t : α) : Coords α :=
  { x := l.point1.x + t * (l.point2.x - l.point1.x)
    y := l.point1.y + t * (l.point2.y - l.point1.y) }

/-- The 2D cross product of two vectors. -/
def Spec.cross (u v : Coords α) : α := u.x * v.y - u.y * v.x

end SpecDefsMore

section ChainDefs

variable {α : Type} [LinearOrderedField α]

/-- A chain of rendered nodes, listed from the last node `n_m` back to the top-level
node `n_1`: the props of `n_1` are among those created by `SnowflakeNavigation.render`
for the tree, and the props of each `n_(j+1)` are among those created by `Node.render`
of `n_j`. -/
def RenderedChain [FloorRing α] (M : JSMath α) (tree : NodeType α) (w : World α) :
    List Nat → Prop
  | [] => False
  | [p] => (w p).props ∈ SnowflakeNavigation.render tree
  | q :: p :: rest => (w q).props ∈ Node.render M w p ∧ RenderedChain M tree w (p :: rest)

/-- The vector sum of `getOffset` over a list of nodes given from the innermost back to
the top-level node, accumulated from the origin outwards. -/
def Spec.offsetSum (M : JSMath α) (w : World α) : List Nat → Coords α
  | [] => { x := 0, y := 0 }
  | p :: rest => Point.move (Spec.offsetSum M w rest) (getOffset M w p)

end ChainDefs

/-! ## Update cycle and event traces -/

section UpdateDefs

variable {α : Type} [LinearOrderedField α]

/-- What `componentDidUpdate` does in one call: it runs the cleanup actions, or the
collision checks, or nothing. -/
inductive UpdateBranch where
  | cleanup
  | collisionChecks
  | nothing
deriving DecidableEq, Repr

/-- The branch that `componentDidUpdate` takes, by the two conditions of the source. -/
def componentDidUpdate.branch (w : World α) (self : Nat) (oldProps : NodeProps α)
    (oldState : NodeState α) : UpdateBranch :=
  if oldState.active && !(w self).state.active then UpdateBranch.cleanup
  else if !(Obj.sameEntries oldState.distanceIncreases (w self).state.distanceIncreases)
      || decide (oldProps.absolutePosition ≠ (w self).props.absolutePosition)
      || (!oldState.active && (w self).state.active) then
    UpdateBranch.collisionChecks
  else UpdateBranch.nothing

/-- A call `target.setState({ distanceIncreases })` that React has queued during a
commit. React merges the queued partial states of an instance into its state in the
order of the calls, after the lifecycle methods of the commit have run. -/
structure QueuedLedger (α : Type) where
  target : Nat
  distanceIncreases : List (String × α)

/-- Method `clearDistance` called during a commit: `this.state.distanceIncreases` is the
ledger of the committed world `w`, whatever has been queued before, and the call of
`setState` is queued. -/
def clearDistance.queued (w : World α) (self : Nat) (id : String) : QueuedLedger α :=
  { target := self, distanceIncreases := Obj.erase (w self).state.distanceIncreases id }

/-- The loop `Object.values(this.state.deactivateActions).forEach((action) => action())`
during a commit: every action is a call of `clearDistance` on its target. -/
def runDeactivateActions.queued (w : World α) (actions : List (String × DeactivateAction)) :
    List (QueuedLedger α) :=
  (Obj.values actions).map fun action => clearDistance.queued w action.target action.id

/-- Method `componentWillUnmount` during a commit. -/
def componentWillUnmount.queued (w : World α) (self : Nat) : List (QueuedLedger α) :=
  runDeactivateActions.queued w (w self).state.deactivateActions

/-- The world after React has merged the queued states, in the order of the calls: a
later call for the same instance replaces the ledger of an earlier one. -/
def flushQueue (w : World α) (queue : List (QueuedLedger α)) : World α :=
  queue.foldl (fun w u => setDistanceIncreases w u.target u.distanceIncreases) w

/-- The calls of `setState` queued in the commit in which the node at `self` has become
inactive (branch `cleanup` of `componentDidUpdate`): React first calls
`componentWillUnmount` on the instances that the node no longer renders (`unmounted`,
its mounted descendants), then `componentDidUpdate` on the node. A call on an instance
that is being unmounted has no effect. -/
def commitDeactivation.queue (w : World α) (self : Nat) (unmounted : List Nat) :
    List (QueuedLedger α) :=
  ((unmounted.map (componentWillUnmount.queued w)).flatten
      ++ runDeactivateActions.queued w (w self).state.deactivateActions).filter
    fun u => decide (u.target ∉ unmounted)

/-- The world after the commit in which the node at `self` has become inactive. -/
def commitDeactivation (w : World α) (self : Nat) (unmounted : List Nat) : World α :=
  flushQueue w (commitDeactivation.queue w self unmounted)

/-- A new render of the parent passes new props to the mounted instance at `position`;
its state is kept. -/
def rerenderAt (w : World α) (position : Nat) (rendered : List (NodeProps α)) (i : Nat) :
    World α :=
  Function.update w position { (w position) with props := rendered.getD i blankProps }

end UpdateDefs

/-- Scenario F: scenario A with an entry of `200` in the ledger of the child at
position 1, which lies further from its parent. -/
def worldF1 : World ℚ := setDistanceIncreases worldA3 1 [("g0_n0", 200)]

/-- Scenario F: the record of the child for its parent. -/
def recordF : Collision ℚ := getCollisions.record qMath worldF1 1 0

/-- Scenario F: the anticlockwise boundary ray of the parent, in the frame of the
child. -/
def rayF : Line ℚ := recordF.intersectionData.anticlockwise.getD (seg 0 0 0 0)

section SpecDefsWedges

variable {α : Type} [LinearOrderedField α]

/-- The lower boundary angle of the wedge of a node, relative to its starting angle:
`angle - angleDifference / 2`, the local angle of the second ray of
`getNodeBoundaries`. -/
def Spec.wedgeLow (props : NodeProps α) : α := props.angle - props.angleDifference / 2

/-- The upper boundary angle of the wedge of a node, relative to its starting angle:
`angle + angleDifference / 2`, the local angle of the first ray of
`getNodeBoundaries`. -/
def Spec.wedgeHigh (props : NodeProps α) : α := props.angle + props.angleDifference / 2

/-- The segment from `b.p1` to `b.p1 + s * (b.p2 - b.p1)`: the segment `b` with its
length scaled by the factor `s`. -/
def Spec.rescale (b : Line α) (s : α) : Line α :=
  { point1 := b.point1, point2 := b.pointAt s }

end SpecDefsWedges

/-- An input tree: the root has six children, the first of which (`t0`) has three, the
first of which (`n0`) has one (`g0`). -/
def treeH : NodeType ℚ :=
  NodeType.mk "root" "" 80 20 false
    [ NodeType.mk "t0" "" 80 20 false
        [NodeType.mk "n0" "" 80 20 false [leaf "g0"], leaf "n1", leaf "n2"],
      leaf "t1", leaf "t2", leaf "t3", leaf "t4", leaf "t5" ]

/-- Scenario H, click on `t0`: the node is mounted at position 0 and activated. -/
def worldH1 : World ℚ :=
  toggleActive (mountAt blank 0 (SnowflakeNavigation.render treeH) 0) 0 none

/-- Scenario H, click on `n0`: the node is mounted at position 1 and activated. -/
def worldH2 : World ℚ :=
  toggleActive (mountAt worldH1 1 (Node.render qMath worldH1 0) 0) 1 none

/-- Scenario H: the collision checks of `n0` write the entry `n0_t0` at `t0`. -/
def worldH3 : World ℚ := (runCollisionChecks qMath worldH2 1).getD worldH2

/-- Scenario H: `t0` has moved and renders `n0` with its new absolute position. -/
def worldH4 : World ℚ := rerenderAt worldH3 1 (Node.render qMath worldH3 0) 0

/-- Scenario H, click on `g0`: the node is mounted at position 2 and activated. -/
def worldH5 : World ℚ :=
  toggleActive (mountAt worldH4 2 (Node.render qMath worldH4 1) 0) 2 none

/-- Scenario H: the collision checks of `g0` write the entry `g0_t0` at `t0`. -/
def worldH6 : World ℚ := (runCollisionChecks qMath worldH5 2).getD worldH5

/-- Scenario H: `t0` has moved again and `n0` and `g0` are rendered with their new
absolute positions. -/
def worldH7 : World ℚ :=
  rerenderAt (rerenderAt worldH6 1 (Node.render qMath worldH6 0) 0) 2
    (Node.render qMath (rerenderAt worldH6 1 (Node.render qMath worldH6 0) 0) 1) 0

/-- Scenario H, second click on `n0`: the node is inactive when the commit starts. -/
def worldH8 : World ℚ := toggleActive worldH7 1 none

/-! ## Auxiliary lemmas -/

section Lemmas

variable {α : Type} [LinearOrderedField α]

theorem mathMax_isGreatest (init : List α) (last : α) :
    IsGreatest (insert last {v | v ∈ init}) (mathMax init last) := by
  induction init with
  | nil => simp [mathMax, IsGreatest, upperBounds]
  | cons a rest ih =>
    obtain ⟨hmem, hub⟩ := ih
    have hfold : mathMax (a :: rest) last = max a (mathMax rest last) := rfl
    rw [hfold]
    constructor
    · rcases le_total a (mathMax rest last) with h | h
      · rw [max_eq_right h]
        rcases hmem with h1 | h1
        · exact Or.inl h1
        · exact Or.inr (List.mem_cons_of_mem _ h1)
      · rw [max_eq_left h]
        exact Or.inr (List.mem_cons_self _ _)
    · intro x hx
      rcases hx with h1 | h1
      · exact le_trans (hub (Or.inl h1)) (le_max_right _ _)
      · rcases List.mem_cons.mp h1 with h2 | h2
        · rw [h2]; exact le_max_left _ _
        · exact le_trans (hub (Or.inr h2)) (le_max_right _ _)

section ObjLemmas

omit [LinearOrderedField α]

variable {β : Type}

theorem Obj.get?_set (o : List (String × β)) (k : String) (v : β) (k' : String) :
    Obj.get? (Obj.set o k v) k' = if k' = k then some v else Obj.get? o k' := by
  induction o with
  | nil =>
    by_cases h : k' = k
    · subst h; simp [Obj.set, Obj.get?]
    · have h' : ¬ k = k' := fun e => h e.symm
      simp [Obj.set, Obj.get?, h, h']
  | cons e rest ih =>
    by_cases hek : e.1 = k
    · by_cases h : k' = k
      · subst h; simp [Obj.set, Obj.get?, hek]
      · have h' : ¬ k = k' := fun e => h e.symm
        simp [Obj.set, Obj.get?, hek, h, h']
    · simp only [Obj.set, hek, if_false, Obj.get?, ih]
      by_cases h : k' = k
      · subst h; simp [hek]
      · simp [h]

theorem Obj.erase_of_get?_none (o : List (String × β)) (k : String)
    (h : Obj.get? o k = none) : Obj.erase o k = o := by
  induction o with
  | nil => rfl
  | cons e rest ih =>
    by_cases hek : e.1 = k
    · simp [Obj.get?, hek] at h
    · simp only [Obj.get?, hek, if_false] at h
      simp [Obj.erase, hek, ih h]

theorem Obj.erase_set_of_get?_none (o : List (String × β)) (k : String) (v : β)
    (h : Obj.get? o k = none) : Obj.erase (Obj.set o k v) k = o := by
  induction o with
  | nil => simp [Obj.set, Obj.erase]
  | cons e rest ih =>
    by_cases hek : e.1 = k
    · simp [Obj.get?, hek] at h
    · simp only [Obj.get?, hek, if_false] at h
      simp [Obj.set, Obj.erase, hek, ih h]

theorem Obj.get?_erase (o : List (String × β)) (k k' : String) :
    Obj.get? (Obj.erase o k) k' = if k' = k then none else Obj.get? o k' := by
  induction o with
  | nil => simp [Obj.erase, Obj.get?]
  | cons e rest ih =>
    by_cases hek : e.1 = k
    · simp only [Obj.erase, hek, if_true, ih, Obj.get?]
      by_cases h : k' = k
      · simp [h]
      · have h' : ¬ k = k' := fun e => h e.symm
        simp [h, h']
    · simp only [Obj.erase, hek, if_false, Obj.get?, ih]
      by_cases h : k' = k
      · subst h; simp [hek]
      · simp [h]

theorem Obj.erase_erase (o : List (String × β)) (k : String) :
    Obj.erase (Obj.erase o k) k = Obj.erase o k :=
  Obj.erase_of_get?_none _ _ (by simp [Obj.get?_erase])

end ObjLemmas

section WorldLemmas

omit [LinearOrderedField α]

theorem getRadius_active (w : World α) (self : Nat) (h : (w self).state.active = true) :
    getRadius w self = (w self).props.node.activeRadius := by
  simp [getRadius, h]

theorem setDistanceIncreases_props (w : World α) (p : Nat) (d : List (String × α)) (q : Nat) :
    (setDistanceIncreases w p d q).props = (w q).props := by
  by_cases h : q = p
  · subst h; simp [setDistanceIncreases]
  · simp [setDistanceIncreases, Function.update_noteq h]

theorem setDistanceIncreases_active (w : World α) (p : Nat) (d : List (String × α)) (q : Nat) :
    (setDistanceIncreases w p d q).state.active = (w q).state.active := by
  by_cases h : q = p
  · subst h; simp [setDistanceIncreases]
  · simp [setDistanceIncreases, Function.update_noteq h]

theorem setDistanceIncreases_actions (w : World α) (p : Nat) (d : List (String × α)) (q : Nat) :
    (setDistanceIncreases w p d q).state.deactivateActions = (w q).state.deactivateActions := by
  by_cases h : q = p
  · subst h; simp [setDistanceIncreases]
  · simp [setDistanceIncreases, Function.update_noteq h]

theorem setDistanceIncreases_ledger (w : World α) (p : Nat) (d : List (String × α)) (q : Nat) :
    (setDistanceIncreases w p d q).state.distanceIncreases
      = if q = p then d else (w q).state.distanceIncreases := by
  by_cases h : q = p
  · subst h; simp [setDistanceIncreases]
  · simp [setDistanceIncreases, Function.update_noteq h, h]

theorem setDeactivateActions_props (w : World α) (p : Nat)
    (d : List (String × DeactivateAction)) (q : Nat) :
    (setDeactivateActions w p d q).props = (w q).props := by
  by_cases h : q = p
  · subst h; simp [setDeactivateActions]
  · simp [setDeactivateActions, Function.update_noteq h]

theorem setDeactivateActions_active (w : World α) (p : Nat)
    (d : List (String × DeactivateAction)) (q : Nat) :
    (setDeactivateActions w p d q).state.active = (w q).state.active := by
  by_cases h : q = p
  · subst h; simp [setDeactivateActions]
  · simp [setDeactivateActions, Function.update_noteq h]

theorem setDeactivateActions_ledger (w : World α) (p : Nat)
    (d : List (String × DeactivateAction)) (q : Nat) :
    (setDeactivateActions w p d q).state.distanceIncreases = (w q).state.distanceIncreases := by
  by_cases h : q = p
  · subst h; simp [setDeactivateActions]
  · simp [setDeactivateActions, Function.update_noteq h]

theorem setDeactivateActions_actions (w : World α) (p : Nat)
    (d : List (String × DeactivateAction)) (q : Nat) :
    (setDeactivateActions w p d q).state.deactivateActions
      = if q = p then d else (w q).state.deactivateActions := by
  by_cases h : q = p
  · subst h; simp [setDeactivateActions]
  · simp [setDeactivateActions, Function.update_noteq h, h]

theorem setActive_props (w : World α) (p : Nat) (a : Bool) (q : Nat) :
    (setActive w p a q).props = (w q).props := by
  by_cases h : q = p
  · subst h; simp [setActive]
  · simp [setActive, Function.update_noteq h]

theorem setActive_active (w : World α) (p : Nat) (a : Bool) (q : Nat) :
    (setActive w p a q).state.active = if q = p then a else (w q).state.active := by
  by_cases h : q = p
  · subst h; simp [setActive]
  · simp [setActive, Function.update_noteq h, h]

theorem setActive_ledger (w : World α) (p : Nat) (a : Bool) (q : Nat) :
    (setActive w p a q).state.distanceIncreases = (w q).state.distanceIncreases := by
  by_cases h : q = p
  · subst h; simp [setActive]
  · simp [setActive, Function.update_noteq h]

theorem setActive_actions (w : World α) (p : Nat) (a : Bool) (q : Nat) :
    (setActive w p a q).state.deactivateActions = (w q).state.deactivateActions := by
  by_cases h : q = p
  · subst h; simp [setActive]
  · simp [setActive, Function.update_noteq h]

end WorldLemmas

section RunLemmas

omit [LinearOrderedField α]

theorem clearDistance_props (w : World α) (p : Nat) (id : String) (q : Nat) :
    (clearDistance w p id q).props = (w q).props := by
  simp [clearDistance, setDistanceIncreases_props]

theorem clearDistance_active (w : World α) (p : Nat) (id : String) (q : Nat) :
    (clearDistance w p id q).state.active = (w q).state.active := by
  simp [clearDistance, setDistanceIncreases_active]

theorem clearDistance_actions (w : World α) (p : Nat) (id : String) (q : Nat) :
    (clearDistance w p id q).state.deactivateActions = (w q).state.deactivateActions := by
  simp [clearDistance, setDistanceIncreases_actions]

theorem clearDistance_ledger (w : World α) (p : Nat) (id : String) (q : Nat) :
    (clearDistance w p id q).state.distanceIncreases
      = if q = p then Obj.erase (w p).state.distanceIncreases id
        else (w q).state.distanceIncreases := by
  simp [clearDistance, setDistanceIncreases_ledger]

theorem runDeactivateActions_cons (w : World α) (e : String × DeactivateAction)
    (rest : List (String × DeactivateAction)) :
    runDeactivateActions w (e :: rest)
      = runDeactivateActions (clearDistance w e.2.target e.2.id) rest := by
  simp [runDeactivateActions, Obj.values]

theorem runDeactivateActions_props (actions : List (String × DeactivateAction)) (w : World α)
    (q : Nat) : (runDeactivateActions w actions q).props = (w q).props := by
  induction actions generalizing w with
  | nil => simp [runDeactivateActions, Obj.values]
  | cons e rest ih => rw [runDeactivateActions_cons, ih, clearDistance_props]

theorem runDeactivateActions_active (actions : List (String × DeactivateAction)) (w : World α)
    (q : Nat) : (runDeactivateActions w actions q).state.active = (w q).state.active := by
  induction actions generalizing w with
  | nil => simp [runDeactivateActions, Obj.values]
  | cons e rest ih => rw [runDeactivateActions_cons, ih, clearDistance_active]

theorem runDeactivateActions_actions (actions : List (String × DeactivateAction)) (w : World α)
    (q : Nat) :
    (runDeactivateActions w actions q).state.deactivateActions
      = (w q).state.deactivateActions := by
  induction actions generalizing w with
  | nil => simp [runDeactivateActions, Obj.values]
  | cons e rest ih => rw [runDeactivateActions_cons, ih, clearDistance_actions]

/-- Running cleanup actions that address the ledger of `p` only under `key` erases at
most that key from the ledger of `p`. -/
theorem runDeactivateActions_ledger (actions : List (String × DeactivateAction)) (w : World α)
    (p : Nat) (key : String)
    (hall : ∀ e ∈ actions, e.2.target = p → e.2.id = key) :
    (runDeactivateActions w actions p).state.distanceIncreases
      = if ∃ e ∈ actions, e.2.target = p then Obj.erase (w p).state.distanceIncreases key
        else (w p).state.distanceIncreases := by
  induction actions generalizing w with
  | nil => simp [runDeactivateActions, Obj.values]
  | cons e rest ih =>
    have hrest : ∀ e ∈ rest, e.2.target = p → e.2.id = key :=
      fun e' he' => hall e' (List.mem_cons_of_mem _ he')
    rw [runDeactivateActions_cons, ih _ hrest, clearDistance_ledger]
    by_cases he : e.2.target = p
    · have hid : e.2.id = key := hall e (List.mem_cons_self _ _) he
      have hex : ∃ e' ∈ e :: rest, e'.2.target = p := ⟨e, List.mem_cons_self _ _, he⟩
      rw [if_pos hex, if_pos he.symm, he, hid]
      by_cases hr : ∃ e' ∈ rest, e'.2.target = p
      · rw [if_pos hr, Obj.erase_erase]
      · rw [if_neg hr]
    · have hne : ¬ p = e.2.target := fun h => he h.symm
      rw [if_neg hne]
      by_cases hr : ∃ e' ∈ rest, e'.2.target = p
      · have hex : ∃ e' ∈ e :: rest, e'.2.target = p := by
          obtain ⟨e', h1, h2⟩ := hr
          exact ⟨e', List.mem_cons_of_mem _ h1, h2⟩
        rw [if_pos hr, if_pos hex]
      · have hex : ¬ ∃ e' ∈ e :: rest, e'.2.target = p := by
          rintro ⟨e', h1, h2⟩
          rcases List.mem_cons.mp h1 with h3 | h3
          · exact he (h3 ▸ h2)
          · exact hr ⟨e', h3, h2⟩
        rw [if_neg hr, if_neg hex]

theorem Obj.set_mem (o : List (String × DeactivateAction)) (k : String)
    (v : DeactivateAction) : (k, v) ∈ Obj.set o k v := by
  induction o with
  | nil => simp [Obj.set]
  | cons e rest ih =>
    by_cases h : e.1 = k
    · simp [Obj.set, h]
    · simp only [Obj.set, h, if_false]
      exact List.mem_cons_of_mem _ ih

theorem Obj.mem_set (o : List (String × DeactivateAction)) (k : String)
    (v : DeactivateAction) (e : String × DeactivateAction) (he : e ∈ Obj.set o k v) :
    e = (k, v) ∨ e ∈ o := by
  induction o with
  | nil => simp [Obj.set] at he; exact Or.inl he
  | cons a rest ih =>
    by_cases h : a.1 = k
    · simp only [Obj.set, h, if_true] at he
      rcases List.mem_cons.mp he with h1 | h1
      · exact Or.inl h1
      · exact Or.inr (List.mem_cons_of_mem _ h1)
    · simp only [Obj.set, h, if_false] at he
      rcases List.mem_cons.mp he with h1 | h1
      · exact Or.inr (h1 ▸ List.mem_cons_self _ _)
      · rcases ih h1 with h2 | h2
        · exact Or.inl h2
        · exact Or.inr (List.mem_cons_of_mem _ h2)

theorem Obj.eq_nil_of_get?_none {β : Type} (o : List (String × β))
    (h : ∀ k, Obj.get? o k = none) : o = [] := by
  cases o with
  | nil => rfl
  | cons e rest =>
    have := h e.1
    simp [Obj.get?] at this

theorem jsAnd_ray {β γ : Type} (cw acw : Option γ) (a b : β)
    (h : (cw.isSome || acw.isSome) = true) :
    ∃ r : β, jsAnd cw a = some r ∨ (jsAnd cw a = none ∧ jsAnd acw b = some r) := by
  cases cw <;> cases acw <;> simp [jsAnd] at h ⊢

/-- The selection of `runCollisionChecks` is the last record with `hasIntersect`. -/
theorem lastCollision_append (pre post : List (Collision α)) (c : Collision α)
    (hc : c.hasIntersect = true) (hpost : ∀ d ∈ post, d.hasIntersect = false) :
    runCollisionChecks.lastCollision (pre ++ c :: post) = some c := by
  have hfp : post.filter (fun c => c.hasIntersect) = [] := by
    rw [List.filter_eq_nil_iff]
    intro d hd
    simp [hpost d hd]
  simp [runCollisionChecks.lastCollision, List.filter_append, List.filter_cons, hc, hfp]

/-- Nothing is selected when no record has `hasIntersect`. -/
theorem lastCollision_none (records : List (Collision α))
    (hnone : ∀ d ∈ records, d.hasIntersect = false) :
    runCollisionChecks.lastCollision records = none := by
  have hfp : records.filter (fun c => c.hasIntersect) = [] := by
    rw [List.filter_eq_nil_iff]
    intro d hd
    simp [hnone d hd]
  simp [runCollisionChecks.lastCollision, hfp]

end RunLemmas

/-- The offset of a node depends only on its props, its active flag, its ledger and the
radius of its parent. -/
theorem getOffset_congr (M : JSMath α) (w w2 : World α) (p : Nat)
    (hprops : (w2 p).props = (w p).props)
    (hactive : (w2 p).state.active = (w p).state.active)
    (hledger : (w2 p).state.distanceIncreases = (w p).state.distanceIncreases)
    (hparent : ∀ parent, (w p).props.parent = some parent →
      parent.getRadius w2 = parent.getRadius w) :
    getOffset M w2 p = getOffset M w p := by
  unfold getOffset
  rw [hprops]
  cases hp : (w p).props.parent with
  | none => rfl
  | some parent =>
    have hrad : getRadius w2 p = getRadius w p := by
      simp [getRadius, hprops, hactive]
    have hdist : getOffset.dist w2 p parent = getOffset.dist w p parent := by
      simp [getOffset.dist, getOffset.offsetDistance, hrad, hactive, hledger,
        hparent parent hp]
    simp [hdist]

/-- The world that `updatePosition` returns for a record whose intersecting ray is
`r`. -/
theorem updatePosition_eq (M : JSMath α) (w : World α) (self : Nat) (c : Collision α)
    (r : Line α)
    (hr : c.intersectionData.clockwise = some r
      ∨ (c.intersectionData.clockwise = none ∧ c.intersectionData.anticlockwise = some r)) :
    updatePosition M w self c
      = some (removeOnDeactivate
          (setDistanceIncreases w self
            (Obj.set (w self).state.distanceIncreases (updatePosition.distanceId w c)
              (updatePosition.distance M w c r)))
          c.node (updatePosition.distanceId w c)
          { target := self, id := updatePosition.distanceId w c }) := by
  have hor : jsOr c.intersectionData.clockwise c.intersectionData.anticlockwise = some r := by
    rcases hr with h | ⟨h1, h2⟩
    · simp [jsOr, h]
    · simp [jsOr, h1, h2]
  simp [updatePosition, hor]

/-- The records of `getCollisions` are the records built for the listed ancestors. -/
theorem mem_getCollisions (M : JSMath α) (w : World α) (self : Nat) (c : Collision α) :
    c ∈ getCollisions M w self
      ↔ ∃ a ∈ (w self).props.ancestors, getCollisions.record M w self a = c := by
  simp [getCollisions]

/-- A record of `getCollisions` with `hasIntersect` carries an intersecting ray. -/
theorem record_ray_of_hasIntersect (M : JSMath α) (w : World α) (self : Nat)
    (c : Collision α) (hc : c ∈ getCollisions M w self) (hi : c.hasIntersect = true) :
    ∃ r : Line α, c.intersectionData.clockwise = some r
      ∨ (c.intersectionData.clockwise = none ∧ c.intersectionData.anticlockwise = some r) := by
  obtain ⟨a, _, hrec⟩ := (mem_getCollisions M w self c).mp hc
  subst hrec
  exact jsAnd_ray _ _ _ _ hi

end Lemmas

section MonotoneLemmas

variable {α : Type}

theorem Obj.mem_set_self {β : Type} (o : List (String × β)) (k : String) (v : β) :
    (k, v) ∈ Obj.set o k v := by
  induction o with
  | nil => simp [Obj.set]
  | cons e rest ih =>
    by_cases h : e.1 = k
    · simp [Obj.set, h]
    · simp only [Obj.set, h, if_false]
      exact List.mem_cons_of_mem _ ih

/-- An entry of an object is still an entry after `Obj.set`, unless it is the entry
that was read under the key. -/
theorem Obj.mem_set_or_replaced {β : Type} (o : List (String × β)) (k : String) (v : β)
    (e : String × β) (he : e ∈ o) : e ∈ Obj.set o k v ∨ Obj.get? o k = some e.2 := by
  induction o with
  | nil => cases he
  | cons a rest ih =>
    by_cases h : a.1 = k
    · rcases List.mem_cons.mp he with h1 | h1
      · right; simp [Obj.get?, h, h1]
      · left; simp only [Obj.set, h, if_true]; exact List.mem_cons_of_mem _ h1
    · rcases List.mem_cons.mp he with h1 | h1
      · left; simp only [Obj.set, h, if_false, h1]; exact List.mem_cons_self _ _
      · rcases ih h1 with h2 | h2
        · left; simp only [Obj.set, h, if_false]; exact List.mem_cons_of_mem _ h2
        · right; simp only [Obj.get?, h, if_false]; exact h2

theorem getRadius_setDistanceIncreases (w : World α) (p : Nat) (d : List (String × α))
    (q : Nat) : getRadius (setDistanceIncreases w p d) q = getRadius w q := by
  simp [getRadius, setDistanceIncreases_props, setDistanceIncreases_active]

theorem ParentRef.getRadius_setLedger [LinearOrderedField α] (w : World α)
    (p : Nat) (d : List (String × α)) (parent : ParentRef) :
    parent.getRadius (setDistanceIncreases w p d) = parent.getRadius w := by
  cases parent with
  | root => rfl
  | node q => exact Snowflake.getRadius_setDistanceIncreases w p d q

/-- The value of `Math.max(...values, last)` does not decrease when an entry is added
to the object or the value of an existing entry is raised. -/
theorem mathMax_set_le [LinearOrderedField α] (o : List (String × α)) (k : String) (v last : α)
    (hraise : ∀ v0, Obj.get? o k = some v0 → v0 ≤ v) :
    mathMax (Obj.values o) last ≤ mathMax (Obj.values (Obj.set o k v)) last := by
  obtain ⟨hmem, _⟩ := mathMax_isGreatest (Obj.values o) last
  obtain ⟨_, hub⟩ := mathMax_isGreatest (Obj.values (Obj.set o k v)) last
  have hv : v ≤ mathMax (Obj.values (Obj.set o k v)) last := by
    apply hub
    right
    exact List.mem_map.mpr ⟨(k, v), Obj.mem_set_self o k v, rfl⟩
  rcases hmem with h | h
  · rw [h]; exact hub (Or.inl rfl)
  · obtain ⟨e, he, hx⟩ := List.mem_map.mp h
    rcases Obj.mem_set_or_replaced o k v e he with h1 | h1
    · rw [← hx]
      exact hub (Or.inr (List.mem_map.mpr ⟨e, h1, rfl⟩))
    · rw [← hx]
      exact le_trans (hraise e.2 h1) hv

end MonotoneLemmas

section HeapLemmas

variable {α : Type}

theorem Store.Frame.refl (h : Store α) : h.Frame h := ⟨le_refl _, fun _ _ => rfl⟩

theorem Store.Frame.trans {h1 h2 h3 : Store α} (h12 : h1.Frame h2) (h23 : h2.Frame h3) :
    h1.Frame h3 :=
  ⟨le_trans h12.1 h23.1,
    fun a ha => (h23.2 a (lt_of_lt_of_le ha h12.1)).trans (h12.2 a ha)⟩

theorem Store.Holds.frame {h1 h2 : Store α} {a : Nat} {v : Coords α}
    (hv : h1.Holds a v) (hf : h1.Frame h2) : h2.Holds a v :=
  ⟨lt_of_lt_of_le hv.1 hf.1, (hf.2 a hv.1).trans hv.2⟩

theorem LineObj.Holds.frameLine {h1 h2 : Store α} {l : LineObj α} {v : Line α}
    (hv : LineObj.Holds h1 l v) (hf : h1.Frame h2) : LineObj.Holds h2 l v :=
  ⟨hv.1.frame hf, hv.2.1.frame hf, hv.2.2⟩

theorem Prog.Spec.pure {β : Type} (b : β) (h : Store α) (Q : β → Store α → Prop)
    (hq : Q b h) : Prog.Spec (Pure.pure b : Prog α β) h Q :=
  ⟨Store.Frame.refl h, hq⟩

theorem Prog.Spec.bind {β γ : Type} {m : Prog α β} {f : β → Prog α γ} {h : Store α}
    {Q : β → Store α → Prop} {R : γ → Store α → Prop}
    (hm : Prog.Spec m h Q)
    (hf : ∀ (b : β) (h1 : Store α), h.Frame h1 → Q b h1 → Prog.Spec (f b) h1 R) :
    Prog.Spec (m >>= f) h R := by
  obtain ⟨hframe, hq⟩ := hm
  obtain ⟨hframe2, hr⟩ := hf (m h).1 (m h).2 hframe hq
  exact ⟨hframe.trans hframe2, hr⟩

theorem Prog.Spec.mono {β : Type} {m : Prog α β} {h : Store α}
    {Q R : β → Store α → Prop} (hm : Prog.Spec m h Q)
    (hqr : ∀ (b : β) (h1 : Store α), h.Frame h1 → Q b h1 → R b h1) :
    Prog.Spec m h R :=
  ⟨hm.1, hqr _ _ hm.1 hm.2⟩

/-- A new object is fresh and has the given fields. -/
theorem Heap.alloc_spec (c : Coords α) (h : Store α) :
    Prog.Spec (Heap.alloc c) h (fun a h1 => h1.Holds a c ∧ h.next ≤ a) := by
  refine ⟨⟨Nat.le_succ _, ?_⟩, ⟨Nat.lt_succ_self _, ?_⟩, le_refl _⟩
  · intro a ha
    exact Function.update_noteq (Nat.ne_of_lt ha) _ _
  · exact Function.update_same _ _ _

/-- A read returns the fields of the object and leaves the store as it is. -/
theorem Heap.read_spec (a : Nat) (v : Coords α) (h : Store α) (hv : h.Holds a v) :
    Prog.Spec (Heap.read a) h (fun c h1 => c = v ∧ h1 = h) :=
  ⟨Store.Frame.refl h, hv.2, rfl⟩

theorem Heap.Point.new_spec (p : Nat) (v : Coords α) (h : Store α) (hv : h.Holds p v) :
    Prog.Spec (Heap.Point.new p) h (fun a h1 => h1.Holds a v ∧ h.next ≤ a) := by
  unfold Heap.Point.new
  apply Prog.Spec.bind (Heap.read_spec p v h hv)
  rintro c h1 _ ⟨rfl, rfl⟩
  exact Heap.alloc_spec c h1

theorem Heap.Line.new_holds (p1 p2 : Nat) (v1 v2 : Coords α) (h : Store α)
    (hv1 : h.Holds p1 v1) (hv2 : h.Holds p2 v2) :
    Prog.Spec (Heap.Line.new p1 p2) h
      (fun l h1 => LineObj.Holds h1 l { point1 := v1, point2 := v2 } ∧ h1 = h) := by
  unfold Heap.Line.new
  apply Prog.Spec.bind (Heap.read_spec p1 v1 h hv1)
  rintro c1 h1 _ ⟨rfl, rfl⟩
  apply Prog.Spec.bind (Heap.read_spec p2 v2 h1 hv2)
  rintro c2 h2 _ ⟨rfl, rfl⟩
  apply Prog.Spec.pure
  exact ⟨⟨hv1, hv2, rfl⟩, rfl⟩

theorem Heap.Line.value_spec (l : LineObj α) (v : Line α) (h : Store α)
    (hv : LineObj.Holds h l v) :
    Prog.Spec (Heap.Line.value l) h (fun r h1 => r = v ∧ h1 = h) := by
  unfold Heap.Line.value
  apply Prog.Spec.bind (Heap.read_spec l.point1 v.point1 h hv.1)
  rintro c1 h1 _ ⟨rfl, rfl⟩
  apply Prog.Spec.bind (Heap.read_spec l.point2 v.point2 h1 hv.2.1)
  rintro c2 h2 _ ⟨rfl, rfl⟩
  apply Prog.Spec.pure
  exact ⟨rfl, rfl⟩

variable [LinearOrderedField α]

theorem Heap.Point.move_spec (self offset : Nat) (v o : Coords α) (h : Store α)
    (hv : h.Holds self v) (ho : h.Holds offset o) :
    Prog.Spec (Heap.Point.move self offset) h
      (fun a h1 => h1.Holds a (Snowflake.Point.move v o) ∧ h.next ≤ a) := by
  unfold Heap.Point.move
  apply Prog.Spec.bind (Heap.read_spec self v h hv)
  rintro c h1 _ ⟨rfl, rfl⟩
  apply Prog.Spec.bind (Heap.read_spec offset o h1 ho)
  rintro c2 h2 _ ⟨rfl, rfl⟩
  exact Heap.alloc_spec _ h2

theorem Heap.Point.negative_spec (self : Nat) (v : Coords α) (h : Store α)
    (hv : h.Holds self v) :
    Prog.Spec (Heap.Point.negative self) h
      (fun a h1 => h1.Holds a (Snowflake.Point.negative v) ∧ h.next ≤ a) := by
  unfold Heap.Point.negative
  apply Prog.Spec.bind (Heap.read_spec self v h hv)
  rintro c h1 _ ⟨rfl, rfl⟩
  exact Heap.alloc_spec _ h1

/-- The expression `new Point(p).subtract(other)`: the in-place subtraction changes the
fresh copy only. -/
theorem Heap.Point.new_subtract_spec (p other : Nat) (v o : Coords α) (h : Store α)
    (hv : h.Holds p v) (ho : h.Holds other o) :
    Prog.Spec (Heap.Point.new p >>= fun copy => Heap.Point.subtract copy other) h
      (fun a h1 => h1.Holds a (Snowflake.Point.subtract v o) ∧ h.next ≤ a) := by
  refine ⟨⟨Nat.le_succ _, ?_⟩, ⟨Nat.lt_succ_self _, ?_⟩, le_refl _⟩
  · intro a ha
    show Function.update (Function.update h.cell h.next (h.cell p)) h.next _ a = h.cell a
    rw [Function.update_noteq (Nat.ne_of_lt ha), Function.update_noteq (Nat.ne_of_lt ha)]
  · show Function.update (Function.update h.cell h.next (h.cell p)) h.next _ h.next = _
    rw [Function.update_same]
    show Snowflake.Point.subtract (Function.update h.cell h.next (h.cell p) h.next)
      (Function.update h.cell h.next (h.cell p) other) = _
    rw [Function.update_same, Function.update_noteq (Nat.ne_of_lt ho.1), hv.2, ho.2]

theorem Heap.Line.move_holds (l : LineObj α) (offset : Nat) (v : Line α) (o : Coords α)
    (h : Store α) (hv : LineObj.Holds h l v) (ho : h.Holds offset o) :
    Prog.Spec (Heap.Line.move l offset) h
      (fun r h1 => LineObj.Holds h1 r (Snowflake.Line.move v o)) := by
  unfold Heap.Line.move
  apply Prog.Spec.bind (Heap.Point.new_spec l.point1 v.point1 h hv.1)
  rintro copy1 h1 f1 ⟨hc1, _⟩
  apply Prog.Spec.bind (Heap.Point.move_spec copy1 offset v.point1 o h1 hc1 (ho.frame f1))
  rintro moved1 h2 f2 ⟨hm1, _⟩
  apply Prog.Spec.bind
    (Heap.Point.new_spec l.point2 v.point2 h2 ((hv.2.1.frame f1).frame f2))
  rintro copy2 h3 f3 ⟨hc2, _⟩
  apply Prog.Spec.bind
    (Heap.Point.move_spec copy2 offset v.point2 o h3 hc2 (((ho.frame f1).frame f2).frame f3))
  rintro moved2 h4 f4 ⟨hm2, _⟩
  apply Prog.Spec.mono (Heap.Line.new_holds moved1 moved2 _ _ h4 ((hm1.frame f3).frame f4) hm2)
  rintro r h5 _ ⟨hr, _⟩
  exact hr

theorem Heap.getOffset_spec (M : JSMath α) (w : World α) (self : Nat) (h : Store α) :
    Prog.Spec (Heap.getOffset M w self) h
      (fun a h1 => h1.Holds a (Snowflake.getOffset M w self) ∧ h.next ≤ a) :=
  Heap.alloc_spec _ h

end HeapLemmas

section HeapMapLemmas

variable {α : Type}

/-- The loop of `Array.prototype.map` over programs that each return the value of a
pure function. -/
theorem Heap.mapProg_holds {β γ : Type} (f : β → Prog α γ) (g : β → γ) (l : List β)
    (P : Store α → Prop) (hP : ∀ h1 h2 : Store α, P h1 → h1.Frame h2 → P h2)
    (hf : ∀ b ∈ l, ∀ h1 : Store α, P h1 → Prog.Spec (f b) h1 (fun r _ => r = g b))
    (h : Store α) (hh : P h) :
    Prog.Spec (Heap.mapProg f l) h (fun rs _ => rs = l.map g) := by
  induction l generalizing h with
  | nil => exact Prog.Spec.pure _ _ _ rfl
  | cons b rest ih =>
    unfold Heap.mapProg
    apply Prog.Spec.bind (hf b (List.mem_cons_self _ _) h hh)
    rintro c h1 f1 rfl
    apply Prog.Spec.bind
      (ih (fun b2 hb2 => hf b2 (List.mem_cons_of_mem _ hb2)) h1 (hP h h1 hh f1))
    rintro cs h2 _ rfl
    exact Prog.Spec.pure _ _ _ rfl

end HeapMapLemmas

section HeapProgramLemmas

variable {α : Type} [LinearOrderedField α]

theorem Heap.getNodeBoundaries.ray_holds (M : JSMath α) (direction dist : α) (offset : Nat)
    (ov : Coords α) (h : Store α) (ho : h.Holds offset ov) :
    Prog.Spec (Heap.getNodeBoundaries.ray M direction dist offset) h
      (fun l h1 => LineObj.Holds h1 l
        (Snowflake.Point.lineTo (Snowflake.Point.negative ov)
          { x := (M.cos (direction * 0.0174533) * dist) - ov.x
            y := (M.sin (direction * 0.0174533) * dist) - ov.y })) := by
  unfold Heap.getNodeBoundaries.ray
  apply Prog.Spec.bind (Heap.Point.negative_spec offset ov h ho)
  rintro negative h1 f1 ⟨hn, _⟩
  apply Prog.Spec.bind (Heap.Point.new_spec negative _ h1 hn)
  rintro start h2 f2 ⟨hs, _⟩
  apply Prog.Spec.bind (Heap.read_spec offset ov h2 ((ho.frame f1).frame f2))
  rintro o h3 _ ⟨rfl, rfl⟩
  apply Prog.Spec.bind (Heap.alloc_spec _ h3)
  rintro target h4 f4 ⟨ht, _⟩
  apply Prog.Spec.mono (Heap.Line.new_holds start target _ _ h4 (hs.frame f4) ht)
  rintro l h5 _ ⟨hl, _⟩
  exact hl

theorem Heap.getNodeBoundaries_holds (M : JSMath α) (w : World α) (self : Nat) (dist : α)
    (h : Store α) :
    Prog.Spec (Heap.getNodeBoundaries M w self dist) h
      (fun r h1 => LineObj.Holds h1 r.1 (Snowflake.getNodeBoundaries M w self dist).1
        ∧ LineObj.Holds h1 r.2 (Snowflake.getNodeBoundaries M w self dist).2) := by
  unfold Heap.getNodeBoundaries
  apply Prog.Spec.bind (Heap.getOffset_spec M w self h)
  rintro offset h1 f1 ⟨ho, _⟩
  apply Prog.Spec.bind (Heap.getNodeBoundaries.ray_holds M _ dist offset _ h1 ho)
  rintro first h2 f2 hfirst
  apply Prog.Spec.bind (Heap.getNodeBoundaries.ray_holds M _ dist offset _ h2 (ho.frame f2))
  rintro second h3 f3 hsecond
  apply Prog.Spec.pure
  exact ⟨hfirst.frameLine f3, hsecond⟩

theorem Heap.getCollisions.toAbsolute_holds (ray : LineObj α) (v : Line α)
    (offset absoluteOffset ancestorOffset : Nat) (ov av aov : Coords α) (h : Store α)
    (hray : LineObj.Holds h ray v) (ho : h.Holds offset ov)
    (ha : h.Holds absoluteOffset av) (hao : h.Holds ancestorOffset aov) :
    Prog.Spec (Heap.getCollisions.toAbsolute ray offset absoluteOffset ancestorOffset) h
      (fun r h1 => LineObj.Holds h1 r
        (((v.move (Snowflake.Point.negative ov)).move (Snowflake.Point.negative av)).move
          aov)) := by
  unfold Heap.getCollisions.toAbsolute
  apply Prog.Spec.bind (Heap.Point.negative_spec offset ov h ho)
  rintro n1 h1 f1 ⟨hn1, _⟩
  apply Prog.Spec.bind (Heap.Line.move_holds ray n1 v _ h1 (hray.frameLine f1) hn1)
  rintro moved1 h2 f2 hm1
  apply Prog.Spec.bind
    (Heap.Point.negative_spec absoluteOffset av h2 ((ha.frame f1).frame f2))
  rintro n2 h3 f3 ⟨hn2, _⟩
  apply Prog.Spec.bind (Heap.Line.move_holds moved1 n2 _ _ h3 (hm1.frameLine f3) hn2)
  rintro moved2 h4 f4 hm2
  exact Heap.Line.move_holds moved2 ancestorOffset _ aov h4 hm2
    ((((hao.frame f1).frame f2).frame f3).frame f4)

/-- The callback of `getCollisions` as a program returns the record of the pure
definition and leaves every existing object unchanged. -/
theorem Heap.getCollisions.record_holds (M : JSMath α) (w : World α)
    (self absolutePosition offset start ancestor abs : Nat) (h : Store α)
    (hap : h.Holds absolutePosition (w self).props.absolutePosition)
    (hab : h.Holds abs (w ancestor).props.absolutePosition)
    (ho : h.Holds offset (Snowflake.getOffset M w self))
    (hs : h.Holds start { x := 0, y := 0 }) :
    Prog.Spec
      (Heap.getCollisions.record M w self absolutePosition offset
        (Snowflake.getOffset M w self) start ancestor abs) h
      (fun r _ => r = Snowflake.getCollisions.record M w self ancestor) := by
  unfold Heap.getCollisions.record
  apply Prog.Spec.bind (Heap.getNodeBoundaries_holds M w ancestor 10 h)
  rintro boundaries h1 f1 ⟨hb1, hb2⟩
  apply Prog.Spec.bind (Heap.getOffset_spec M w ancestor h1)
  rintro ancestorOffset h2 f2 ⟨hao, _⟩
  have f02 := f1.trans f2
  apply Prog.Spec.bind (Heap.read_spec absolutePosition _ h2 (hap.frame f02))
  rintro ap h3 _ ⟨rfl, rfl⟩
  apply Prog.Spec.bind (Heap.read_spec abs _ h3 (hab.frame f02))
  rintro ab h5 _ ⟨rfl, rfl⟩
  apply Prog.Spec.bind (Heap.read_spec ancestorOffset _ h5 hao)
  rintro ao h6 _ ⟨rfl, rfl⟩
  apply Prog.Spec.bind (Heap.alloc_spec _ h6)
  rintro endPoint h7 f7 ⟨hep, _⟩
  have f07 := f02.trans f7
  apply Prog.Spec.bind (Heap.Line.new_holds start endPoint _ _ h7 (hs.frame f07) hep)
  rintro lineAbsolute h8 _ ⟨hline, rfl⟩
  apply Prog.Spec.bind
    (Heap.Point.new_subtract_spec absolutePosition abs _ _ h8 (hap.frame f07) (hab.frame f07))
  rintro absoluteOffset h9 f9 ⟨hao2, _⟩
  have f09 := f07.trans f9
  apply Prog.Spec.bind
    (Heap.getCollisions.toAbsolute_holds boundaries.1 _ offset absoluteOffset ancestorOffset
      _ _ _ h9 (hb1.frameLine ((f2.trans f7).trans f9)) (ho.frame f09) hao2
      (hao.frame (f7.trans f9)))
  rintro clockwiseAbsolute h10 f10 hcw
  apply Prog.Spec.bind
    (Heap.getCollisions.toAbsolute_holds boundaries.2 _ offset absoluteOffset ancestorOffset
      _ _ _ h10 (hb2.frameLine (((f2.trans f7).trans f9).trans f10)) ((ho.frame f09).frame f10)
      (hao2.frame f10) (hao.frame ((f7.trans f9).trans f10)))
  rintro anticlockwiseAbsolute h11 f11 hacw
  have f911 := f9.trans (f10.trans f11)
  apply Prog.Spec.bind (Heap.read_spec endPoint _ h11 (hep.frame f911))
  rintro endPointValue h12 _ ⟨rfl, rfl⟩
  apply Prog.Spec.bind (Heap.Line.value_spec lineAbsolute _ h12 (hline.frameLine f911))
  rintro lineValue h13 _ ⟨rfl, rfl⟩
  apply Prog.Spec.bind (Heap.Line.value_spec clockwiseAbsolute _ h13 (hcw.frameLine f11))
  rintro clockwiseValue h14 _ ⟨rfl, rfl⟩
  apply Prog.Spec.bind (Heap.Line.value_spec anticlockwiseAbsolute _ h14 hacw)
  rintro anticlockwiseValue h15 _ ⟨rfl, rfl⟩
  apply Prog.Spec.pure
  rw [hline.2.2, hcw.2.2, hacw.2.2]
  rfl

/-- The program of `getCollisions` returns the records of the pure definition and
leaves every existing object unchanged. -/
theorem Heap.getCollisions.prog_holds (M : JSMath α) (s : Snapshot α) (self : Nat)
    (hc : s.Consistent self) :
    Prog.Spec (Heap.getCollisions.prog M s.world s.absolutePositionRef self) s.store
      (fun rs _ => rs = Snowflake.getCollisions M s.world self) := by
  unfold Heap.getCollisions.prog
  apply Prog.Spec.bind (Heap.getOffset_spec M s.world self s.store)
  rintro offset h1 f1 ⟨ho, _⟩
  apply Prog.Spec.bind (Heap.read_spec offset _ h1 ho)
  rintro xy h1b _ ⟨rfl, rfl⟩
  apply Prog.Spec.bind (Heap.alloc_spec _ h1b)
  rintro start h2 f2 ⟨hs, _⟩
  have f02 := f1.trans f2
  exact Heap.mapProg_holds _ (Snowflake.getCollisions.record M s.world self) _
    (fun h3 => h2.Frame h3)
    (fun _ _ h13 h23 => h13.trans h23)
    (fun ancestor hanc h3 f3 =>
      Heap.getCollisions.record_holds M s.world self _ offset start ancestor _ h3
        ((hc self (List.mem_cons_self _ _)).frame (f02.trans f3))
        ((hc ancestor (List.mem_cons_of_mem _ hanc)).frame (f02.trans f3))
        ((ho.frame f2).frame f3) (hs.frame f3))
    h2 (Store.Frame.refl h2)

end HeapProgramLemmas

section TriggerLemmas

variable {β : Type}

theorem Obj.mem_of_get? (o : List (String × β)) (k : String) (v : β)
    (h : Obj.get? o k = some v) : (k, v) ∈ o := by
  induction o with
  | nil => simp [Obj.get?] at h
  | cons e rest ih =>
    by_cases hek : e.1 = k
    · simp only [Obj.get?, hek, if_true, Option.some.injEq] at h
      have : e = (k, v) := Prod.ext hek h
      rw [this]; exact List.mem_cons_self _ _
    · simp only [Obj.get?, hek, if_false] at h
      exact List.mem_cons_of_mem _ (ih h)

theorem Obj.get?_of_mem_nodup (o : List (String × β)) (e : String × β)
    (hnodup : (o.map Prod.fst).Nodup) (he : e ∈ o) : Obj.get? o e.1 = some e.2 := by
  induction o with
  | nil => cases he
  | cons a rest ih =>
    simp only [List.map_cons, List.nodup_cons] at hnodup
    rcases List.mem_cons.mp he with h1 | h1
    · simp [Obj.get?, h1]
    · have hne : ¬ a.1 = e.1 := by
        intro h
        apply hnodup.1
        rw [h]
        exact List.mem_map.mpr ⟨e, h1, rfl⟩
      simp only [Obj.get?, hne, if_false]
      exact ih hnodup.2 h1

/-- Two objects with equal `stringifyOrdered` images hold the same value under every
key. -/
theorem Obj.get?_eq_of_sameEntries [DecidableEq β] (a b : List (String × β))
    (h : Obj.sameEntries a b = true) (k : String) : Obj.get? a k = Obj.get? b k := by
  simp only [Obj.sameEntries, Bool.and_eq_true, List.all_eq_true, decide_eq_true_eq] at h
  obtain ⟨hab, hba⟩ := h
  cases ha : Obj.get? a k with
  | some v =>
    exact (hab (k, v) (Obj.mem_of_get? a k v ha)).symm
  | none =>
    cases hb : Obj.get? b k with
    | none => rfl
    | some v =>
      have := hba (k, v) (Obj.mem_of_get? b k v hb)
      rw [ha] at this
      cases this

/-- Two objects without repeated keys that hold the same value under every key have
equal `stringifyOrdered` images. -/
theorem Obj.sameEntries_of_get?_eq [DecidableEq β] (a b : List (String × β))
    (ha : (a.map Prod.fst).Nodup) (hb : (b.map Prod.fst).Nodup)
    (h : ∀ k, Obj.get? a k = Obj.get? b k) : Obj.sameEntries a b = true := by
  simp only [Obj.sameEntries, Bool.and_eq_true, List.all_eq_true, decide_eq_true_eq]
  constructor
  · intro e he
    rw [← h e.1]
    exact Obj.get?_of_mem_nodup a e ha he
  · intro e he
    rw [h e.1]
    exact Obj.get?_of_mem_nodup b e hb he

end TriggerLemmas

section SelectionLemmas

variable {α : Type}

/-- The record selected by `runCollisionChecks` is one of the records and has
`hasIntersect`. -/
theorem lastCollision_some (records : List (Collision α)) (c : Collision α)
    (h : runCollisionChecks.lastCollision records = some c) :
    c ∈ records ∧ c.hasIntersect = true := by
  have hmem := List.mem_of_getLast?_eq_some h
  rw [List.mem_filter] at hmem
  exact hmem

end SelectionLemmas

section CommitLemmas

variable {α : Type}

/-- Queued and immediate updates agree on a list of actions with distinct targets, from
any world whose ledgers at the targets are those of the committed world. -/
theorem flushQueue_foldl_clearDistance (w0 : World α) (actions : List DeactivateAction)
    (w : World α) (hdistinct : (actions.map fun action => action.target).Nodup)
    (hsame : ∀ action ∈ actions,
      (w action.target).state.distanceIncreases = (w0 action.target).state.distanceIncreases) :
    flushQueue w (actions.map fun action => clearDistance.queued w0 action.target action.id)
      = actions.foldl (fun w action => clearDistance w action.target action.id) w := by
  induction actions generalizing w with
  | nil => rfl
  | cons a rest ih =>
    simp only [List.map_cons, List.nodup_cons] at hdistinct
    have hstep : setDistanceIncreases w a.target
          (clearDistance.queued w0 a.target a.id).distanceIncreases
        = clearDistance w a.target a.id := by
      simp only [clearDistance.queued, clearDistance,
        hsame a (List.mem_cons_self _ _)]
    simp only [List.map_cons, flushQueue, List.foldl_cons]
    rw [show (clearDistance.queued w0 a.target a.id).target = a.target from rfl, hstep]
    refine ih (clearDistance w a.target a.id) hdistinct.2 ?_
    intro b hb
    have hne : b.target ≠ a.target := by
      intro heq
      apply hdistinct.1
      rw [← heq]
      exact List.mem_map.mpr ⟨b, hb, rfl⟩
    rw [clearDistance_ledger, if_neg hne]
    exact hsame b (List.mem_cons_of_mem _ hb)

/-- When the actions of a node have distinct targets, the queued calls of a commit leave
the world that the immediate updates of `runDeactivateActions` give. -/
theorem flushQueue_runDeactivateActions (w : World α)
    (actions : List (String × DeactivateAction))
    (hdistinct : ((Obj.values actions).map fun action => action.target).Nodup) :
    flushQueue w (runDeactivateActions.queued w actions) = runDeactivateActions w actions :=
  flushQueue_foldl_clearDistance w (Obj.values actions) w hdistinct (fun _ _ => rfl)

end CommitLemmas

section LastWriteLemmas

variable {α : Type} {β : Type}

/-- A second write under the same key replaces the first. -/
theorem Obj.set_set (o : List (String × β)) (k : String) (v1 v2 : β) :
    Obj.set (Obj.set o k v1) k v2 = Obj.set o k v2 := by
  induction o with
  | nil => simp [Obj.set]
  | cons e rest ih =>
    by_cases h : e.1 = k
    · simp [Obj.set, h]
    · simp [Obj.set, h, ih]

/-- The keys of the object after a write do not depend on the written value. -/
theorem Obj.keys_set_congr (o : List (String × β)) (k : String) (v1 v2 : β) :
    (Obj.set o k v1).map Prod.fst = (Obj.set o k v2).map Prod.fst := by
  induction o with
  | nil => simp [Obj.set]
  | cons e rest ih =>
    by_cases h : e.1 = k
    · simp [Obj.set, h]
    · simp [Obj.set, h, ih]

/-- In an object without repeated keys, an entry after a write is the written entry or
an old entry under another key. -/
theorem Obj.mem_set_of_nodup (o : List (String × β)) (k : String) (v : β) (e : String × β)
    (hnodup : (o.map Prod.fst).Nodup) (he : e ∈ Obj.set o k v) :
    e = (k, v) ∨ (e ∈ o ∧ e.1 ≠ k) := by
  induction o with
  | nil =>
    left
    simpa [Obj.set] using he
  | cons a rest ih =>
    simp only [List.map_cons, List.nodup_cons] at hnodup
    by_cases h : a.1 = k
    · simp only [Obj.set, h, if_true] at he
      rcases List.mem_cons.mp he with h1 | h1
      · exact Or.inl h1
      · right
        refine ⟨List.mem_cons_of_mem _ h1, ?_⟩
        intro hk
        apply hnodup.1
        rw [h, ← hk]
        exact List.mem_map.mpr ⟨e, h1, rfl⟩
    · simp only [Obj.set, h, if_false] at he
      rcases List.mem_cons.mp he with h1 | h1
      · right
        rw [h1]
        exact ⟨List.mem_cons_self _ _, h⟩
      · rcases ih hnodup.2 h1 with h2 | ⟨h2, h3⟩
        · exact Or.inl h2
        · exact Or.inr ⟨List.mem_cons_of_mem _ h2, h3⟩

/-- The ledger of the target after `updatePosition`, for a record whose intersecting ray
is `r`. -/
theorem updatePosition_ledger_eq [LinearOrderedField α] (M : JSMath α) (w : World α)
    (self : Nat) (c : Collision α) (r : Line α)
    (hr : c.intersectionData.clockwise = some r
      ∨ (c.intersectionData.clockwise = none ∧ c.intersectionData.anticlockwise = some r)) :
    ∃ w1 : World α, updatePosition M w self c = some w1
      ∧ (w1 self).state.distanceIncreases
        = Obj.set (w self).state.distanceIncreases (updatePosition.distanceId w c)
            (updatePosition.distance M w c r) := by
  refine ⟨_, updatePosition_eq M w self c r hr, ?_⟩
  simp [removeOnDeactivate, setDeactivateActions_ledger, setDistanceIncreases_ledger]

end LastWriteLemmas

/-! ## Offset resolver -/

section Offset

variable {α : Type} [LinearOrderedField α]

/-- C1: for a node that has a parent and is active, `getOffset` is
`(cos θ · D, sin θ · D)` with `θ = (startingAngle + angle) · 0.0174533` and
`D = activeRadius + parent.getRadius() + requiredSeparation`, where
`requiredSeparation` is the greatest of `minLineDistance` and the ledger values, and is
`minLineDistance = 120` when the ledger is empty. -/
theorem getOffset_active (M : JSMath α) (w : World α) (self : Nat) (parent : ParentRef)
    (hparent : (w self).props.parent = some parent)
    (hactive : (w self).state.active = true) :
    ∃ requiredSeparation : α,
      IsGreatest (insert minLineDistance {v | v ∈ Obj.values (w self).state.distanceIncreases})
        requiredSeparation
      ∧ ((w self).state.distanceIncreases = [] →
          requiredSeparation = minLineDistance ∧ requiredSeparation = 120)
      ∧ getOffset M w self =
        { x := M.cos (((w self).props.startingAngle.getD 0 + (w self).props.angle) * 0.0174533)
            * ((w self).props.node.activeRadius + parent.getRadius w + requiredSeparation)
          y := M.sin (((w self).props.startingAngle.getD 0 + (w self).props.angle) * 0.0174533)
            * ((w self).props.node.activeRadius + parent.getRadius w + requiredSeparation) } := by
  refine ⟨getOffset.offsetDistance w self, mathMax_isGreatest _ _, ?_, ?_⟩
  · intro hempty
    simp [getOffset.offsetDistance, hempty, Obj.values, mathMax, minLineDistance]
  · simp [getOffset, hparent, getOffset.dist, hactive, getRadius_active w self hactive]

/-- Witness of C1: the activated top-level node of scenario A after a correction was
written into its ledger. -/
theorem getOffset_active_witness :
    (worldA4 0).props.parent = some ParentRef.root ∧ (worldA4 0).state.active = true ∧
    ∃ requiredSeparation : ℚ,
      IsGreatest (insert minLineDistance {v | v ∈ Obj.values (worldA4 0).state.distanceIncreases})
        requiredSeparation
      ∧ ((worldA4 0).state.distanceIncreases = [] →
          requiredSeparation = minLineDistance ∧ requiredSeparation = 120)
      ∧ getOffset qMath worldA4 0 =
        { x := qMath.cos (((worldA4 0).props.startingAngle.getD 0 + (worldA4 0).props.angle)
              * 0.0174533)
            * ((worldA4 0).props.node.activeRadius + ParentRef.root.getRadius worldA4
              + requiredSeparation)
          y := qMath.sin (((worldA4 0).props.startingAngle.getD 0 + (worldA4 0).props.angle)
              * 0.0174533)
            * ((worldA4 0).props.node.activeRadius + ParentRef.root.getRadius worldA4
              + requiredSeparation) } :=
  ⟨by decide!, by decide!, getOffset_active qMath worldA4 0 ParentRef.root (by decide!) (by decide!)⟩

/-- C2: for a node that has a parent and is inactive, the total distance of
`getOffset` is `inactiveRadius + parent.getRadius() - inactiveRadius`, which is
`parent.getRadius()`; the offset is `(cos θ · parentRadius, sin θ · parentRadius)`, an
expression in which neither the ledger nor the radii of the node occur. -/
theorem getOffset_inactive (M : JSMath α) (w : World α) (self : Nat) (parent : ParentRef)
    (hparent : (w self).props.parent = some parent)
    (hactive : (w self).state.active = false) :
    getOffset.dist w self parent
        = (w self).props.node.inactiveRadius + parent.getRadius w
          - (w self).props.node.inactiveRadius
      ∧ getOffset.dist w self parent = parent.getRadius w
      ∧ getOffset M w self =
        { x := M.cos (((w self).props.startingAngle.getD 0 + (w self).props.angle) * 0.0174533)
            * parent.getRadius w
          y := M.sin (((w self).props.startingAngle.getD 0 + (w self).props.angle) * 0.0174533)
            * parent.getRadius w } := by
  have hdist : getOffset.dist w self parent = parent.getRadius w := by
    simp [getOffset.dist, hactive]
  refine ⟨?_, hdist, ?_⟩
  · rw [hdist]; ring
  · simp [getOffset, hparent, hdist]

/-- Witness of C2: the inactive child mounted in scenario A. -/
theorem getOffset_inactive_witness :
    (worldA2 1).props.parent = some (ParentRef.node 0) ∧ (worldA2 1).state.active = false ∧
    getOffset.dist worldA2 1 (ParentRef.node 0) = 80 ∧
    getOffset.dist worldA2 1 (ParentRef.node 0) = (ParentRef.node 0).getRadius worldA2 :=
  ⟨by decide!, by decide!, by decide!,
    (getOffset_inactive qMath worldA2 1 (ParentRef.node 0) (by decide!) (by decide!)).2.1⟩

end Offset

/-! ## Distance ledger -/

section Ledger

variable {α : Type} [LinearOrderedField α]

/-- C3: for a record `c` that `getCollisions` returns for node `N` and whose
intersecting ray is `r` (the clockwise ray when both rays intersected),
`updatePosition` executed on the ancestor `A = c.ancestor` succeeds and sets the entry
of `A`s ledger under the key `N.id + "_" + A.id` to the required distance of the
specification, computed from the end point of the record, the direction vector of `r`
and the wedge width of `A`; every other entry of the ledger and the active flag of `A`
are unchanged, and the cleanup action `A.clearDistance(key)` is registered on `N` under
the same key. -/
theorem updatePosition_writes_requiredDistance (M : JSMath α) (w : World α) (N : Nat)
    (c : Collision α) (r : Line α)
    (hc : c ∈ getCollisions M w N)
    (hr : c.intersectionData.clockwise = some r
      ∨ (c.intersectionData.clockwise = none ∧ c.intersectionData.anticlockwise = some r)) :
    c.node = N ∧
    ∃ w2 : World α, updatePosition M w c.ancestor c = some w2
      ∧ (∀ k : String, Obj.get? (w2 c.ancestor).state.distanceIncreases k
          = if k = Spec.pairKey (w N).props.node.id (w c.ancestor).props.node.id then
              some (Spec.requiredDistance M c.endPoint
                { x := r.point2.x - r.point1.x, y := r.point2.y - r.point1.y }
                (w c.ancestor).props.angleDifference)
            else Obj.get? (w c.ancestor).state.distanceIncreases k)
      ∧ (w2 c.ancestor).state.active = (w c.ancestor).state.active
      ∧ Obj.get? (w2 N).state.deactivateActions
          (Spec.pairKey (w N).props.node.id (w c.ancestor).props.node.id)
        = some { target := c.ancestor,
                 id := Spec.pairKey (w N).props.node.id (w c.ancestor).props.node.id } := by
  obtain ⟨a, _, hrec⟩ := (mem_getCollisions M w N c).mp hc
  have hnode : c.node = N := by rw [← hrec]; rfl
  have hline : c.intersectionData.line.point2 = c.endPoint := by rw [← hrec]; rfl
  have hkey : updatePosition.distanceId w c
      = Spec.pairKey (w N).props.node.id (w c.ancestor).props.node.id := by
    simp [updatePosition.distanceId, Spec.pairKey, hnode]
  have hdist : updatePosition.distance M w c r
      = Spec.requiredDistance M c.endPoint
          { x := r.point2.x - r.point1.x, y := r.point2.y - r.point1.y }
          (w c.ancestor).props.angleDifference := by
    simp [updatePosition.distance, Spec.requiredDistance, Spec.sinDeg, Spec.angleBetween, hline,
      Line.x1, Line.x2, Line.y1, Line.y2]
  refine ⟨hnode, _, updatePosition_eq M w c.ancestor c r hr, ?_, ?_, ?_⟩
  · intro k
    simp only [removeOnDeactivate, setDeactivateActions_ledger, setDistanceIncreases_ledger,
      if_true, Obj.get?_set, hkey, hdist]
  · simp only [removeOnDeactivate, setDeactivateActions_active, setDistanceIncreases_active]
  · simp only [removeOnDeactivate, setDeactivateActions_actions, hnode, if_true, Obj.get?_set,
      hkey]

/-- Witness of C3: the record of scenario A, whose anticlockwise ray intersects. -/
theorem updatePosition_writes_requiredDistance_witness :
    recordA ∈ getCollisions qMath worldA3 1
    ∧ recordA.intersectionData.clockwise = none
    ∧ recordA.intersectionData.anticlockwise = some rayA
    ∧ ∃ w2 : World ℚ, updatePosition qMath worldA3 recordA.ancestor recordA = some w2
      ∧ Obj.get? (w2 recordA.ancestor).state.distanceIncreases "n0_t0"
          = some (Spec.requiredDistance qMath recordA.endPoint
              { x := rayA.point2.x - rayA.point1.x, y := rayA.point2.y - rayA.point1.y }
              (worldA3 recordA.ancestor).props.angleDifference) := by
  have hc : recordA ∈ getCollisions qMath worldA3 1 :=
    (mem_getCollisions qMath worldA3 1 recordA).mpr ⟨0, by decide!, rfl⟩
  have hcw : recordA.intersectionData.clockwise = none := by decide!
  have hacw : recordA.intersectionData.anticlockwise = some rayA := by decide!
  obtain ⟨_, w2, h1, h2, _, _⟩ :=
    updatePosition_writes_requiredDistance qMath worldA3 1 recordA rayA hc (Or.inr ⟨hcw, hacw⟩)
  refine ⟨hc, hcw, hacw, w2, h1, ?_⟩
  have hk : Spec.pairKey (worldA3 1).props.node.id (worldA3 recordA.ancestor).props.node.id
      = "n0_t0" := by decide!
  have := h2 "n0_t0"
  rw [hk] at this
  simpa using this

/-- C4: round trip of a correction. Let `c` be a record of node `N` for its ancestor
`A` with an intersecting ray, let the ledger of `A` not contain the pair key of
`(N, A)`, and let every cleanup action already registered on `N` that addresses `A`
carry that key. Then `updatePosition` writes the entry, and the update of `N` that
follows its deactivation runs the cleanup actions of `N`, after which the ledger of `A`
is the ledger after the write with exactly that entry removed: every other entry is
unchanged, the ledger is empty again if no other entries remain, and `A.getOffset()` has
its value from before the write. -/
theorem correction_round_trip (M : JSMath α) (w : World α) (N A : Nat)
    (c : Collision α) (r : Line α)
    (hc : c ∈ getCollisions M w N) (hA : c.ancestor = A)
    (hr : c.intersectionData.clockwise = some r
      ∨ (c.intersectionData.clockwise = none ∧ c.intersectionData.anticlockwise = some r))
    (hNA : N ≠ A)
    (hparent : (w A).props.parent ≠ some (ParentRef.node N))
    (hNactive : (w N).state.active = true)
    (hfresh : Obj.get? (w A).state.distanceIncreases
      (Spec.pairKey (w N).props.node.id (w A).props.node.id) = none)
    (hactions : ∀ e ∈ (w N).state.deactivateActions, e.2.target = A →
      e.2.id = Spec.pairKey (w N).props.node.id (w A).props.node.id) :
    ∃ w1 w3 : World α,
      updatePosition M w A c = some w1
      ∧ Obj.get? (w1 A).state.distanceIncreases
          (Spec.pairKey (w N).props.node.id (w A).props.node.id)
        = some (updatePosition.distance M w c r)
      ∧ componentDidUpdate M (toggleActive w1 N none) N (w1 N).props (w1 N).state = some w3
      ∧ (w3 A).state.distanceIncreases
          = Obj.erase (w1 A).state.distanceIncreases
              (Spec.pairKey (w N).props.node.id (w A).props.node.id)
      ∧ Obj.get? (w3 A).state.distanceIncreases
          (Spec.pairKey (w N).props.node.id (w A).props.node.id) = none
      ∧ (∀ k : String, k ≠ Spec.pairKey (w N).props.node.id (w A).props.node.id →
          Obj.get? (w3 A).state.distanceIncreases k = Obj.get? (w1 A).state.distanceIncreases k)
      ∧ ((∀ k : String, k ≠ Spec.pairKey (w N).props.node.id (w A).props.node.id →
            Obj.get? (w1 A).state.distanceIncreases k = none) →
          (w3 A).state.distanceIncreases = [])
      ∧ (w3 A).state.distanceIncreases = (w A).state.distanceIncreases
      ∧ getOffset M w3 A = getOffset M w A := by
  obtain ⟨a, _, hrec⟩ := (mem_getCollisions M w N c).mp hc
  have hnode : c.node = N := by rw [← hrec]; rfl
  have hkey : updatePosition.distanceId w c
      = Spec.pairKey (w N).props.node.id (w A).props.node.id := by
    simp [updatePosition.distanceId, Spec.pairKey, hnode, hA]
  have hAN : ¬ A = N := fun h => hNA h.symm
  generalize hkdef : Spec.pairKey (w N).props.node.id (w A).props.node.id = key at *
  have hupd := updatePosition_eq M w A c r hr
  rw [hkey, hnode] at hupd
  generalize hw1 : removeOnDeactivate
      (setDistanceIncreases w A
        (Obj.set (w A).state.distanceIncreases key (updatePosition.distance M w c r)))
      N key { target := A, id := key } = w1 at hupd
  -- the fields of the world after the write
  have h1ledger : (w1 A).state.distanceIncreases
      = Obj.set (w A).state.distanceIncreases key (updatePosition.distance M w c r) := by
    rw [← hw1]
    simp [removeOnDeactivate, setDeactivateActions_ledger, setDistanceIncreases_ledger]
  have h1props : ∀ q, (w1 q).props = (w q).props := by
    intro q; rw [← hw1]
    simp [removeOnDeactivate, setDeactivateActions_props, setDistanceIncreases_props]
  have h1active : ∀ q, (w1 q).state.active = (w q).state.active := by
    intro q; rw [← hw1]
    simp [removeOnDeactivate, setDeactivateActions_active, setDistanceIncreases_active]
  have h1actions : (w1 N).state.deactivateActions
      = Obj.set (w N).state.deactivateActions key { target := A, id := key } := by
    rw [← hw1]
    simp [removeOnDeactivate, setDeactivateActions_actions, setDistanceIncreases_actions]
  -- the world after the deactivation of N
  generalize hw2 : toggleActive w1 N none = w2
  have h2props : ∀ q, (w2 q).props = (w1 q).props := by
    intro q; rw [← hw2]; simp [toggleActive, setActive_props]
  have h2active : ∀ q, (w2 q).state.active = if q = N then false else (w1 q).state.active := by
    intro q; rw [← hw2]
    simp [toggleActive, setActive_active, h1active N, hNactive]
  have h2ledger : ∀ q, (w2 q).state.distanceIncreases = (w1 q).state.distanceIncreases := by
    intro q; rw [← hw2]; simp [toggleActive, setActive_ledger]
  have h2actions : (w2 N).state.deactivateActions = (w1 N).state.deactivateActions := by
    rw [← hw2]; simp [toggleActive, setActive_actions]
  have hcdu : componentDidUpdate M w2 N (w1 N).props (w1 N).state
      = some (runDeactivateActions w2 (w2 N).state.deactivateActions) := by
    have hN2 : (w2 N).state.active = false := by simp [h2active N]
    have hN1 : (w1 N).state.active = true := by rw [h1active N, hNactive]
    simp [componentDidUpdate, hN1, hN2]
  generalize hw3 : runDeactivateActions w2 (w2 N).state.deactivateActions = w3 at hcdu
  have hall : ∀ e ∈ (w2 N).state.deactivateActions, e.2.target = A → e.2.id = key := by
    intro e he ht
    rw [h2actions, h1actions] at he
    rcases Obj.mem_set _ _ _ _ he with h | h
    · rw [h]
    · exact hactions e h ht
  have hex : ∃ e ∈ (w2 N).state.deactivateActions, e.2.target = A := by
    refine ⟨(key, { target := A, id := key }), ?_, rfl⟩
    rw [h2actions, h1actions]
    exact Obj.set_mem _ _ _
  have h3ledger : (w3 A).state.distanceIncreases
      = Obj.erase (w1 A).state.distanceIncreases key := by
    rw [← hw3, runDeactivateActions_ledger _ _ A key hall, if_pos hex, h2ledger]
  have hrestored : (w3 A).state.distanceIncreases = (w A).state.distanceIncreases := by
    rw [h3ledger, h1ledger, Obj.erase_set_of_get?_none _ _ _ hfresh]
  have h3props : ∀ q, (w3 q).props = (w q).props := by
    intro q; rw [← hw3, runDeactivateActions_props, h2props, h1props]
  have h3active : ∀ q, q ≠ N → (w3 q).state.active = (w q).state.active := by
    intro q hq; rw [← hw3, runDeactivateActions_active, h2active, if_neg hq, h1active]
  refine ⟨w1, w3, hupd, ?_, hw2 ▸ hcdu, h3ledger, ?_, ?_, ?_, hrestored, ?_⟩
  · rw [h1ledger, Obj.get?_set]; simp
  · rw [hrestored]; exact hfresh
  · intro k hk
    rw [h3ledger, Obj.get?_erase, if_neg hk]
  · intro hothers
    rw [hrestored]
    apply Obj.eq_nil_of_get?_none
    intro k
    by_cases hk : k = key
    · rw [hk]; exact hfresh
    · have := hothers k hk
      rw [h1ledger, Obj.get?_set, if_neg hk] at this
      exact this
  · apply getOffset_congr M w w3 A (h3props A) (h3active A hAN) hrestored
    intro parent hp
    cases parent with
    | root => rfl
    | node q =>
      have hq : q ≠ N := by
        intro h
        apply hparent
        rw [hp, h]
      simp [ParentRef.getRadius, getRadius, h3props q, h3active q hq]

/-- Witness of C4: scenario A, where the node at position 1 collides with its parent
at position 0 and is then deactivated. -/
theorem correction_round_trip_witness :
    recordA ∈ getCollisions qMath worldA3 1
    ∧ (worldA3 1).state.active = true
    ∧ Obj.get? (worldA3 0).state.distanceIncreases
        (Spec.pairKey (worldA3 1).props.node.id (worldA3 0).props.node.id) = none
    ∧ ∃ w1 w3 : World ℚ,
      updatePosition qMath worldA3 0 recordA = some w1
      ∧ componentDidUpdate qMath (toggleActive w1 1 none) 1 (w1 1).props (w1 1).state = some w3
      ∧ (w3 0).state.distanceIncreases = []
      ∧ getOffset qMath w3 0 = getOffset qMath worldA3 0 := by
  have hc : recordA ∈ getCollisions qMath worldA3 1 :=
    (mem_getCollisions qMath worldA3 1 recordA).mpr ⟨0, by decide!, rfl⟩
  have hcw : recordA.intersectionData.clockwise = none := by decide!
  have hacw : recordA.intersectionData.anticlockwise = some rayA := by decide!
  have hfresh : Obj.get? (worldA3 0).state.distanceIncreases
      (Spec.pairKey (worldA3 1).props.node.id (worldA3 0).props.node.id) = none := by decide!
  have hempty : (worldA3 0).state.distanceIncreases = [] := by decide!
  have hnoact : (worldA3 1).state.deactivateActions = [] := by decide!
  obtain ⟨w1, w3, h1, _, h3, _, _, _, _, h8, h9⟩ :=
    correction_round_trip qMath worldA3 1 0 recordA rayA hc rfl (Or.inr ⟨hcw, hacw⟩)
      (by decide) (by decide!) (by decide!) hfresh
      (by intro e he; rw [hnoact] at he; cases he)
  exact ⟨hc, by decide!, hfresh, w1, w3, h1, h3, h8.trans hempty, h9⟩

/-- C5: single correction per pass. If no record returned by `getCollisions` has
`hasIntersect`, `runCollisionChecks` leaves the world unchanged (no correction, no
ledger entry). Otherwise, with `c` the last record of the list whose `hasIntersect` is
true, `runCollisionChecks` is `updatePosition` on the ancestor of `c` for `c` alone: it
succeeds, and the only ledger entry written is the one under the distance id of `c` in
the ledger of that ancestor. -/
theorem runCollisionChecks_single_correction (M : JSMath α) (w : World α) (N : Nat) :
    ((∀ d ∈ getCollisions M w N, d.hasIntersect = false) →
      runCollisionChecks M w N = some w)
    ∧ ∀ (pre post : List (Collision α)) (c : Collision α),
        getCollisions M w N = pre ++ c :: post →
        c.hasIntersect = true →
        (∀ d ∈ post, d.hasIntersect = false) →
        runCollisionChecks M w N = updatePosition M w c.ancestor c
        ∧ ∃ (w2 : World α) (r : Line α),
            updatePosition M w c.ancestor c = some w2
            ∧ ∀ q : Nat, (w2 q).state.distanceIncreases
                = if q = c.ancestor then
                    Obj.set (w q).state.distanceIncreases (updatePosition.distanceId w c)
                      (updatePosition.distance M w c r)
                  else (w q).state.distanceIncreases := by
  constructor
  · intro hnone
    simp [runCollisionChecks, lastCollision_none _ hnone]
  · intro pre post c hsplit hc hpost
    have hmem : c ∈ getCollisions M w N := by rw [hsplit]; simp
    obtain ⟨r, hr⟩ := record_ray_of_hasIntersect M w N c hmem hc
    constructor
    · simp [runCollisionChecks, hsplit, lastCollision_append pre post c hc hpost]
    · refine ⟨_, r, updatePosition_eq M w c.ancestor c r hr, ?_⟩
      intro q
      simp only [removeOnDeactivate, setDeactivateActions_ledger, setDistanceIncreases_ledger]
      by_cases hq : q = c.ancestor
      · rw [if_pos hq, if_pos hq, hq]
      · rw [if_neg hq, if_neg hq]

/-- Witness of C5: in scenario A the inactive child has no intersecting record and its
pass changes nothing; in scenario B both records of the grandchild intersect and only
the last one, for its parent at position 1, is corrected. -/
theorem runCollisionChecks_single_correction_witness :
    ((∀ d ∈ getCollisions qMath worldA2 1, d.hasIntersect = false)
      ∧ runCollisionChecks qMath worldA2 1 = some worldA2)
    ∧ (getCollisions qMath worldB4 2 = [recordB0] ++ recordB1 :: []
      ∧ recordB0.hasIntersect = true ∧ recordB1.hasIntersect = true
      ∧ recordB1.ancestor = 1
      ∧ runCollisionChecks qMath worldB4 2 = updatePosition qMath worldB4 1 recordB1) := by
  have hA : ∀ d ∈ getCollisions qMath worldA2 1, d.hasIntersect = false := by decide!
  have hB : getCollisions qMath worldB4 2 = [recordB0] ++ recordB1 :: [] := by decide!
  exact ⟨⟨hA, (runCollisionChecks_single_correction qMath worldA2 1).1 hA⟩,
    hB, by decide!, by decide!, rfl,
    ((runCollisionChecks_single_correction qMath worldB4 2).2 [recordB0] [] recordB1 hB
      (by decide!) (by simp)).1⟩

end Ledger

/-! ## Collision detector: order of the records and ledger keys -/

section Detector

variable {α : Type} [LinearOrderedField α]

/-- C6 (as the code behaves): `getCollisions` returns exactly one record per entry of
the prop `ancestors` of the node, in the order of that list, each for the node itself;
`Node.render` passes to every child the list `[...ancestors, this]` and itself as
parent, and `SnowflakeNavigation.render` passes the empty list. The records are thus
ordered from the outermost ancestor first to the immediate parent last. -/
theorem getCollisions_ancestors_order [FloorRing α] (M : JSMath α) (w : World α) :
    (∀ N : Nat,
      (getCollisions M w N).map (fun c => c.ancestor) = (w N).props.ancestors
      ∧ ∀ c ∈ getCollisions M w N, c.node = N)
    ∧ (∀ P : Nat, ∀ props ∈ Node.render M w P,
        props.ancestors = (w P).props.ancestors ++ [P]
        ∧ props.parent = some (ParentRef.node P))
    ∧ (∀ tree : NodeType α, ∀ props ∈ SnowflakeNavigation.render tree,
        props.ancestors = [] ∧ props.parent = some ParentRef.root) := by
  refine ⟨fun N => ⟨?_, ?_⟩, ?_, ?_⟩
  · simp [getCollisions, getCollisions.record, Function.comp_def]
  · intro c hc
    obtain ⟨a, _, hrec⟩ := (mem_getCollisions M w N c).mp hc
    rw [← hrec]; rfl
  · intro P props hprops
    unfold Node.render at hprops
    by_cases hact : (w P).state.active = true
    · simp only [hact, if_true, List.mem_map] at hprops
      obtain ⟨e, _, he⟩ := hprops
      rw [← he]
      exact ⟨rfl, rfl⟩
    · simp [hact] at hprops
  · intro tree props hprops
    unfold SnowflakeNavigation.render at hprops
    simp only [List.mem_map] at hprops
    obtain ⟨e, _, he⟩ := hprops
    rw [← he]
    exact ⟨rfl, rfl⟩

/-- Witness of C6 (as amended): the grandchild of scenario B. -/
theorem getCollisions_ancestors_order_witness :
    (getCollisions qMath worldB4 2).map (fun c => c.ancestor) = (worldB4 2).props.ancestors
    ∧ (worldB4 2).props.ancestors = (worldB2 1).props.ancestors ++ [1] :=
  ⟨((getCollisions_ancestors_order qMath worldB4).1 2).1, by decide!⟩

/-- Counterexample to C6 as stated: in scenario B the node at position 2 has the
immediate parent 1, whose parent is the top-level node 0; the records of
`getCollisions` are for the ancestors `[0, 1]`, the outermost first and the immediate
parent last, not the parent first. -/
theorem getCollisions_parent_is_last :
    (worldB4 2).props.parent = some (ParentRef.node 1)
    ∧ (worldB4 1).props.parent = some (ParentRef.node 0)
    ∧ (worldB4 0).props.parent = some ParentRef.root
    ∧ (getCollisions qMath worldB4 2).map (fun c => c.ancestor) = [0, 1]
    ∧ (getCollisions qMath worldB4 2).map (fun c => c.ancestor) ≠ [1, 0] := by
  decide!

end Detector

section Keys

variable {α : Type}

/-- C7 (as the code behaves): the ledger key of a record is built from the two
`TreeNode` ids only; for records of one ancestor the keys are equal exactly when the
two descendants carry the same id, whatever their positions. -/
theorem distanceId_eq_iff (w : World α) (c1 c2 : Collision α)
    (hA : c1.ancestor = c2.ancestor) :
    updatePosition.distanceId w c1
        = Spec.pairKey (w c1.node).props.node.id (w c1.ancestor).props.node.id
    ∧ (updatePosition.distanceId w c1 = updatePosition.distanceId w c2
        ↔ (w c1.node).props.node.id = (w c2.node).props.node.id) := by
  refine ⟨rfl, ?_⟩
  unfold updatePosition.distanceId
  rw [hA]
  constructor
  · intro h
    have h2 := congrArg String.data h
    simp only [String.data_append, List.append_left_inj] at h2
    exact String.ext h2
  · intro h
    rw [h]

/-- Witness of C7 (as amended): the two "Outpatients" positions of scenario C. -/
theorem distanceId_eq_iff_witness :
    (getCollisions.record qMath worldC3 3 0).ancestor
      = (getCollisions.record qMath worldC3 4 0).ancestor
    ∧ (updatePosition.distanceId worldC3 (getCollisions.record qMath worldC3 3 0)
        = updatePosition.distanceId worldC3 (getCollisions.record qMath worldC3 4 0)
      ↔ (worldC3 3).props.node.id = (worldC3 4).props.node.id) :=
  ⟨rfl, (distanceId_eq_iff worldC3 (getCollisions.record qMath worldC3 3 0)
    (getCollisions.record qMath worldC3 4 0) rfl).2⟩

/-- Counterexample to C7 as stated: in scenario C, built from the tree of the source,
the distinct positions 3 and 4 are both descendants of the node at position 0 and carry
the same `TreeNode` id, and their records for that ancestor have the same ledger key. -/
theorem distanceId_shared_by_duplicated_subtrees :
    (3 : Nat) ≠ 4
    ∧ 0 ∈ (worldC3 3).props.ancestors ∧ 0 ∈ (worldC3 4).props.ancestors
    ∧ (worldC3 3).props.parent ≠ (worldC3 4).props.parent
    ∧ (getCollisions.record qMath worldC3 3 0) ∈ getCollisions qMath worldC3 3
    ∧ (getCollisions.record qMath worldC3 4 0) ∈ getCollisions qMath worldC3 4
    ∧ updatePosition.distanceId worldC3 (getCollisions.record qMath worldC3 3 0)
      = updatePosition.distanceId worldC3 (getCollisions.record qMath worldC3 4 0) := by
  refine ⟨by decide, by decide!, by decide!, by decide!, ?_, ?_, by decide!⟩
  · exact (mem_getCollisions qMath worldC3 3 _).mpr ⟨0, by decide!, rfl⟩
  · exact (mem_getCollisions qMath worldC3 4 _).mpr ⟨0, by decide!, rfl⟩

end Keys

/-! ## End-to-end scenario of the specification -/

section EndToEnd

variable {α : Type} [LinearOrderedField α]

/-- A click on an inactive node whose prop `ancestors` is empty activates it; its
collision pass sees no record and changes nothing else. -/
theorem clickNode_no_ancestors (M : JSMath α) (w : World α) (self : Nat)
    (hanc : (w self).props.ancestors = []) (hinactive : (w self).state.active = false) :
    getCollisions M (toggleActive w self none) self = []
    ∧ clickNode M w self = some (toggleActive w self none) := by
  have hcol : getCollisions M (toggleActive w self none) self = [] := by
    simp [getCollisions, toggleActive, setActive_props, hanc]
  refine ⟨hcol, ?_⟩
  have hact : (toggleActive w self none self).state.active = true := by
    simp [toggleActive, setActive_active, hinactive]
  simp [clickNode, componentDidUpdate, hinactive, hact, runCollisionChecks, hcol,
    runCollisionChecks.lastCollision]

/-- The nodes mounted by `mountTopLevel` have no ancestors and an empty ledger. -/
theorem mountTopLevel_ancestors (tree : NodeType α) (p : Nat) :
    (mountTopLevel tree p).props.ancestors = []
    ∧ (mountTopLevel tree p).state.distanceIncreases = [] := by
  refine ⟨?_, rfl⟩
  simp only [mountTopLevel, Node.mount, List.getD_eq_getElem?_getD]
  cases h : (SnowflakeNavigation.render tree)[p]? with
  | none => rfl
  | some props =>
    have hmem : props ∈ SnowflakeNavigation.render tree := List.getElem?_mem h
    unfold SnowflakeNavigation.render at hmem
    simp only [List.mem_map] at hmem
    obtain ⟨e, _, he⟩ := hmem
    simp only [Option.getD_some]
    rw [← he]

/-- C8 (as the code behaves): the root has three children, all inactive, with
`activeRadius = 80` (and any `inactiveRadius`, such as `20`). After a click on sibling 2 and then on
sibling 1, the collision pass of sibling 1 has produced no record at all (a top-level
node has no ancestors), no ledger holds an entry, and sibling 1 lies at distance
`rootRadius + activeRadius + minLineDistance = 80 + 80 + 120 = 280` from the root. -/
theorem end_to_end_three_siblings (M : JSMath α) (tree s1 s2 s3 : NodeType α)
    (htree : tree.nodes = [s1, s2, s3])
    (hinactive : s1.active = false ∧ s2.active = false ∧ s3.active = false)
    (hactiveRadius : s1.activeRadius = 80 ∧ s2.activeRadius = 80 ∧ s3.activeRadius = 80) :
    ∃ w1 w2 : World α,
      clickNode M (mountTopLevel tree) 1 = some w1
      ∧ clickNode M w1 0 = some w2
      ∧ (w2 0).state.active = true ∧ (w2 1).state.active = true
      ∧ (w2 2).state.active = false
      ∧ getCollisions M (toggleActive w1 0 none) 0 = []
      ∧ (∀ p : Nat, (w2 p).state.distanceIncreases = [])
      ∧ getOffset.dist w2 0 ParentRef.root = activeRadius + 80 + minLineDistance
      ∧ getOffset.dist w2 0 ParentRef.root = 280
      ∧ getOffset M w2 0 = { x := M.cos (0 * 0.0174533) * 280, y := M.sin (0 * 0.0174533) * 280 } := by
  have hrender : SnowflakeNavigation.render tree
      = [ { node := s1, parent := some ParentRef.root, ancestors := [], startingAngle := some 0,
            angleDifference := 360 / ((3 : Nat) : α), angle := (360 / ((3 : Nat) : α)) * ((0 : Nat) : α),
            absolutePosition := { x := 0, y := 0 } },
          { node := s2, parent := some ParentRef.root, ancestors := [], startingAngle := some 0,
            angleDifference := 360 / ((3 : Nat) : α), angle := (360 / ((3 : Nat) : α)) * ((1 : Nat) : α),
            absolutePosition := { x := 0, y := 0 } },
          { node := s3, parent := some ParentRef.root, ancestors := [], startingAngle := some 0,
            angleDifference := 360 / ((3 : Nat) : α), angle := (360 / ((3 : Nat) : α)) * ((2 : Nat) : α),
            absolutePosition := { x := 0, y := 0 } } ] := by
    simp [SnowflakeNavigation.render, htree, List.enum, List.enumFrom]
  have h0 : (mountTopLevel tree 0).props.node = s1 := by simp [mountTopLevel, hrender, Node.mount]
  have h1 : (mountTopLevel tree 1).props.node = s2 := by simp [mountTopLevel, hrender, Node.mount]
  have h2 : (mountTopLevel tree 2).props.node = s3 := by simp [mountTopLevel, hrender, Node.mount]
  have hp0 : (mountTopLevel tree 0).props.parent = some ParentRef.root := by
    simp [mountTopLevel, hrender, Node.mount]
  have hs0 : (mountTopLevel tree 0).props.startingAngle = some 0 := by
    simp [mountTopLevel, hrender, Node.mount]
  have ha0 : (mountTopLevel tree 0).props.angle = 0 := by
    simp [mountTopLevel, hrender, Node.mount]
  have hact : ∀ p, (mountTopLevel tree p).state.active = (mountTopLevel tree p).props.node.active :=
    fun p => rfl
  obtain ⟨_, hclick1⟩ := clickNode_no_ancestors M (mountTopLevel tree) 1
    (mountTopLevel_ancestors tree 1).1 (by rw [hact, h1]; exact hinactive.2.1)
  generalize hw1 : toggleActive (mountTopLevel tree) 1 none = w1 at hclick1
  have hw1props : ∀ p, (w1 p).props = (mountTopLevel tree p).props := by
    intro p; rw [← hw1]; simp [toggleActive, setActive_props]
  have hw1ledger : ∀ p, (w1 p).state.distanceIncreases = [] := by
    intro p; rw [← hw1]; simp [toggleActive, setActive_ledger, (mountTopLevel_ancestors tree p).2]
  have hw1active : ∀ p, (w1 p).state.active
      = if p = 1 then true else (mountTopLevel tree p).state.active := by
    intro p; rw [← hw1]
    simp [toggleActive, setActive_active, hact 1, h1, hinactive.2.1]
  obtain ⟨hcol, hclick2⟩ := clickNode_no_ancestors M w1 0
    (by rw [hw1props]; exact (mountTopLevel_ancestors tree 0).1)
    (by rw [hw1active]; simp [hact, h0, hinactive.1])
  generalize hw2 : toggleActive w1 0 none = w2 at hclick2
  have hw2props : ∀ p, (w2 p).props = (mountTopLevel tree p).props := by
    intro p; rw [← hw2]; simp [toggleActive, setActive_props, hw1props]
  have hw2ledger : ∀ p, (w2 p).state.distanceIncreases = [] := by
    intro p; rw [← hw2]; simp [toggleActive, setActive_ledger, hw1ledger]
  have hw2active0 : (w2 0).state.active = true := by
    rw [← hw2]; simp [toggleActive, setActive_active, hw1active, hact, h0, hinactive.1]
  have hw2active1 : (w2 1).state.active = true := by
    rw [← hw2]; simp [toggleActive, setActive_active, hw1active]
  have hw2active2 : (w2 2).state.active = false := by
    rw [← hw2]; simp [toggleActive, setActive_active, hw1active, hact, h2, hinactive.2.2]
  have hdist : getOffset.dist w2 0 ParentRef.root = 280 := by
    simp [getOffset.dist, getOffset.offsetDistance, getRadius, hw2active0, hw2props, h0,
      hactiveRadius.1, hw2ledger, ParentRef.getRadius, activeRadius, Obj.values, mathMax,
      minLineDistance]
    norm_num
  refine ⟨w1, w2, hclick1, hclick2, hw2active0, hw2active1, hw2active2, hw2 ▸ hcol, hw2ledger,
    ?_, hdist, ?_⟩
  · rw [hdist]; simp [activeRadius, minLineDistance]; norm_num
  · simp [getOffset, hw2props, hp0, hs0, ha0, hdist]

/-- Witness of C8 (as amended): scenario D, the tree `tree3`. -/
theorem end_to_end_three_siblings_witness :
    tree3.nodes = [leaf "s1", leaf "s2", leaf "s3"]
    ∧ ∃ w1 w2 : World ℚ,
      clickNode qMath (mountTopLevel tree3) 1 = some w1
      ∧ clickNode qMath w1 0 = some w2
      ∧ (∀ p : Nat, (w2 p).state.distanceIncreases = [])
      ∧ getOffset.dist w2 0 ParentRef.root = 280 := by
  obtain ⟨w1, w2, h1, h2, _, _, _, _, h7, _, h9, _⟩ :=
    end_to_end_three_siblings qMath tree3 (leaf "s1") (leaf "s2") (leaf "s3") rfl
      ⟨rfl, rfl, rfl⟩ ⟨rfl, rfl, rfl⟩
  exact ⟨rfl, w1, w2, h1, h2, h7, h9⟩

/-- Counterexample to C8 as stated: in scenario D (three inactive siblings with radii
`80` and `20`; sibling 2 at position 1 is activated, then sibling 1 at position 0) the
collision pass of sibling 1 returns no record, so none has `hasIntersect = true`, and
after the pass no ledger entry has been written at any of the three siblings. -/
theorem end_to_end_no_record_no_entry :
    clickNode qMath (mountTopLevel tree3) 1 = some worldD1
    ∧ clickNode qMath worldD1 0 = some worldD3
    ∧ (worldD3 0).state.active = true ∧ (worldD3 1).state.active = true
    ∧ getCollisions qMath worldD2 0 = []
    ∧ (∀ c ∈ getCollisions qMath worldD2 0, c.hasIntersect = false)
    ∧ getCollisions qMath worldD3 0 = [] ∧ getCollisions qMath worldD3 1 = []
    ∧ (worldD3 0).state.distanceIncreases = []
    ∧ (worldD3 1).state.distanceIncreases = []
    ∧ (worldD3 2).state.distanceIncreases = []
    ∧ getOffset.dist worldD3 0 ParentRef.root = 280 := by
  have hA : (mountTopLevel tree3 1).props.ancestors = [] := by decide!
  have hB : (mountTopLevel tree3 1).state.active = false := by decide!
  have h1 := (clickNode_no_ancestors qMath (mountTopLevel tree3) 1 hA hB).2
  have hD1 : worldD1 = toggleActive (mountTopLevel tree3) 1 none := by
    simp [worldD1, h1]
  have hC : (worldD1 0).props.ancestors = [] := by
    rw [hD1]; decide!
  have hE : (worldD1 0).state.active = false := by
    rw [hD1]; decide!
  have h2 := clickNode_no_ancestors qMath worldD1 0 hC hE
  have hD3 : worldD3 = toggleActive worldD1 0 none := by
    simp [worldD3, h2.2]
  have hcol : getCollisions qMath worldD2 0 = [] := h2.1
  refine ⟨by rw [h1, hD1], by rw [h2.2, hD3], ?_, ?_, hcol, ?_, ?_, ?_, ?_, ?_, ?_, ?_⟩
  · rw [hD3, hD1]; decide!
  · rw [hD3, hD1]; decide!
  · rw [hcol]; simp
  · rw [hD3, hD1]; decide!
  · rw [hD3, hD1]; decide!
  · rw [hD3, hD1]; decide!
  · rw [hD3, hD1]; decide!
  · rw [hD3, hD1]; decide!
  · rw [hD3, hD1]; decide!

end EndToEnd

/-! ## Geometry kernel: the parameter test of `intersect` -/

section Intersect

variable {α : Type} [LinearOrderedField α]

/-- The denominator of two segments whose cross product has absolute value at least
`0.001` is not in the range that `intersect` treats as parallel. -/
theorem not_parallel_of_abs (d : α) (hd : 0.001 ≤ |d|) : ¬ (d > -0.001 ∧ d < 0.001) := by
  rintro ⟨h1, h2⟩
  have : |d| < 0.001 := abs_lt.mpr ⟨h1, h2⟩
  exact absurd hd (not_le.mpr this)

/-- C9 (as the code behaves): for segments `a` and `b` of non-zero length whose
cross-product denominator has absolute value at least `0.001`, `intersect a b` is
none whenever the parameter `t` along `a` is below `0.001` or above `0.999`, that is
outside the closed interval `[0.001, 0.999]`; when `t` is exactly `0.001` or exactly
`0.999` the interpolated point is returned. -/
theorem intersect_none_outside_closed_interval (a b : Line α)
    (ha : ¬ (a.x1 = a.x2 ∧ a.y1 = a.y2)) (hb : ¬ (b.x1 = b.x2 ∧ b.y1 = b.y2))
    (hd : 0.001 ≤ |intersect.denominator a b|) :
    ((intersect.ua a b < 0.001 ∨ 0.999 < intersect.ua a b) → intersect a b = none)
    ∧ ((intersect.ua a b = 0.001 ∨ intersect.ua a b = 0.999) →
        intersect a b = some
          { x := a.x1 + intersect.ua a b * (a.x2 - a.x1)
            y := a.y1 + intersect.ua a b * (a.y2 - a.y1) }) := by
  have hnd : ¬ ((a.x1 = a.x2 ∧ a.y1 = a.y2) ∨ (b.x1 = b.x2 ∧ b.y1 = b.y2)) := by
    rintro (h | h)
    · exact ha h
    · exact hb h
  have hnp := not_parallel_of_abs _ hd
  constructor
  · intro hout
    have hout2 : intersect.ua a b < 0.001 ∨ intersect.ua a b > 0.999 := hout
    unfold intersect
    rw [if_neg hnd, if_neg hnp, if_pos hout2]
  · intro hedge
    have hin : ¬ (intersect.ua a b < 0.001 ∨ intersect.ua a b > 0.999) := by
      rcases hedge with h | h
      · rw [h]; norm_num
      · rw [h]; norm_num
    unfold intersect
    rw [if_neg hnd, if_neg hnp, if_neg hin]

/-- Witness of C9 (as amended): a crossing beyond the end of the first segment
(`t = 2`) gives none, and a crossing at `t = 0.999` gives the point. -/
theorem intersect_none_outside_closed_interval_witness :
    (intersect.ua (seg 0 0 10 0) (seg 20 (-1) 20 1) = 2
      ∧ intersect (seg 0 0 10 0) (seg 20 (-1) 20 1) = none)
    ∧ (intersect.ua (seg 0 0 1000 0) (seg 999 (-1) 999 1) = 0.999
      ∧ intersect (seg 0 0 1000 0) (seg 999 (-1) 999 1) = some (pt 999 0)) := by
  have h1 := (intersect_none_outside_closed_interval (seg 0 0 10 0) (seg 20 (-1) 20 1)
    (by decide!) (by decide!) (by decide!)).1 (Or.inr (by decide!))
  have h2 := (intersect_none_outside_closed_interval (seg 0 0 1000 0) (seg 999 (-1) 999 1)
    (by decide!) (by decide!) (by decide!)).2 (Or.inr (by decide!))
  exact ⟨⟨by decide!, h1⟩, by decide!, h2.trans (by decide!)⟩

/-- Counterexample to C9 as stated: for `a = (0,0)-(1000,0)` and `b = (1,-1)-(1,1)`
both segments have non-zero length, the denominator is `2000`, and the parameter is
exactly `0.001`, which is not inside the open interval `(0.001, 0.999)`; yet
`intersect a b` is the point `(1, 0)`, not none. -/
theorem intersect_at_parameter_bound :
    ¬ ((seg 0 0 1000 0).x1 = (seg 0 0 1000 0).x2 ∧ (seg 0 0 1000 0).y1 = (seg 0 0 1000 0).y2)
    ∧ ¬ ((seg 1 (-1) 1 1).x1 = (seg 1 (-1) 1 1).x2 ∧ (seg 1 (-1) 1 1).y1 = (seg 1 (-1) 1 1).y2)
    ∧ intersect.denominator (seg 0 0 1000 0) (seg 1 (-1) 1 1) = 2000
    ∧ (0.001 : ℚ) ≤ |intersect.denominator (seg 0 0 1000 0) (seg 1 (-1) 1 1)|
    ∧ intersect.ua (seg 0 0 1000 0) (seg 1 (-1) 1 1) = 0.001
    ∧ ¬ (0.001 < intersect.ua (seg 0 0 1000 0) (seg 1 (-1) 1 1)
        ∧ intersect.ua (seg 0 0 1000 0) (seg 1 (-1) 1 1) < 0.999)
    ∧ intersect (seg 0 0 1000 0) (seg 1 (-1) 1 1) = some (pt 1 0)
    ∧ intersect (seg 0 0 1000 0) (seg 1 (-1) 1 1) ≠ none := by
  decide!

/-- C10: for segments `a` and `b` of non-zero length whose denominator
`D = (b.y2-b.y1)*(a.x2-a.x1) - (b.x2-b.x1)*(a.y2-a.y1)` is not treated as parallel and
whose parameter `t = ((b.x2-b.x1)*(a.y1-b.y1) - (b.y2-b.y1)*(a.x1-b.x1)) / D` is
accepted, `intersect a b` is the interpolated point `a.p1 + t*(a.p2 - a.p1)`. -/
theorem intersect_interpolated_point (a b : Line α) (t : α)
    (ha : ¬ (a.point1.x = a.point2.x ∧ a.point1.y = a.point2.y))
    (hb : ¬ (b.point1.x = b.point2.x ∧ b.point1.y = b.point2.y))
    (hd : 0.001 ≤ |(b.y2 - b.y1) * (a.x2 - a.x1) - (b.x2 - b.x1) * (a.y2 - a.y1)|)
    (ht : t = ((b.x2 - b.x1) * (a.y1 - b.y1) - (b.y2 - b.y1) * (a.x1 - b.x1))
      / ((b.y2 - b.y1) * (a.x2 - a.x1) - (b.x2 - b.x1) * (a.y2 - a.y1)))
    (hacc : 0.001 ≤ t ∧ t ≤ 0.999) :
    intersect a b = some
      { x := a.point1.x + t * (a.point2.x - a.point1.x)
        y := a.point1.y + t * (a.point2.y - a.point1.y) } := by
  have hnd : ¬ ((a.x1 = a.x2 ∧ a.y1 = a.y2) ∨ (b.x1 = b.x2 ∧ b.y1 = b.y2)) := by
    rintro (h | h)
    · exact ha h
    · exact hb h
  have hnp : ¬ (intersect.denominator a b > -0.001 ∧ intersect.denominator a b < 0.001) :=
    not_parallel_of_abs _ hd
  have hua : intersect.ua a b = t := by rw [ht]; rfl
  have hin : ¬ (intersect.ua a b < 0.001 ∨ intersect.ua a b > 0.999) := by
    rw [hua]
    rintro (h | h)
    · exact absurd hacc.1 (not_le.mpr h)
    · exact absurd hacc.2 (not_le.mpr h)
  unfold intersect
  rw [if_neg hnd, if_neg hnp, if_neg hin, hua]
  rfl

/-- Witness of C10: the example of the specification,
`intersect(Line{(0,0),(10,10)}, Line{(0,10),(10,0)}) = Point(5,5)`, with `t = 1/2`. -/
theorem intersect_interpolated_point_witness :
    intersect (seg 0 0 10 10) (seg 0 10 10 0) = some (pt 5 5) :=
  (intersect_interpolated_point (seg 0 0 10 10) (seg 0 10 10 0) (1 / 2)
    (by decide!) (by decide!) (by decide!) (by decide!) (by decide!)).trans (by decide!)

end Intersect

/-! ## Geometry kernel: degenerate inputs of `intersect` -/

section IntersectGuards

variable {α : Type} [LinearOrderedField α]

/-- C11: if the cross-product denominator of the direction vectors of `a` and `b` has
absolute value below `0.001`, `intersect a b` is none (the lines are treated as
parallel), whatever else holds of the segments. -/
theorem intersect_parallel_none (a b : Line α)
    (hd : |(b.y2 - b.y1) * (a.x2 - a.x1) - (b.x2 - b.x1) * (a.y2 - a.y1)| < 0.001) :
    intersect a b = none := by
  have hpar : intersect.denominator a b > -0.001 ∧ intersect.denominator a b < 0.001 :=
    abs_lt.mp hd
  unfold intersect
  by_cases hz : (a.x1 = a.x2 ∧ a.y1 = a.y2) ∨ (b.x1 = b.x2 ∧ b.y1 = b.y2)
  · rw [if_pos hz]
  · rw [if_neg hz, if_pos hpar]

/-- Witness of C11: the example of the specification,
`intersect(Line{(0,0),(10,0)}, Line{(0,1),(10,1)}) = none`, where the denominator
is `0`. -/
theorem intersect_parallel_none_witness :
    intersect.denominator (seg 0 0 10 0) (seg 0 1 10 1) = 0
    ∧ intersect (seg 0 0 10 0) (seg 0 1 10 1) = none :=
  ⟨by decide!, intersect_parallel_none (seg 0 0 10 0) (seg 0 1 10 1) (by decide!)⟩

/-- C12: if either segment has zero length (its two end points are equal),
`intersect a b` is none, whatever the other segment is. -/
theorem intersect_zero_length_none (a b : Line α)
    (hz : a.point1 = a.point2 ∨ b.point1 = b.point2) :
    intersect a b = none := by
  have hz2 : (a.x1 = a.x2 ∧ a.y1 = a.y2) ∨ (b.x1 = b.x2 ∧ b.y1 = b.y2) := by
    rcases hz with h | h
    · exact Or.inl ⟨congrArg Coords.x h, congrArg Coords.y h⟩
    · exact Or.inr ⟨congrArg Coords.x h, congrArg Coords.y h⟩
  unfold intersect
  rw [if_pos hz2]

/-- Witness of C12: the example of the specification,
`intersect(Line{(0,0),(0,0)}, Line{(1,1),(2,2)}) = none`, and the same with the
segments exchanged. -/
theorem intersect_zero_length_none_witness :
    intersect (seg 0 0 0 0) (seg 1 1 2 2) = none
    ∧ intersect (seg 1 1 2 2) (seg 0 0 0 0) = none :=
  ⟨intersect_zero_length_none (seg 0 0 0 0) (seg 1 1 2 2) (Or.inl rfl),
   intersect_zero_length_none (seg 1 1 2 2) (seg 0 0 0 0) (Or.inr rfl)⟩

end IntersectGuards

/-! ## Offset resolver: monotonicity, root offset, activity toggle -/

section OffsetMore

variable {α : Type} [LinearOrderedField α]

/-- C13: the required separation of `getOffset` (its constant `offsetDistance`) is
monotone in the ledger: when an entry is added to the ledger of a node or the value of
an existing entry is raised, the required separation does not decrease, and for an
active node the total offset distance `dist` does not decrease either. -/
theorem requiredSeparation_monotone (w : World α) (self : Nat) (k : String) (v : α)
    (hraise : ∀ v0, Obj.get? (w self).state.distanceIncreases k = some v0 → v0 ≤ v) :
    getOffset.offsetDistance w self
      ≤ getOffset.offsetDistance
          (setDistanceIncreases w self (Obj.set (w self).state.distanceIncreases k v)) self
    ∧ ∀ parent : ParentRef, (w self).state.active = true →
        getOffset.dist w self parent
          ≤ getOffset.dist
              (setDistanceIncreases w self (Obj.set (w self).state.distanceIncreases k v))
              self parent := by
  have hmono : getOffset.offsetDistance w self
      ≤ getOffset.offsetDistance
          (setDistanceIncreases w self (Obj.set (w self).state.distanceIncreases k v)) self := by
    simp only [getOffset.offsetDistance, setDistanceIncreases_ledger, if_true]
    exact mathMax_set_le _ k v _ hraise
  refine ⟨hmono, ?_⟩
  intro parent hactive
  simp only [getOffset.dist, getRadius_setDistanceIncreases,
    ParentRef.getRadius_setLedger, setDistanceIncreases_active, hactive, if_true]
  exact add_le_add_left hmono _

/-- Witness of C13: in scenario E the entry `n1_t0` is raised from `130` to `150`, and
then an entry `n2_t0` with value `100` is added. -/
theorem requiredSeparation_monotone_witness :
    (getOffset.offsetDistance worldE 0 = 130
      ∧ getOffset.offsetDistance
          (setDistanceIncreases worldE 0 (Obj.set (worldE 0).state.distanceIncreases "n1_t0" 150))
          0 = 150
      ∧ getOffset.offsetDistance worldE 0
        ≤ getOffset.offsetDistance
          (setDistanceIncreases worldE 0 (Obj.set (worldE 0).state.distanceIncreases "n1_t0" 150))
          0)
    ∧ getOffset.dist worldE 0 ParentRef.root
        ≤ getOffset.dist
            (setDistanceIncreases worldE 0 (Obj.set (worldE 0).state.distanceIncreases "n2_t0" 100))
            0 ParentRef.root := by
  have hget : Obj.get? (worldE 0).state.distanceIncreases "n1_t0" = some 130 := by decide!
  have hget2 : Obj.get? (worldE 0).state.distanceIncreases "n2_t0" = none := by decide!
  refine ⟨⟨by decide!, by decide!, ?_⟩, ?_⟩
  · refine (requiredSeparation_monotone worldE 0 "n1_t0" 150 ?_).1
    intro v0 h0
    rw [hget] at h0
    cases h0
    norm_num
  · refine (requiredSeparation_monotone worldE 0 "n2_t0" 100 ?_).2 ParentRef.root (by decide!)
    intro v0 h0
    rw [hget2] at h0
    cases h0

/-- C18: for a node with no parent, `getOffset` is the origin `(0, 0)`, for both
values of the active flag and for every ledger content. -/
theorem getOffset_no_parent (M : JSMath α) (w : World α) (self : Nat)
    (hparent : (w self).props.parent = none) :
    getOffset M w self = { x := 0, y := 0 }
    ∧ ∀ (active : Bool) (ledger : List (String × α)),
        getOffset M (setDistanceIncreases (setActive w self active) self ledger) self
          = { x := 0, y := 0 } := by
  constructor
  · simp [getOffset, hparent]
  · intro active ledger
    simp [getOffset, setDistanceIncreases_props, setActive_props, hparent]

/-- Witness of C18: a position without parent, inactive with an empty ledger and active
with an entry of `500`. -/
theorem getOffset_no_parent_witness :
    (blank 0 : Node ℚ).props.parent = none
    ∧ getOffset qMath blank 0 = pt 0 0
    ∧ getOffset qMath (setDistanceIncreases (setActive blank 0 true) 0 [("a_b", 500)]) 0
        = pt 0 0 :=
  ⟨rfl, (getOffset_no_parent qMath blank 0 rfl).1,
    (getOffset_no_parent qMath blank 0 rfl).2 true [("a_b", 500)]⟩

omit [LinearOrderedField α]

/-- C19: `toggleActive()` replaces `active` by its negation and `toggleActive(b)` sets
it to `b`; `toggleActive(b)` with `b` equal to the current value leaves the world
unchanged, and applying `toggleActive(b)` twice is the same as applying it once. In
every case the props, the ledger and the registered cleanup actions of every node, and
the active flag of every other node, are unchanged. -/
theorem toggleActive_spec (w : World α) (self : Nat) :
    (toggleActive w self none self).state.active = !(w self).state.active
    ∧ (∀ b : Bool, (toggleActive w self (some b) self).state.active = b)
    ∧ (∀ b : Bool, b = (w self).state.active → toggleActive w self (some b) = w)
    ∧ (∀ b : Bool, toggleActive (toggleActive w self (some b)) self (some b)
        = toggleActive w self (some b))
    ∧ ∀ (arg : Option Bool) (q : Nat),
        (toggleActive w self arg q).state.distanceIncreases = (w q).state.distanceIncreases
        ∧ (toggleActive w self arg q).state.deactivateActions = (w q).state.deactivateActions
        ∧ (toggleActive w self arg q).props = (w q).props
        ∧ (q ≠ self → (toggleActive w self arg q).state.active = (w q).state.active) := by
  refine ⟨?_, ?_, ?_, ?_, ?_⟩
  · simp [toggleActive, setActive_active]
  · intro b
    simp [toggleActive, setActive_active]
  · intro b hb
    simp only [toggleActive, setActive, Option.getD_some, hb]
    exact Function.update_eq_self self w
  · intro b
    simp only [toggleActive, setActive, Option.getD_some, Function.update_same,
      Function.update_idem]
  · intro arg q
    refine ⟨?_, ?_, ?_, ?_⟩
    · simp [toggleActive, setActive_ledger]
    · simp [toggleActive, setActive_actions]
    · simp [toggleActive, setActive_props]
    · intro hq
      simp [toggleActive, setActive_active, hq]

/-- Witness of C19: the top-level node of scenario E, which is active and has a ledger
entry. -/
theorem toggleActive_spec_witness :
    (worldE 0).state.active = true
    ∧ (toggleActive worldE 0 none 0).state.active = false
    ∧ toggleActive worldE 0 (some true) = worldE
    ∧ (toggleActive worldE 0 none 0).state.distanceIncreases = [("n1_t0", 130)] := by
  have h := toggleActive_spec worldE 0
  have hact : (worldE 0).state.active = true := by decide!
  refine ⟨hact, ?_, h.2.2.1 true hact.symm, ?_⟩
  · rw [h.1, hact]; rfl
  · rw [(h.2.2.2.2 none 0).1]; decide!

end OffsetMore

/-! ## Angular tree model -/

section Angular

variable {α : Type} [LinearOrderedField α]

/-- The child elements of an active node, as a map over its enumerated children. -/
theorem Node.render_active [FloorRing α] (M : JSMath α) (w : World α) (P : Nat)
    (hactive : (w P).state.active = true) :
    Node.render M w P
      = (w P).props.node.nodes.enum.map fun (e : Nat × NodeType α) =>
          ({ node := e.2
             parent := some (ParentRef.node P)
             ancestors := (w P).props.ancestors ++ [P]
             startingAngle :=
               some (jsRem ((w P).props.startingAngle.getD 0 + 180 + (w P).props.angle) 360)
             angleDifference := 360 / (((w P).props.node.nodes.length : α) + 1)
             angle := (360 / (((w P).props.node.nodes.length : α) + 1)) * ((e.1 : α) + 1)
             absolutePosition := Point.move (w P).props.absolutePosition (getOffset M w P) } :
            NodeProps α) := by
  simp only [Node.render, hactive, if_true]

/-- C14: an active node with `n` children renders `n` child elements, in the order of
its children; each receives the wedge width `d = 360/(n+1)` and the child at index `i`
the local angle `d*(i+1)`; the wedge widths sum to `n*360/(n+1)`, and a node without
children renders no child element. -/
theorem render_child_wedges [FloorRing α] (M : JSMath α) (w : World α) (P : Nat)
    (hactive : (w P).state.active = true) :
    (Node.render M w P).length = (w P).props.node.nodes.length
    ∧ (Node.render M w P).map (fun props => props.node) = (w P).props.node.nodes
    ∧ (Node.render M w P).map (fun props => props.angleDifference)
        = List.replicate (w P).props.node.nodes.length
            (360 / (((w P).props.node.nodes.length : α) + 1))
    ∧ (Node.render M w P).map (fun props => props.angle)
        = (List.range (w P).props.node.nodes.length).map
            (fun (i : Nat) => 360 / (((w P).props.node.nodes.length : α) + 1) * ((i : α) + 1))
    ∧ ((Node.render M w P).map (fun props => props.angleDifference)).sum
        = ((w P).props.node.nodes.length : α) * 360
            / (((w P).props.node.nodes.length : α) + 1)
    ∧ ((w P).props.node.nodes = [] → Node.render M w P = []) := by
  have hwidth : (Node.render M w P).map (fun props => props.angleDifference)
      = List.replicate (w P).props.node.nodes.length
          (360 / (((w P).props.node.nodes.length : α) + 1)) := by
    rw [Node.render_active M w P hactive, List.map_map]
    rw [List.eq_replicate_iff]
    constructor
    · simp
    · intro b hb
      obtain ⟨e, _, he⟩ := List.mem_map.mp hb
      rw [← he]; rfl
  refine ⟨?_, ?_, hwidth, ?_, ?_, ?_⟩
  · rw [Node.render_active M w P hactive]; simp
  · rw [Node.render_active M w P hactive, List.map_map]
    exact List.enum_map_snd _
  · rw [Node.render_active M w P hactive, List.map_map,
      ← List.enum_map_fst (w P).props.node.nodes, List.map_map]
    rfl
  · rw [hwidth, List.sum_replicate, nsmul_eq_mul, mul_div_assoc]
  · intro hnil
    rw [Node.render_active M w P hactive, hnil]
    rfl

/-- Witness of C14: the active node at position 1 of scenario B, which has five
children. -/
theorem render_child_wedges_witness :
    (worldB2 1).state.active = true
    ∧ (Node.render qMath worldB2 1).length = 5
    ∧ (Node.render qMath worldB2 1).map (fun props => props.angleDifference)
        = [60, 60, 60, 60, 60]
    ∧ (Node.render qMath worldB2 1).map (fun props => props.angle) = [60, 120, 180, 240, 300]
    ∧ ((Node.render qMath worldB2 1).map (fun props => props.angleDifference)).sum = 300 := by
  have hact : (worldB2 1).state.active = true := by decide!
  have hn : (worldB2 1).props.node.nodes.length = 5 := by decide!
  obtain ⟨h1, _, h3, h4, h5, _⟩ := render_child_wedges qMath worldB2 1 hact
  rw [hn] at h1 h3 h4 h5
  refine ⟨hact, h1, h3.trans (by decide!), h4.trans (by decide!), h5.trans (by decide!)⟩

/-- C15 (as the code behaves): the children placed by `Node.render` all receive the
wedge width `360/(n+1)` and the angles `360/(n+1)*(i+1)`; the `k` children of the tree
root placed by `SnowflakeNavigation.render` receive the wedge width `360/k`, the child
at index `i` receives the angle `360/k*i`, and every one the starting angle `0`, so the
first top-level child lies at angle `0`. -/
theorem topLevel_wedges [FloorRing α] (tree : NodeType α) :
    (SnowflakeNavigation.render tree).length = tree.nodes.length
    ∧ (SnowflakeNavigation.render tree).map (fun props => props.node) = tree.nodes
    ∧ (SnowflakeNavigation.render tree).map (fun props => props.angleDifference)
        = List.replicate tree.nodes.length (360 / (tree.nodes.length : α))
    ∧ (SnowflakeNavigation.render tree).map (fun props => props.angle)
        = (List.range tree.nodes.length).map
            (fun (i : Nat) => 360 / (tree.nodes.length : α) * (i : α))
    ∧ (SnowflakeNavigation.render tree).map (fun props => props.startingAngle)
        = List.replicate tree.nodes.length (some 0)
    ∧ ∀ (M : JSMath α) (w : World α) (P : Nat), ∀ props ∈ Node.render M w P,
        props.angleDifference = 360 / (((w P).props.node.nodes.length : α) + 1)
        ∧ ∃ i : Nat, i < (w P).props.node.nodes.length
            ∧ props.angle = 360 / (((w P).props.node.nodes.length : α) + 1) * ((i : α) + 1) := by
  refine ⟨?_, ?_, ?_, ?_, ?_, ?_⟩
  · simp [SnowflakeNavigation.render]
  · simp only [SnowflakeNavigation.render, List.map_map]
    exact List.enum_map_snd _
  · simp only [SnowflakeNavigation.render, List.map_map]
    rw [List.eq_replicate_iff]
    constructor
    · simp
    · intro b hb
      obtain ⟨e, _, he⟩ := List.mem_map.mp hb
      rw [← he]; rfl
  · simp only [SnowflakeNavigation.render, List.map_map]
    rw [← List.enum_map_fst tree.nodes, List.map_map]
    rfl
  · simp only [SnowflakeNavigation.render, List.map_map]
    rw [List.eq_replicate_iff]
    constructor
    · simp
    · intro b hb
      obtain ⟨e, _, he⟩ := List.mem_map.mp hb
      rw [← he]; rfl
  · intro M w P props hprops
    by_cases hactive : (w P).state.active = true
    · rw [Node.render_active M w P hactive] at hprops
      obtain ⟨e, he, hp⟩ := List.mem_map.mp hprops
      rw [← hp]
      refine ⟨rfl, e.1, ?_, rfl⟩
      have h1 : e.1 ∈ List.map Prod.fst (w P).props.node.nodes.enum :=
        List.mem_map.mpr ⟨e, he, rfl⟩
      rw [List.enum_map_fst] at h1
      exact List.mem_range.mp h1
    · simp [Node.render, hactive] at hprops

/-- Counterexample to C15 as stated: the root of `tree3` has `k = 3` children; the
top-level children receive the wedge width `120`, not `360/(3+1) = 90`, and the angles
`0, 120, 240`, not `90, 180, 270`: the child at index `0` lies at angle `0`. -/
theorem topLevel_child_at_angle_zero :
    tree3.nodes.length = 3
    ∧ (SnowflakeNavigation.render tree3).map (fun props => props.angleDifference)
        = [120, 120, 120]
    ∧ (SnowflakeNavigation.render tree3).map (fun props => props.angleDifference)
        ≠ [360 / (3 + 1), 360 / (3 + 1), 360 / (3 + 1)]
    ∧ (SnowflakeNavigation.render tree3).map (fun props => props.angle) = [0, 120, 240]
    ∧ (SnowflakeNavigation.render tree3).map (fun props => props.angle)
        ≠ [360 / (3 + 1) * (0 + 1), 360 / (3 + 1) * (1 + 1), 360 / (3 + 1) * (2 + 1)] := by
  decide!

/-- The JavaScript remainder differs from the dividend by a multiple of the divisor. -/
theorem jsRem_eq_sub [FloorRing α] (a b : α) : ∃ z : ℤ, jsRem a b = a - b * (z : α) := by
  unfold jsRem
  by_cases h : 0 ≤ a / b
  · exact ⟨⌊a / b⌋, by rw [if_pos h]⟩
  · exact ⟨⌈a / b⌉, by rw [if_neg h]⟩

/-- The JavaScript remainder of a dividend strictly between `-b` and `b` is the
dividend. -/
theorem jsRem_eq_self [FloorRing α] (a b : α) (hb : 0 < b) (h1 : -b < a) (h2 : a < b) :
    jsRem a b = a := by
  unfold jsRem
  by_cases h : 0 ≤ a / b
  · have hlt : a / b < 1 := (div_lt_one hb).mpr h2
    have hfloor : ⌊a / b⌋ = 0 := Int.floor_eq_zero_iff.mpr ⟨h, hlt⟩
    rw [if_pos h, hfloor]; simp
  · have hneg : a / b < 0 := not_le.mp h
    have hgt : -1 < a / b := by
      rw [lt_div_iff₀ hb]; simpa using h1
    have hceil : ⌈a / b⌉ = 0 := by
      rw [Int.ceil_eq_iff]
      constructor
      · simpa using hgt
      · simpa using le_of_lt hneg
    rw [if_neg h, hceil]; simp

/-- C16 (as the code behaves): every child of a node with starting angle `s` and angle
`a` receives the starting angle `(s + 180 + a) % 360`, which differs from `s + 180 + a`
by a multiple of `360` and equals it when `-360 < s + 180 + a < 360`. -/
theorem render_child_startingAngle [FloorRing α] (M : JSMath α) (w : World α) (P : Nat) :
    (Node.render M w P).map (fun props => props.startingAngle)
      = List.replicate (Node.render M w P).length
          (some (jsRem ((w P).props.startingAngle.getD 0 + 180 + (w P).props.angle) 360))
    ∧ (∃ z : ℤ, jsRem ((w P).props.startingAngle.getD 0 + 180 + (w P).props.angle) 360
        = (w P).props.startingAngle.getD 0 + 180 + (w P).props.angle - 360 * (z : α))
    ∧ (-360 < (w P).props.startingAngle.getD 0 + 180 + (w P).props.angle
        ∧ (w P).props.startingAngle.getD 0 + 180 + (w P).props.angle < 360 →
        (Node.render M w P).map (fun props => props.startingAngle)
          = List.replicate (Node.render M w P).length
              (some ((w P).props.startingAngle.getD 0 + 180 + (w P).props.angle))) := by
  have hmap : (Node.render M w P).map (fun props => props.startingAngle)
      = List.replicate (Node.render M w P).length
          (some (jsRem ((w P).props.startingAngle.getD 0 + 180 + (w P).props.angle) 360)) := by
    rw [List.eq_replicate_iff]
    constructor
    · simp
    · intro b hb
      obtain ⟨props, hprops, hp⟩ := List.mem_map.mp hb
      by_cases hactive : (w P).state.active = true
      · rw [Node.render_active M w P hactive] at hprops
        obtain ⟨e, _, he⟩ := List.mem_map.mp hprops
        rw [← hp, ← he]
      · simp [Node.render, hactive] at hprops
  refine ⟨hmap, jsRem_eq_sub _ _, ?_⟩
  rintro ⟨h1, h2⟩
  rw [hmap, jsRem_eq_self _ 360 (by norm_num) h1 h2]

/-- Witness of C16 (as amended): the children of the top-level node of scenario B
(`s = 0`, `a = 0`) receive the starting angle `180`. -/
theorem render_child_startingAngle_witness :
    (worldB1 0).props.startingAngle = some 0 ∧ (worldB1 0).props.angle = 0
    ∧ (Node.render qMath worldB1 0).length = 3
    ∧ (Node.render qMath worldB1 0).map (fun props => props.startingAngle)
        = [some 180, some 180, some 180] := by
  have hs : (worldB1 0).props.startingAngle = some 0 := by decide!
  have ha : (worldB1 0).props.angle = 0 := by decide!
  have hlen : (Node.render qMath worldB1 0).length = 3 := by decide!
  have h := (render_child_startingAngle qMath worldB1 0).2.2
  rw [hs, ha, hlen] at h
  exact ⟨hs, ha, hlen, (h (by norm_num)).trans (by decide!)⟩

/-- Counterexample to C16 as stated: the node at position 1 of scenario B has the
starting angle `s = 180` and the angle `a = 90`; its five children receive the starting
angle `90`, not `s + 180 + a = 450`. -/
theorem render_child_startingAngle_wraps :
    (worldB2 1).props.startingAngle = some 180 ∧ (worldB2 1).props.angle = 90
    ∧ (Node.render qMath worldB2 1).map (fun props => props.startingAngle)
        = [some 90, some 90, some 90, some 90, some 90]
    ∧ (worldB3 2).props.startingAngle = some 90
    ∧ (worldB3 2).props.startingAngle ≠ some (180 + 180 + 90) := by
  decide!

end Angular

/-! ## Boundary calculator -/

section Boundaries

variable {α : Type} [LinearOrderedField α]

/-- C17: for a node with effective angle `a = startingAngle + angle` and wedge width
`d = angleDifference`, and a probe length `L ≥ 0`, `getNodeBoundaries(L)` returns two
segments that both start at `-getOffset()`; the direction vector of the first is
`L*(cos(a + d/2), sin(a + d/2))` and of the second `L*(cos(a - d/2), sin(a - d/2))`,
the angles being converted from degrees by the factor `0.0174533`. When `Math.cos` and
`Math.sin` satisfy `cos² + sin² = 1` and `Math.sqrt` inverts squaring on non-negative
numbers, each segment has Euclidean length `L`. -/
theorem getNodeBoundaries_spec (M : JSMath α) (w : World α) (self : Nat) (L : α)
    (hL : 0 ≤ L)
    (hpyth : ∀ x : α, M.cos x ^ 2 + M.sin x ^ 2 = 1)
    (hsqrt : ∀ y : α, 0 ≤ y → M.sqrt (y ^ 2) = y) :
    (getNodeBoundaries M w self L).1.point1 = Point.negative (getOffset M w self)
    ∧ (getNodeBoundaries M w self L).2.point1 = Point.negative (getOffset M w self)
    ∧ Point.subtract (getNodeBoundaries M w self L).1.point2
          (getNodeBoundaries M w self L).1.point1
        = { x := L * M.cos (((w self).props.startingAngle.getD 0 + (w self).props.angle
                  + (w self).props.angleDifference / 2) * 0.0174533)
            y := L * M.sin (((w self).props.startingAngle.getD 0 + (w self).props.angle
                  + (w self).props.angleDifference / 2) * 0.0174533) }
    ∧ Point.subtract (getNodeBoundaries M w self L).2.point2
          (getNodeBoundaries M w self L).2.point1
        = { x := L * M.cos (((w self).props.startingAngle.getD 0 + (w self).props.angle
                  - (w self).props.angleDifference / 2) * 0.0174533)
            y := L * M.sin (((w self).props.startingAngle.getD 0 + (w self).props.angle
                  - (w self).props.angleDifference / 2) * 0.0174533) }
    ∧ magnitude M (Point.subtract (getNodeBoundaries M w self L).1.point2
          (getNodeBoundaries M w self L).1.point1) = L
    ∧ magnitude M (Point.subtract (getNodeBoundaries M w self L).2.point2
          (getNodeBoundaries M w self L).2.point1) = L := by
  have hlen : ∀ x : α, M.sqrt ((L * M.cos x) ^ 2 + (L * M.sin x) ^ 2) = L := by
    intro x
    have h : (L * M.cos x) ^ 2 + (L * M.sin x) ^ 2 = L ^ 2 := by
      have := hpyth x
      calc (L * M.cos x) ^ 2 + (L * M.sin x) ^ 2
          = L ^ 2 * (M.cos x ^ 2 + M.sin x ^ 2) := by ring
        _ = L ^ 2 := by rw [this, mul_one]
    rw [h, hsqrt L hL]
  have hd1 : Point.subtract (getNodeBoundaries M w self L).1.point2
          (getNodeBoundaries M w self L).1.point1
        = { x := L * M.cos (((w self).props.startingAngle.getD 0 + (w self).props.angle
                  + (w self).props.angleDifference / 2) * 0.0174533)
            y := L * M.sin (((w self).props.startingAngle.getD 0 + (w self).props.angle
                  + (w self).props.angleDifference / 2) * 0.0174533) } := by
    simp only [getNodeBoundaries, Point.lineTo, Point.subtract, Point.negative, Coords.mk.injEq]
    constructor <;> ring
  have hd2 : Point.subtract (getNodeBoundaries M w self L).2.point2
          (getNodeBoundaries M w self L).2.point1
        = { x := L * M.cos (((w self).props.startingAngle.getD 0 + (w self).props.angle
                  - (w self).props.angleDifference / 2) * 0.0174533)
            y := L * M.sin (((w self).props.startingAngle.getD 0 + (w self).props.angle
                  - (w self).props.angleDifference / 2) * 0.0174533) } := by
    simp only [getNodeBoundaries, Point.lineTo, Point.subtract, Point.negative, Coords.mk.injEq]
    constructor <;> ring
  refine ⟨rfl, rfl, hd1, hd2, ?_, ?_⟩
  · rw [hd1]; exact hlen _
  · rw [hd2]; exact hlen _

/-- Witness of C17: over the real numbers, with the real cosine, sine and square root,
the boundary rays of length `10` of the second top-level node of `treeTwo`. -/
theorem getNodeBoundaries_spec_witness :
    ∃ M : JSMath ℝ,
      (∀ x : ℝ, M.cos x ^ 2 + M.sin x ^ 2 = 1)
      ∧ (∀ y : ℝ, 0 ≤ y → M.sqrt (y ^ 2) = y)
      ∧ (getNodeBoundaries M (mountTopLevel treeTwo) 1 10).1.point1
          = Point.negative (getOffset M (mountTopLevel treeTwo) 1)
      ∧ magnitude M (Point.subtract (getNodeBoundaries M (mountTopLevel treeTwo) 1 10).1.point2
          (getNodeBoundaries M (mountTopLevel treeTwo) 1 10).1.point1) = 10
      ∧ magnitude M (Point.subtract (getNodeBoundaries M (mountTopLevel treeTwo) 1 10).2.point2
          (getNodeBoundaries M (mountTopLevel treeTwo) 1 10).2.point1) = 10 := by
  have hp : ∀ x : ℝ, Real.cos x ^ 2 + Real.sin x ^ 2 = 1 := Real.cos_sq_add_sin_sq
  have hs : ∀ y : ℝ, 0 ≤ y → Real.sqrt (y ^ 2) = y := fun y hy => Real.sqrt_sq hy
  obtain ⟨h1, _, _, _, h5, h6⟩ :=
    getNodeBoundaries_spec
      { cos := Real.cos, sin := Real.sin, acos := Real.arccos, sqrt := Real.sqrt, PI := Real.pi }
      (mountTopLevel treeTwo) 1 10 (by norm_num) hp hs
  exact ⟨_, hp, hs, h1, h5, h6⟩

end Boundaries

/-! ## Collision detector: purity -/

section Purity

variable {α : Type} [LinearOrderedField α]

/-- C20: on a snapshot in which the objects of the props `absolutePosition` of the node
and of its ancestors are in the store, `getCollisions` run as a program over the store
returns the records of the pure definition, and a second call on the snapshot left by
the first returns the same list. The call changes no props and no state of any instance
(active flag, ledger, cleanup actions), and no object that existed before the call, in
particular none of the `absolutePosition` objects: the in-place methods only touch
objects created during the call. -/
theorem getCollisions_pure (M : JSMath α) (s : Snapshot α) (self : Nat)
    (hc : s.Consistent self) :
    (Heap.getCollisions M s self).1 = getCollisions M s.world self
    ∧ (Heap.getCollisions M (Heap.getCollisions M s self).2 self).1
        = (Heap.getCollisions M s self).1
    ∧ (Heap.getCollisions M s self).2.world = s.world
    ∧ (Heap.getCollisions M s self).2.absolutePositionRef = s.absolutePositionRef
    ∧ (∀ a : Nat, a < s.store.next →
        (Heap.getCollisions M s self).2.store.cell a = s.store.cell a)
    ∧ ∀ p ∈ self :: (s.world self).props.ancestors,
        (Heap.getCollisions M s self).2.store.cell (s.absolutePositionRef p)
          = (s.world p).props.absolutePosition := by
  obtain ⟨hframe, hrecords⟩ := Heap.getCollisions.prog_holds M s self hc
  have hc2 : (Heap.getCollisions M s self).2.Consistent self :=
    fun p hp => (hc p hp).frame hframe
  obtain ⟨_, hrecords2⟩ :=
    Heap.getCollisions.prog_holds M (Heap.getCollisions M s self).2 self hc2
  refine ⟨hrecords, hrecords2.trans hrecords.symm, rfl, rfl, hframe.2, ?_⟩
  intro p hp
  exact ((hc p hp).frame hframe).2

/-- Witness of C20: the grandchild of scenario B, whose two records both intersect. -/
theorem getCollisions_pure_witness :
    snapshotB.Consistent 2
    ∧ (Heap.getCollisions qMath snapshotB 2).1 = [recordB0, recordB1]
    ∧ (Heap.getCollisions qMath (Heap.getCollisions qMath snapshotB 2).2 2).1
        = [recordB0, recordB1]
    ∧ (Heap.getCollisions qMath snapshotB 2).2.store.cell 2 = snapshotB.store.cell 2 := by
  have hanc : (snapshotB.world 2).props.ancestors = [0, 1] := by decide!
  have hc : snapshotB.Consistent 2 := by
    intro p hp
    rw [hanc] at hp
    simp only [List.mem_cons, List.mem_singleton, List.not_mem_nil, or_false] at hp
    rcases hp with rfl | rfl | rfl
    · exact ⟨by decide, rfl⟩
    · exact ⟨by decide, rfl⟩
    · exact ⟨by decide, rfl⟩
  obtain ⟨h1, h2, _, _, h5, _⟩ := getCollisions_pure qMath snapshotB 2 hc
  have hB : getCollisions qMath worldB4 2 = [recordB0, recordB1] := by decide!
  exact ⟨hc, h1.trans hB, h2.trans (h1.trans hB), h5 2 (by decide)⟩

end Purity

/-! ## Collision detector: the connecting segment and the translated rays -/

section RecordGeometry

variable {α : Type} [LinearOrderedField α]

/-- The three moves that `getCollisions` applies to a boundary ray of the ancestor
amount to one move by the end point of the record. -/
theorem record_moves_eq (M : JSMath α) (w : World α) (N A : Nat) (l : Line α) :
    ((l.move (Point.negative (getOffset M w N))).move
        (Point.negative
          (Point.subtract (w N).props.absolutePosition (w A).props.absolutePosition))).move
        (getOffset M w A)
      = l.move (getCollisions.record M w N A).endPoint := by
  simp only [Line.move, Point.move, Point.negative, Point.subtract, getCollisions.record,
    Line.mk.injEq, Coords.mk.injEq]
  refine ⟨⟨?_, ?_⟩, ⟨?_, ?_⟩⟩ <;> ring

/-- C21: for every record that `getCollisions` returns for node `N`, for the ancestor
`A` of the record, the connecting segment runs from the local origin `(0, 0)` of `N`
to the end point of the record, which is
`(A.absolutePosition + A.getOffset()) - (N.absolutePosition + N.getOffset())`, the
absolute position of `A` minus the absolute position of `N`. -/
theorem record_connecting_segment (M : JSMath α) (w : World α) (N : Nat) (c : Collision α)
    (hc : c ∈ getCollisions M w N) :
    c.ancestor ∈ (w N).props.ancestors
    ∧ c.line.point1 = { x := 0, y := 0 }
    ∧ c.line.point2 = c.endPoint
    ∧ c.intersectionData.line = c.line
    ∧ c.endPoint
        = Point.subtract
            (Point.move (w c.ancestor).props.absolutePosition (getOffset M w c.ancestor))
            (Point.move (w N).props.absolutePosition (getOffset M w N))
    ∧ c.endPoint = Point.subtract (Spec.absolute M w c.ancestor) (Spec.absolute M w N) := by
  obtain ⟨a, ha, hrec⟩ := (mem_getCollisions M w N c).mp hc
  subst hrec
  have hend : (getCollisions.record M w N a).endPoint
      = Point.subtract
          (Point.move (w a).props.absolutePosition (getOffset M w a))
          (Point.move (w N).props.absolutePosition (getOffset M w N)) := by
    simp only [getCollisions.record, Point.subtract, Point.move, Coords.mk.injEq]
    constructor <;> ring
  exact ⟨ha, rfl, rfl, rfl, hend, hend⟩

/-- Witness of C21: the record of the grandchild of scenario B for its parent. -/
theorem record_connecting_segment_witness :
    recordB1 ∈ getCollisions qMath worldB4 2
    ∧ recordB1.ancestor = 1
    ∧ recordB1.line.point1 = pt 0 0
    ∧ recordB1.line.point2 = recordB1.endPoint
    ∧ recordB1.endPoint = Point.subtract (Spec.absolute qMath worldB4 1)
        (Spec.absolute qMath worldB4 2) := by
  have hc : recordB1 ∈ getCollisions qMath worldB4 2 :=
    (mem_getCollisions qMath worldB4 2 recordB1).mpr ⟨1, by decide!, rfl⟩
  obtain ⟨_, h2, h3, _, _, h6⟩ := record_connecting_segment qMath worldB4 2 recordB1 hc
  exact ⟨hc, rfl, h2, h3, h6⟩

/-- C22: for every record that `getCollisions` returns for node `N`, with ancestor `A`,
the two rays tested against the connecting segment are the boundary rays of `A`
(`getNodeBoundaries()` with its default length `10`) moved by the end point of the
record, the absolute position of `A` minus the absolute position of `N`; the move
leaves the direction vector of each ray, and so its length, unchanged. -/
theorem record_rays_translated (M : JSMath α) (w : World α) (N : Nat) (c : Collision α)
    (hc : c ∈ getCollisions M w N) :
    c.clockwise
        = intersect c.line ((getNodeBoundaries M w c.ancestor 10).1.move c.endPoint)
    ∧ c.anticlockwise
        = intersect c.line ((getNodeBoundaries M w c.ancestor 10).2.move c.endPoint)
    ∧ c.intersectionData.clockwise
        = jsAnd c.clockwise ((getNodeBoundaries M w c.ancestor 10).1.move c.endPoint)
    ∧ c.intersectionData.anticlockwise
        = jsAnd c.anticlockwise ((getNodeBoundaries M w c.ancestor 10).2.move c.endPoint)
    ∧ c.endPoint = Point.subtract (Spec.absolute M w c.ancestor) (Spec.absolute M w N)
    ∧ Line.direction ((getNodeBoundaries M w c.ancestor 10).1.move c.endPoint)
        = Line.direction (getNodeBoundaries M w c.ancestor 10).1
    ∧ Line.direction ((getNodeBoundaries M w c.ancestor 10).2.move c.endPoint)
        = Line.direction (getNodeBoundaries M w c.ancestor 10).2
    ∧ magnitude M (Line.direction ((getNodeBoundaries M w c.ancestor 10).1.move c.endPoint))
        = magnitude M (Line.direction (getNodeBoundaries M w c.ancestor 10).1)
    ∧ magnitude M (Line.direction ((getNodeBoundaries M w c.ancestor 10).2.move c.endPoint))
        = magnitude M (Line.direction (getNodeBoundaries M w c.ancestor 10).2) := by
  obtain ⟨a, _, hrec⟩ := (mem_getCollisions M w N c).mp hc
  subst hrec
  have hdir : ∀ (l : Line α) (o : Coords α), Line.direction (l.move o) = Line.direction l := by
    intro l o
    simp only [Line.direction, Line.move, Point.move, Point.subtract, Coords.mk.injEq]
    constructor <;> ring
  have hend : (getCollisions.record M w N a).endPoint
      = Point.subtract (Spec.absolute M w a) (Spec.absolute M w N) := by
    simp only [getCollisions.record, Spec.absolute, Point.subtract, Point.move,
      Coords.mk.injEq]
    constructor <;> ring
  have h1 := record_moves_eq M w N a (getNodeBoundaries M w a 10).1
  have h2 := record_moves_eq M w N a (getNodeBoundaries M w a 10).2
  refine ⟨?_, ?_, ?_, ?_, hend, hdir _ _, hdir _ _, ?_, ?_⟩
  · exact congrArg (intersect (getCollisions.record M w N a).line) h1
  · exact congrArg (intersect (getCollisions.record M w N a).line) h2
  · exact congrArg (jsAnd (getCollisions.record M w N a).clockwise) h1
  · exact congrArg (jsAnd (getCollisions.record M w N a).anticlockwise) h2
  · rw [hdir]
  · rw [hdir]

/-- Witness of C22: the record of the grandchild of scenario B for its parent, whose
anticlockwise ray intersects. -/
theorem record_rays_translated_witness :
    recordB1 ∈ getCollisions qMath worldB4 2
    ∧ recordB1.anticlockwise.isSome = true
    ∧ recordB1.intersectionData.anticlockwise
        = some ((getNodeBoundaries qMath worldB4 1 10).2.move recordB1.endPoint)
    ∧ Line.direction ((getNodeBoundaries qMath worldB4 1 10).2.move recordB1.endPoint)
        = Line.direction (getNodeBoundaries qMath worldB4 1 10).2 := by
  have hc : recordB1 ∈ getCollisions qMath worldB4 2 :=
    (mem_getCollisions qMath worldB4 2 recordB1).mpr ⟨1, by decide!, rfl⟩
  obtain ⟨_, _, _, h4, _, _, h7, _, _⟩ := record_rays_translated qMath worldB4 2 recordB1 hc
  have hsome : recordB1.anticlockwise.isSome = true := by decide!
  refine ⟨hc, hsome, ?_, h7⟩
  rw [h4]
  cases h : recordB1.anticlockwise with
  | none => rw [h] at hsome; cases hsome
  | some p => rfl

end RecordGeometry

/-! ## Absolute positions -/

section AbsolutePositions

variable {α : Type} [LinearOrderedField α]

/-- C23: for every chain of rendered nodes `n_1` (a top-level node), ..., `n_m`, each
the child of the one before, the prop `absolutePosition` of `n_m` is the vector sum of
`getOffset(n_j)` over `j < m`, and the absolute position of `n_m`
(`absolutePosition + getOffset(n_m)`) is the vector sum of `getOffset` along the whole
chain. The chain is listed from `n_m` back to `n_1`. -/
theorem absolutePosition_offset_sum [FloorRing α] (M : JSMath α) (tree : NodeType α)
    (w : World α) (q : Nat) (rest : List Nat)
    (hchain : RenderedChain M tree w (q :: rest)) :
    (w q).props.absolutePosition = Spec.offsetSum M w rest
    ∧ Spec.absolute M w q = Spec.offsetSum M w (q :: rest) := by
  have habs : (w q).props.absolutePosition = Spec.offsetSum M w rest := by
    induction rest generalizing q with
    | nil =>
      have hmem : (w q).props ∈ SnowflakeNavigation.render tree := hchain
      unfold SnowflakeNavigation.render at hmem
      obtain ⟨e, _, he⟩ := List.mem_map.mp hmem
      rw [← he]; rfl
    | cons p rest ih =>
      obtain ⟨hmem, hrest⟩ := hchain
      have hp := ih p hrest
      by_cases hactive : (w p).state.active = true
      · rw [Node.render_active M w p hactive] at hmem
        obtain ⟨e, _, he⟩ := List.mem_map.mp hmem
        rw [← he]
        show Point.move (w p).props.absolutePosition (getOffset M w p) = _
        rw [hp]; rfl
      · simp [Node.render, hactive] at hmem
  exact ⟨habs, by simp only [Spec.absolute, Spec.offsetSum, habs]⟩

/-- Witness of C23: the chain of scenario B, from the grandchild at position 2 back to
the top-level node at position 0. -/
theorem absolutePosition_offset_sum_witness :
    RenderedChain qMath tree35 worldB4 [2, 1, 0]
    ∧ (worldB4 2).props.absolutePosition
        = Point.move (Point.move (pt 0 0) (getOffset qMath worldB4 0)) (getOffset qMath worldB4 1)
    ∧ Spec.absolute qMath worldB4 2 = Spec.offsetSum qMath worldB4 [2, 1, 0] := by
  have h2 : (worldB4 2).props ∈ Node.render qMath worldB4 1 :=
    List.getElem?_mem (n := 0) (by rfl)
  have h1 : (worldB4 1).props ∈ Node.render qMath worldB4 0 :=
    List.getElem?_mem (n := 0) (by rfl)
  have h0 : (worldB4 0).props ∈ SnowflakeNavigation.render tree35 :=
    List.getElem?_mem (n := 0) (by rfl)
  have hchain : RenderedChain qMath tree35 worldB4 [2, 1, 0] := ⟨h2, h1, h0⟩
  obtain ⟨ha, hb⟩ := absolutePosition_offset_sum qMath tree35 worldB4 2 [1, 0] hchain
  exact ⟨hchain, ha, hb⟩

/-- C24: for an active node with a parent, with a non-negative active radius and a
non-negative radius of the parent, and with any ledger, the Euclidean distance of
`getOffset()` from the origin is the total distance `dist`, which is at least
`activeRadius + parent.getRadius() + minLineDistance`, whatever the angle; here
`Math.cos` and `Math.sin` satisfy `cos² + sin² = 1` and `Math.sqrt` inverts squaring on
non-negative numbers. -/
theorem active_offset_distance (M : JSMath α) (w : World α) (self : Nat) (parent : ParentRef)
    (hparent : (w self).props.parent = some parent)
    (hactive : (w self).state.active = true)
    (hradius : 0 ≤ (w self).props.node.activeRadius)
    (hparentRadius : 0 ≤ parent.getRadius w)
    (hpyth : ∀ x : α, M.cos x ^ 2 + M.sin x ^ 2 = 1)
    (hsqrt : ∀ y : α, 0 ≤ y → M.sqrt (y ^ 2) = y) :
    magnitude M (getOffset M w self) = getOffset.dist w self parent
    ∧ (w self).props.node.activeRadius + parent.getRadius w + minLineDistance
        ≤ magnitude M (getOffset M w self) := by
  have hmin : minLineDistance ≤ getOffset.offsetDistance w self :=
    (mathMax_isGreatest _ _).2 (Or.inl rfl)
  have hdist : getOffset.dist w self parent
      = (w self).props.node.activeRadius + parent.getRadius w
        + getOffset.offsetDistance w self := by
    simp [getOffset.dist, hactive, getRadius_active w self hactive]
  have hmin0 : (0 : α) ≤ minLineDistance := by
    simp only [minLineDistance]; norm_num
  have hnonneg : 0 ≤ getOffset.dist w self parent := by
    rw [hdist]
    exact add_nonneg (add_nonneg hradius hparentRadius) (le_trans hmin0 hmin)
  have hmag : magnitude M (getOffset M w self) = getOffset.dist w self parent := by
    simp only [magnitude, getOffset, hparent]
    have h : ∀ (x D : α), (M.cos x * D) ^ 2 + (M.sin x * D) ^ 2 = D ^ 2 := by
      intro x D
      calc (M.cos x * D) ^ 2 + (M.sin x * D) ^ 2
          = (M.cos x ^ 2 + M.sin x ^ 2) * D ^ 2 := by ring
        _ = D ^ 2 := by rw [hpyth x, one_mul]
    rw [h, hsqrt _ hnonneg]
  refine ⟨hmag, ?_⟩
  rw [hmag, hdist]
  exact add_le_add_left hmin _

/-- Witness of C24: over the real numbers, with the real cosine, sine and square root,
the second top-level node of `treeTwo` after its activation lies at distance at least
`80 + 80 + 120` from the root. -/
theorem active_offset_distance_witness :
    ∃ M : JSMath ℝ,
      (∀ x : ℝ, M.cos x ^ 2 + M.sin x ^ 2 = 1)
      ∧ (∀ y : ℝ, 0 ≤ y → M.sqrt (y ^ 2) = y)
      ∧ (toggleActive (mountTopLevel (treeTwo : NodeType ℝ)) 1 none 1).state.active = true
      ∧ (80 : ℝ) + 80 + 120
          ≤ magnitude M (getOffset M (toggleActive (mountTopLevel treeTwo) 1 none) 1) := by
  have hp : ∀ x : ℝ, Real.cos x ^ 2 + Real.sin x ^ 2 = 1 := Real.cos_sq_add_sin_sq
  have hs : ∀ y : ℝ, 0 ≤ y → Real.sqrt (y ^ 2) = y := fun y hy => Real.sqrt_sq hy
  have hact : (toggleActive (mountTopLevel (treeTwo : NodeType ℝ)) 1 none 1).state.active
      = true := rfl
  have hrad : (toggleActive (mountTopLevel (treeTwo : NodeType ℝ)) 1 none 1).props.node.activeRadius
      = 80 := rfl
  obtain ⟨_, h2⟩ :=
    active_offset_distance
      { cos := Real.cos, sin := Real.sin, acos := Real.arccos, sqrt := Real.sqrt, PI := Real.pi }
      (toggleActive (mountTopLevel treeTwo) 1 none) 1 ParentRef.root rfl hact
      (by rw [hrad]; norm_num)
      (by simp only [ParentRef.getRadius, activeRadius]; norm_num) hp hs
  rw [hrad] at h2
  exact ⟨_, hp, hs, hact, by simpa [ParentRef.getRadius, activeRadius, minLineDistance] using h2⟩

end AbsolutePositions

/-! ## Recomputation trigger and ledger provenance -/

section Trigger

variable {α : Type} [LinearOrderedField α]

/-- C25: on an update of a node from `(oldProps, oldState)` to its props and state in
`w`, `componentDidUpdate` does what its branch says: in the branch `cleanup` it runs the
registered cleanup actions, in the branch `collisionChecks` it runs the collision
checks, otherwise nothing. The branch is `cleanup` exactly when the node went from
active to inactive; otherwise it is `collisionChecks` exactly when the ledger changed
(some key has a different value or presence), or `absolutePosition` changed, or the node
went from inactive to active. The ledgers are objects, so no key is repeated. -/
theorem componentDidUpdate_trigger (M : JSMath α) (w : World α) (self : Nat)
    (oldProps : NodeProps α) (oldState : NodeState α)
    (hold : (oldState.distanceIncreases.map Prod.fst).Nodup)
    (hnew : ((w self).state.distanceIncreases.map Prod.fst).Nodup) :
    componentDidUpdate M w self oldProps oldState
      = (match componentDidUpdate.branch w self oldProps oldState with
        | UpdateBranch.cleanup => some (runDeactivateActions w (w self).state.deactivateActions)
        | UpdateBranch.collisionChecks => runCollisionChecks M w self
        | UpdateBranch.nothing => some w)
    ∧ (componentDidUpdate.branch w self oldProps oldState = UpdateBranch.cleanup
        ↔ (oldState.active = true ∧ (w self).state.active = false))
    ∧ (componentDidUpdate.branch w self oldProps oldState = UpdateBranch.collisionChecks
        ↔ (¬ (oldState.active = true ∧ (w self).state.active = false)
          ∧ ((∃ k : String, Obj.get? oldState.distanceIncreases k
                ≠ Obj.get? (w self).state.distanceIncreases k)
            ∨ oldProps.absolutePosition ≠ (w self).props.absolutePosition
            ∨ (oldState.active = false ∧ (w self).state.active = true)))) := by
  have hsame : Obj.sameEntries oldState.distanceIncreases (w self).state.distanceIncreases = true
      ↔ ∀ k, Obj.get? oldState.distanceIncreases k
          = Obj.get? (w self).state.distanceIncreases k :=
    ⟨fun h k => Obj.get?_eq_of_sameEntries _ _ h k,
      fun h => Obj.sameEntries_of_get?_eq _ _ hold hnew h⟩
  have hchanged : (∃ k : String, Obj.get? oldState.distanceIncreases k
        ≠ Obj.get? (w self).state.distanceIncreases k)
      ↔ Obj.sameEntries oldState.distanceIncreases (w self).state.distanceIncreases = false := by
    rw [← Bool.not_eq_true, hsame]
    push_neg
    rfl
  rw [hchanged]
  refine ⟨?_, ?_, ?_⟩
  · unfold componentDidUpdate componentDidUpdate.branch
    by_cases h1 : (oldState.active && !(w self).state.active) = true
    · rw [if_pos h1, if_pos h1]
    · rw [if_neg h1, if_neg h1]
      by_cases h2 : (!(Obj.sameEntries oldState.distanceIncreases (w self).state.distanceIncreases)
          || decide (oldProps.absolutePosition ≠ (w self).props.absolutePosition)
          || (!oldState.active && (w self).state.active)) = true
      · rw [if_pos h2, if_pos h2]
      · rw [if_neg h2, if_neg h2]
  · unfold componentDidUpdate.branch
    cases oldState.active <;> cases (w self).state.active <;>
      cases Obj.sameEntries oldState.distanceIncreases (w self).state.distanceIncreases <;>
      by_cases h3 : oldProps.absolutePosition = (w self).props.absolutePosition <;>
      simp [h3]
  · unfold componentDidUpdate.branch
    cases oldState.active <;> cases (w self).state.active <;>
      cases Obj.sameEntries oldState.distanceIncreases (w self).state.distanceIncreases <;>
      by_cases h3 : oldProps.absolutePosition = (w self).props.absolutePosition <;>
      simp [h3]

/-- Witness of C25: in scenario A the activation of the child at position 1 takes the
branch of the collision checks, and its deactivation takes the branch of the cleanup
actions. -/
theorem componentDidUpdate_trigger_witness :
    (componentDidUpdate.branch worldA3 1 (worldA2 1).props (worldA2 1).state
        = UpdateBranch.collisionChecks
      ∧ componentDidUpdate qMath worldA3 1 (worldA2 1).props (worldA2 1).state
        = runCollisionChecks qMath worldA3 1)
    ∧ (componentDidUpdate.branch (toggleActive worldA3 1 none) 1 (worldA3 1).props
          (worldA3 1).state = UpdateBranch.cleanup
      ∧ componentDidUpdate qMath (toggleActive worldA3 1 none) 1 (worldA3 1).props
          (worldA3 1).state
        = some (runDeactivateActions (toggleActive worldA3 1 none)
            (toggleActive worldA3 1 none 1).state.deactivateActions)) := by
  have hb1 : componentDidUpdate.branch worldA3 1 (worldA2 1).props (worldA2 1).state
      = UpdateBranch.collisionChecks := by decide!
  have hb2 : componentDidUpdate.branch (toggleActive worldA3 1 none) 1 (worldA3 1).props
      (worldA3 1).state = UpdateBranch.cleanup := by decide!
  have h1 := (componentDidUpdate_trigger qMath worldA3 1 (worldA2 1).props (worldA2 1).state
    (by decide!) (by decide!)).1
  have h2 := (componentDidUpdate_trigger qMath (toggleActive worldA3 1 none) 1
    (worldA3 1).props (worldA3 1).state (by decide!) (by decide!)).1
  rw [hb1] at h1
  rw [hb2] at h2
  exact ⟨⟨hb1, h1⟩, hb2, h2⟩

/-- C26, as the code behaves: in scenario H (clicks on `t0`, `n0`, `g0`) the ledger of
`t0` holds the entries `n0_t0` and `g0_t0`, written by `updatePosition`, the cleanup
action of each is registered at its node, and the collision checks of the two nodes find
nothing more. The second click on `n0` deactivates it: its child `g0` is unmounted and
`componentDidUpdate` takes the cleanup branch, so `clearDistance` is called on `t0` for
`g0_t0` and then for `n0_t0`. Both calls start from the same `this.state`, and the
second queued ledger, which still holds `g0_t0`, replaces the first: after the commit
the key `g0_t0` is present in the ledger of `t0` although it was cleared after it was
written. Were the two calls made in the other order, `n0_t0` would stay. -/
theorem cleanup_commit_keeps_cleared_key :
    (worldH7 0).state.distanceIncreases.map Prod.fst = ["n0_t0", "g0_t0"]
    ∧ (worldH7 1).state.deactivateActions = [("n0_t0", { target := 0, id := "n0_t0" })]
    ∧ (worldH7 2).state.deactivateActions = [("g0_t0", { target := 0, id := "g0_t0" })]
    ∧ runCollisionChecks.lastCollision (getCollisions qMath worldH7 1) = none
    ∧ runCollisionChecks.lastCollision (getCollisions qMath worldH7 2) = none
    ∧ componentDidUpdate.branch worldH8 1 (worldH7 1).props (worldH7 1).state
        = UpdateBranch.cleanup
    ∧ (Node.render qMath worldH8 1).length = 0
    ∧ (commitDeactivation.queue worldH8 1 [2]).map
          (fun u => (u.target, u.distanceIncreases.map Prod.fst))
        = [(0, ["n0_t0"]), (0, ["g0_t0"])]
    ∧ (commitDeactivation worldH8 1 [2] 0).state.distanceIncreases.map Prod.fst = ["g0_t0"]
    ∧ (Obj.get? (commitDeactivation worldH8 1 [2] 0).state.distanceIncreases "g0_t0").isSome
        = true
    ∧ (flushQueue worldH8 (commitDeactivation.queue worldH8 1 [2]).reverse
          0).state.distanceIncreases.map Prod.fst = ["n0_t0"] := by
  refine ⟨?_, ?_, ?_, ?_, ?_, ?_, ?_, ?_, ?_, ?_, ?_⟩ <;> decide!

end Trigger

/-! ## Geometry kernel: what `intersect` tests of its arguments -/

section IntersectExtent

variable {α : Type} [LinearOrderedField α]

/-- C27: `intersect` does not test the extent of its second argument. The segments
`a = (0,0)-(10,0)` and `b = (5,1)-(5,2)` have no point in common (no point of parameter
`s` in `[0, 1]` of `a` is a point of parameter `t` in `[0, 1]` of `b`), yet
`intersect a b` returns the point `(5, 0)`, which is not on the segment `b`. -/
theorem intersect_ignores_extent_of_second :
    intersect (seg 0 0 10 0) (seg 5 1 5 2) = some (pt 5 0)
    ∧ (∀ s t : ℚ, 0 ≤ s → s ≤ 1 → 0 ≤ t → t ≤ 1 →
        (seg 0 0 10 0).pointAt s ≠ (seg 5 1 5 2).pointAt t)
    ∧ (∀ t : ℚ, 0 ≤ t → t ≤ 1 → (seg 5 1 5 2).pointAt t ≠ pt 5 0) := by
  refine ⟨by decide!, ?_, ?_⟩
  · intro s t _ _ ht0 _ h
    have hy := congrArg Coords.y h
    simp only [Line.pointAt, seg, pt] at hy
    linarith
  · intro t ht0 _ h
    have hy := congrArg Coords.y h
    simp only [Line.pointAt, seg, pt] at hy
    linarith

/-- C28: whenever `intersect a b` returns a point `P`, there is a parameter `t` with
`0.001 ≤ t ≤ 0.999` such that `P = a.p1 + t * (a.p2 - a.p1)` (the point lies on the
segment `a`), and the cross product of `P - b.p1` with `b.p2 - b.p1` is `0` (the point
lies on the infinite line through `b`). -/
theorem intersect_point_on_both_lines (a b : Line α) (P : Coords α)
    (h : intersect a b = some P) :
    ∃ t : α, 0.001 ≤ t ∧ t ≤ 0.999 ∧ P = a.pointAt t
      ∧ Spec.cross (Point.subtract P b.point1) (Point.subtract b.point2 b.point1) = 0 := by
  unfold intersect at h
  split_ifs at h with h1 h2 h3
  have hP := Option.some.inj h
  subst hP
  have hd : intersect.denominator a b ≠ 0 := by
    intro h0
    apply h2
    rw [h0]
    constructor <;> norm_num
  refine ⟨intersect.ua a b, ?_, ?_, rfl, ?_⟩
  · exact not_lt.mp (fun hlt => h3 (Or.inl hlt))
  · exact not_lt.mp (fun hgt => h3 (Or.inr hgt))
  · have hd2 : (b.point2.y - b.point1.y) * (a.point2.x - a.point1.x)
        - (b.point2.x - b.point1.x) * (a.point2.y - a.point1.y) ≠ 0 := hd
    simp only [Spec.cross, Point.subtract, intersect.ua, intersect.denominator, Line.x1,
      Line.x2, Line.y1, Line.y2]
    field_simp
    ring

/-- Witness of C28: the crossing diagonals `(0,0)-(10,10)` and `(0,10)-(10,0)` give the
point `(5, 5)`, of parameter `1/2` on the first segment. -/
theorem intersect_point_on_both_lines_witness :
    intersect (seg 0 0 10 10) (seg 0 10 10 0) = some (pt 5 5)
    ∧ ∃ t : ℚ, 0.001 ≤ t ∧ t ≤ 0.999 ∧ pt 5 5 = (seg 0 0 10 10).pointAt t
      ∧ Spec.cross (Point.subtract (pt 5 5) (seg 0 10 10 0).point1)
          (Point.subtract (seg 0 10 10 0).point2 (seg 0 10 10 0).point1) = 0 :=
  ⟨by decide!, intersect_point_on_both_lines (seg 0 0 10 10) (seg 0 10 10 0) (pt 5 5)
    (by decide!)⟩

end IntersectExtent

/-! ## Collision pass of a node without ancestors -/

section NoAncestors

variable {α : Type} [LinearOrderedField α]

/-- C29: a node whose prop `ancestors` is empty gets an empty list from `getCollisions`
in every world, so `runCollisionChecks` on it returns the world unchanged: no ledger
entry is written and no cleanup action is registered. Every top-level node rendered by
`SnowflakeNavigation.render` has an empty prop `ancestors`. -/
theorem runCollisionChecks_no_ancestors (M : JSMath α) (w : World α) (self : Nat)
    (hanc : (w self).props.ancestors = []) :
    getCollisions M w self = []
    ∧ runCollisionChecks M w self = some w
    ∧ (∀ p : Nat, (w p).state.distanceIncreases
          = ((runCollisionChecks M w self).getD w p).state.distanceIncreases
        ∧ (w p).state.deactivateActions
          = ((runCollisionChecks M w self).getD w p).state.deactivateActions)
    ∧ (∀ tree : NodeType α, ∀ props ∈ SnowflakeNavigation.render tree,
        props.ancestors = []) := by
  have hcol : getCollisions M w self = [] := by
    simp [getCollisions, hanc]
  have hrun : runCollisionChecks M w self = some w := by
    simp [runCollisionChecks, hcol, runCollisionChecks.lastCollision]
  refine ⟨hcol, hrun, ?_, ?_⟩
  · intro p
    rw [hrun]
    exact ⟨rfl, rfl⟩
  · intro tree props hmem
    unfold SnowflakeNavigation.render at hmem
    simp only [List.mem_map] at hmem
    obtain ⟨e, _, he⟩ := hmem
    rw [← he]

/-- Witness of C29: in scenario D the top-level sibling at position 0 has no ancestors,
while it is inactive (after the click on its sibling) and after it is toggled active;
its collision checks leave both worlds unchanged. -/
theorem runCollisionChecks_no_ancestors_witness :
    (worldD1 0).props ∈ SnowflakeNavigation.render tree3
    ∧ (worldD1 0).state.active = false ∧ (worldD2 0).state.active = true
    ∧ (worldD1 1).state.active = true
    ∧ getCollisions qMath worldD1 0 = []
    ∧ runCollisionChecks qMath worldD1 0 = some worldD1
    ∧ getCollisions qMath worldD2 0 = []
    ∧ runCollisionChecks qMath worldD2 0 = some worldD2 := by
  have h1 := runCollisionChecks_no_ancestors qMath worldD1 0 (by decide!)
  have h2 := runCollisionChecks_no_ancestors qMath worldD2 0 (by decide!)
  exact ⟨List.getElem?_mem (n := 0) (by rfl), by decide!, by decide!, by decide!,
    h1.1, h1.2.1, h2.1, h2.2.1⟩

end NoAncestors

/-! ## Ledger writes: the last write wins -/

section LastWrite

variable {α : Type} [LinearOrderedField α]

/-- C30: a ledger write is last-write-wins. `updatePosition` on the ancestor `A` writes
`d1` for the record `c1` in the world `w`; in a later world `wL`, in which the ledger of
`A` is still the one left by that write, it writes `d2` for a record `c2` with the same
pair key. Then the ledger holds `d2` under the key (whatever `d1` was), its keys are the
keys after the first write, the values under the other keys are unchanged, and the
required separation of `A` is strictly smaller than after the first write when
`d2 < d1`, `minLineDistance < d1` and the values under the other keys are below `d1`.
The ledger is an object, so no key is repeated. -/
theorem ledger_last_write_wins (M : JSMath α) (w wL : World α) (A : Nat)
    (c1 c2 : Collision α) (r1 r2 : Line α)
    (hr1 : c1.intersectionData.clockwise = some r1
      ∨ (c1.intersectionData.clockwise = none ∧ c1.intersectionData.anticlockwise = some r1))
    (hr2 : c2.intersectionData.clockwise = some r2
      ∨ (c2.intersectionData.clockwise = none ∧ c2.intersectionData.anticlockwise = some r2))
    (hnodup : ((w A).state.distanceIncreases.map Prod.fst).Nodup)
    (hlater : (wL A).state.distanceIncreases
      = ((updatePosition M w A c1).getD w A).state.distanceIncreases)
    (hkey : updatePosition.distanceId wL c2 = updatePosition.distanceId w c1) :
    ∃ w1 w2 : World α,
      updatePosition M w A c1 = some w1 ∧ updatePosition M wL A c2 = some w2
      ∧ Obj.get? (w1 A).state.distanceIncreases (updatePosition.distanceId w c1)
          = some (updatePosition.distance M w c1 r1)
      ∧ Obj.get? (w2 A).state.distanceIncreases (updatePosition.distanceId w c1)
          = some (updatePosition.distance M wL c2 r2)
      ∧ (w2 A).state.distanceIncreases.map Prod.fst
          = (w1 A).state.distanceIncreases.map Prod.fst
      ∧ (∀ k : String, k ≠ updatePosition.distanceId w c1 →
          Obj.get? (w2 A).state.distanceIncreases k = Obj.get? (w1 A).state.distanceIncreases k)
      ∧ (updatePosition.distance M wL c2 r2 < updatePosition.distance M w c1 r1 →
          minLineDistance < updatePosition.distance M w c1 r1 →
          (∀ (k : String) (v : α), k ≠ updatePosition.distanceId w c1 →
            Obj.get? (w A).state.distanceIncreases k = some v →
            v < updatePosition.distance M w c1 r1) →
          getOffset.offsetDistance w2 A < getOffset.offsetDistance w1 A) := by
  obtain ⟨w1, hw1, hl1⟩ := updatePosition_ledger_eq M w A c1 r1 hr1
  obtain ⟨w2, hw2, hl2⟩ := updatePosition_ledger_eq M wL A c2 r2 hr2
  rw [hw1, Option.getD_some, hl1] at hlater
  rw [hlater, hkey, Obj.set_set] at hl2
  refine ⟨w1, w2, hw1, hw2, ?_, ?_, ?_, ?_, ?_⟩
  · rw [hl1, Obj.get?_set, if_pos rfl]
  · rw [hl2, Obj.get?_set, if_pos rfl]
  · rw [hl1, hl2]
    exact Obj.keys_set_congr _ _ _ _
  · intro k hk
    rw [hl1, hl2, Obj.get?_set, Obj.get?_set, if_neg hk, if_neg hk]
  · intro hlt hmin hother
    have hge : updatePosition.distance M w c1 r1 ≤ getOffset.offsetDistance w1 A := by
      obtain ⟨_, hub⟩ := mathMax_isGreatest (Obj.values (w1 A).state.distanceIncreases)
        (minLineDistance : α)
      apply hub
      right
      rw [hl1]
      exact List.mem_map.mpr ⟨_, Obj.mem_set_self _ _ _, rfl⟩
    refine lt_of_lt_of_le ?_ hge
    have hoff : getOffset.offsetDistance w2 A
        = mathMax (Obj.values (Obj.set (w A).state.distanceIncreases
            (updatePosition.distanceId w c1) (updatePosition.distance M wL c2 r2)))
          minLineDistance := by
      simp only [getOffset.offsetDistance, hl2]
    rw [hoff]
    obtain ⟨hmem, _⟩ := mathMax_isGreatest (Obj.values (Obj.set (w A).state.distanceIncreases
      (updatePosition.distanceId w c1) (updatePosition.distance M wL c2 r2)))
      (minLineDistance : α)
    rcases hmem with h | h
    · exact lt_of_eq_of_lt h hmin
    · obtain ⟨e, he, hx⟩ := List.mem_map.mp h
      rw [← hx]
      rcases Obj.mem_set_of_nodup _ _ _ e hnodup he with h1 | ⟨h1, h2⟩
      · rw [h1]; exact hlt
      · exact hother e.1 e.2 h2 (Obj.get?_of_mem_nodup _ e hnodup h1)

/-- Witness of C30: on the ancestor at position 0 the record of scenario F writes a
value above `600` under the key `n0_t0`, and the record of scenario A then writes a
value below `500` under the same key: the ledger holds the second value and the
required separation of the ancestor decreases. -/
theorem ledger_last_write_wins_witness :
    updatePosition.distanceId worldF1 recordF = "n0_t0"
    ∧ 600 < updatePosition.distance qMath worldF1 recordF rayF
    ∧ ∃ w1 w2 : World ℚ,
      updatePosition qMath worldF1 0 recordF = some w1
      ∧ updatePosition qMath w1 0 recordA = some w2
      ∧ Obj.get? (w2 0).state.distanceIncreases "n0_t0"
          = some (updatePosition.distance qMath w1 recordA rayA)
      ∧ updatePosition.distance qMath w1 recordA rayA < 500
      ∧ (w2 0).state.distanceIncreases.map Prod.fst
          = (w1 0).state.distanceIncreases.map Prod.fst
      ∧ getOffset.offsetDistance w2 0 < getOffset.offsetDistance w1 0 := by
  have hr1 : recordF.intersectionData.clockwise = none
      ∧ recordF.intersectionData.anticlockwise = some rayF := by decide!
  have hr2 : recordA.intersectionData.clockwise = none
      ∧ recordA.intersectionData.anticlockwise = some rayA := by decide!
  have hid : updatePosition.distanceId worldF1 recordF = "n0_t0" := by decide!
  have hd1 : 600 < updatePosition.distance qMath worldF1 recordF rayF := by decide!
  obtain ⟨w1, hw1, hl1⟩ := updatePosition_ledger_eq qMath worldF1 0 recordF rayF (Or.inr hr1)
  have hprops : ∀ q : Nat, (w1 q).props = (worldF1 q).props := by
    intro q
    have h := updatePosition_eq qMath worldF1 0 recordF rayF (Or.inr hr1)
    rw [hw1] at h
    rw [Option.some.inj h]
    simp [removeOnDeactivate, setDeactivateActions_props, setDistanceIncreases_props]
  have hdist : updatePosition.distance qMath w1 recordA rayA
      = updatePosition.distance qMath worldF1 recordA rayA := by
    simp only [updatePosition.distance, hprops]
  have hkey : updatePosition.distanceId w1 recordA
      = updatePosition.distanceId worldF1 recordF := by
    simp only [updatePosition.distanceId, hprops]
    decide!
  have hd2 : updatePosition.distance qMath w1 recordA rayA < 500 := by
    rw [hdist]
    decide!
  obtain ⟨v1, w2, hv1, hw2, _, hget, hkeys, _, hdec⟩ :=
    ledger_last_write_wins qMath worldF1 w1 0 recordF recordA rayF rayA (Or.inr hr1)
      (Or.inr hr2) (by decide!) (by rw [hw1]; rfl) hkey
  rw [hw1] at hv1
  have hv : v1 = w1 := (Option.some.inj hv1).symm
  subst hv
  rw [hid] at hget
  refine ⟨hid, hd1, v1, w2, hw1, hw2, hget, hd2, hkeys, ?_⟩
  apply hdec (lt_trans hd2 (lt_trans (by norm_num) hd1))
    (lt_trans (by norm_num [minLineDistance]) hd1)
  intro k v _ hk
  have hempty : (worldF1 0).state.distanceIncreases = [] := by decide!
  rw [hempty] at hk
  simp [Obj.get?] at hk

end LastWrite

/-! ## Geometry kernel: invariance of `intersect` -/

section IntersectInvariance

variable {α : Type} [LinearOrderedField α]

/-- C32: the result of `intersect` does not depend on the probe length of the second
segment. For segments `a` and `b` and a non-zero factor `s`, with `b'` the segment from
`b.p1` to `b.p1 + s * (b.p2 - b.p1)`, if the denominators of `(a, b)` and of `(a, b')`
both have absolute value at least `0.001`, then `intersect a b' = intersect a b`. The
boundary rays that `getNodeBoundaries` returns for the length `L` are the rays for the
default length `10` scaled by `L / 10`. -/
theorem intersect_probe_length (a b : Line α) (s : α) (hs : s ≠ 0)
    (hd : 0.001 ≤ |intersect.denominator a b|)
    (hd2 : 0.001 ≤ |intersect.denominator a (Spec.rescale b s)|) :
    intersect a (Spec.rescale b s) = intersect a b
    ∧ (∀ (M : JSMath α) (w : World α) (A : Nat) (L : α),
        (getNodeBoundaries M w A L).1 = Spec.rescale (getNodeBoundaries M w A 10).1 (L / 10)
        ∧ (getNodeBoundaries M w A L).2
          = Spec.rescale (getNodeBoundaries M w A 10).2 (L / 10)) := by
  constructor
  · have hden : intersect.denominator a (Spec.rescale b s) = s * intersect.denominator a b := by
      simp only [intersect.denominator, Spec.rescale, Line.pointAt, Line.x1, Line.x2, Line.y1,
        Line.y2]
      ring
    have hne : intersect.denominator a b ≠ 0 := by
      intro h0
      rw [h0, abs_zero] at hd
      norm_num at hd
    have hua : intersect.ua a (Spec.rescale b s) = intersect.ua a b := by
      unfold intersect.ua
      rw [hden]
      have hnum : ((Spec.rescale b s).x2 - (Spec.rescale b s).x1) * (a.y1 - (Spec.rescale b s).y1)
            - ((Spec.rescale b s).y2 - (Spec.rescale b s).y1) * (a.x1 - (Spec.rescale b s).x1)
          = s * ((b.x2 - b.x1) * (a.y1 - b.y1) - (b.y2 - b.y1) * (a.x1 - b.x1)) := by
        simp only [Spec.rescale, Line.pointAt, Line.x1, Line.x2, Line.y1, Line.y2]
        ring
      rw [hnum, mul_div_mul_left _ _ hs]
    have hzero : ((Spec.rescale b s).x1 = (Spec.rescale b s).x2
          ∧ (Spec.rescale b s).y1 = (Spec.rescale b s).y2)
        ↔ (b.x1 = b.x2 ∧ b.y1 = b.y2) := by
      simp only [Spec.rescale, Line.pointAt, Line.x1, Line.x2, Line.y1, Line.y2]
      constructor
      · rintro ⟨h1, h2⟩
        have h1' : s * (b.point2.x - b.point1.x) = 0 := by linarith
        have h2' : s * (b.point2.y - b.point1.y) = 0 := by linarith
        rcases mul_eq_zero.mp h1' with h | h
        · exact absurd h hs
        · rcases mul_eq_zero.mp h2' with h3 | h3
          · exact absurd h3 hs
          · constructor <;> linarith
      · rintro ⟨h1, h2⟩
        rw [← h1, ← h2]
        simp
    have hnp : ¬ (intersect.denominator a b > -0.001 ∧ intersect.denominator a b < 0.001) :=
      not_parallel_of_abs _ hd
    have hnp2 : ¬ (intersect.denominator a (Spec.rescale b s) > -0.001
        ∧ intersect.denominator a (Spec.rescale b s) < 0.001) :=
      not_parallel_of_abs _ hd2
    unfold intersect
    simp only [hzero, hua, if_neg hnp, if_neg hnp2]
  · intro M w A L
    simp only [getNodeBoundaries, Spec.rescale, Line.pointAt, Point.lineTo, Point.negative,
      Line.mk.injEq, Coords.mk.injEq, true_and]
    refine ⟨⟨?_, ?_⟩, ⟨?_, ?_⟩⟩ <;> ring

/-- Witness of C32: the second diagonal of the crossing pair scaled by `100`; both calls
give the point `(5, 5)`. -/
theorem intersect_probe_length_witness :
    Spec.rescale (seg 0 10 10 0) 100 = seg 0 10 1000 (-990)
    ∧ intersect (seg 0 0 10 10) (seg 0 10 10 0) = some (pt 5 5)
    ∧ intersect (seg 0 0 10 10) (Spec.rescale (seg 0 10 10 0) 100)
        = intersect (seg 0 0 10 10) (seg 0 10 10 0) :=
  ⟨by decide!, by decide!,
    (intersect_probe_length (seg 0 0 10 10) (seg 0 10 10 0) 100 (by decide!) (by decide!)
      (by decide!)).1⟩

/-- C33: `intersect` is translation invariant. For all segments `a` and `b` and every
offset `o`, `intersect (a moved by o) (b moved by o)` is the result of `intersect a b`
with its point, if any, moved by `o`; in particular it is none exactly when
`intersect a b` is none. -/
theorem intersect_translation_invariant (a b : Line α) (o : Coords α) :
    intersect (a.move o) (b.move o) = (intersect a b).map (fun P => Point.move P o)
    ∧ (intersect (a.move o) (b.move o) = none ↔ intersect a b = none) := by
  have hden : intersect.denominator (a.move o) (b.move o) = intersect.denominator a b := by
    simp only [intersect.denominator, Line.move, Point.move, Line.x1, Line.x2, Line.y1,
      Line.y2]
    ring
  have hua : intersect.ua (a.move o) (b.move o) = intersect.ua a b := by
    unfold intersect.ua
    rw [hden]
    congr 1
    simp only [Line.move, Point.move, Line.x1, Line.x2, Line.y1, Line.y2]
    ring
  have hzero : ∀ l : Line α, ((l.move o).x1 = (l.move o).x2 ∧ (l.move o).y1 = (l.move o).y2)
      ↔ (l.x1 = l.x2 ∧ l.y1 = l.y2) := by
    intro l
    simp only [Line.move, Point.move, Line.x1, Line.x2, Line.y1, Line.y2, add_left_inj]
  have hmain : intersect (a.move o) (b.move o)
      = (intersect a b).map (fun P => Point.move P o) := by
    unfold intersect
    simp only [hzero a, hzero b, hden, hua]
    by_cases h1 : (a.x1 = a.x2 ∧ a.y1 = a.y2) ∨ (b.x1 = b.x2 ∧ b.y1 = b.y2)
    · rw [if_pos h1, if_pos h1]; rfl
    · rw [if_neg h1, if_neg h1]
      by_cases h2 : intersect.denominator a b > -0.001 ∧ intersect.denominator a b < 0.001
      · rw [if_pos h2, if_pos h2]; rfl
      · rw [if_neg h2, if_neg h2]
        by_cases h3 : intersect.ua a b < 0.001 ∨ intersect.ua a b > 0.999
        · rw [if_pos h3, if_pos h3]; rfl
        · rw [if_neg h3, if_neg h3]
          simp only [Option.map_some', Line.move, Point.move, Line.x1, Line.x2, Line.y1,
            Line.y2, Option.some.injEq, Coords.mk.injEq]
          constructor <;> ring
  refine ⟨hmain, ?_⟩
  rw [hmain]
  cases intersect a b <;> simp

end IntersectInvariance

/-! ## Angular tree model: the wedges of the children -/

section Wedges

variable {α : Type} [LinearOrderedField α]

/-- The child element at index `i` of an active node. -/
theorem Node.render_getElem? [FloorRing α] (M : JSMath α) (w : World α) (P : Nat)
    (hactive : (w P).state.active = true) (i : Nat)
    (hi : i < (w P).props.node.nodes.length) :
    ∃ n : NodeType α, (w P).props.node.nodes[i]? = some n
      ∧ (Node.render M w P)[i]?
        = some
          { node := n
            parent := some (ParentRef.node P)
            ancestors := (w P).props.ancestors ++ [P]
            startingAngle :=
              some (jsRem ((w P).props.startingAngle.getD 0 + 180 + (w P).props.angle) 360)
            angleDifference := 360 / (((w P).props.node.nodes.length : α) + 1)
            angle := (360 / (((w P).props.node.nodes.length : α) + 1)) * ((i : α) + 1)
            absolutePosition := Point.move (w P).props.absolutePosition (getOffset M w P) } := by
  refine ⟨(w P).props.node.nodes[i], List.getElem?_eq_getElem hi, ?_⟩
  rw [Node.render_active M w P hactive, List.getElem?_map, List.getElem?_enum,
    List.getElem?_eq_getElem hi]
  rfl

/-- The rays of `getNodeBoundaries` point at the boundary angles of the wedge, taken
from the starting angle of the node. -/
theorem getNodeBoundaries_wedge (M : JSMath α) (w : World α) (q : Nat) (L : α) :
    getNodeBoundaries M w q L
      = ( Point.lineTo (Point.negative (getOffset M w q))
            { x := (M.cos (((w q).props.startingAngle.getD 0 + Spec.wedgeHigh (w q).props)
                  * 0.0174533) * L) - (getOffset M w q).x
              y := (M.sin (((w q).props.startingAngle.getD 0 + Spec.wedgeHigh (w q).props)
                  * 0.0174533) * L) - (getOffset M w q).y },
          Point.lineTo (Point.negative (getOffset M w q))
            { x := (M.cos (((w q).props.startingAngle.getD 0 + Spec.wedgeLow (w q).props)
                  * 0.0174533) * L) - (getOffset M w q).x
              y := (M.sin (((w q).props.startingAngle.getD 0 + Spec.wedgeLow (w q).props)
                  * 0.0174533) * L) - (getOffset M w q).y } ) := by
  simp only [getNodeBoundaries, Spec.wedgeHigh, Spec.wedgeLow, add_assoc, add_sub_assoc]

/-- C31: an active node with `n` children renders for its child at index `i < n` the
wedge width `d = 360/(n+1)` and the local angle `a_i = d*(i+1)`. The wedge
`[a_i - d/2, a_i + d/2]` of the child (the local angles of the two rays of
`getNodeBoundaries`) lies within `[d/2, 360 - d/2]`, so the local angle of the child is
neither `0` nor `360` and the wedge contains neither; the wedge ends where the wedge of
every later child begins or before, and exactly where the wedge of the next child
begins. -/
theorem render_child_wedges_disjoint [FloorRing α] (M : JSMath α) (w : World α) (P : Nat)
    (hactive : (w P).state.active = true) (i : Nat)
    (hi : i < (w P).props.node.nodes.length) :
    ∃ props : NodeProps α, (Node.render M w P)[i]? = some props
      ∧ props.angleDifference = 360 / (((w P).props.node.nodes.length : α) + 1)
      ∧ props.angle = 360 / (((w P).props.node.nodes.length : α) + 1) * ((i : α) + 1)
      ∧ Spec.wedgeLow props = props.angle - 360 / (((w P).props.node.nodes.length : α) + 1) / 2
      ∧ Spec.wedgeHigh props
          = props.angle + 360 / (((w P).props.node.nodes.length : α) + 1) / 2
      ∧ 360 / (((w P).props.node.nodes.length : α) + 1) / 2 ≤ Spec.wedgeLow props
      ∧ Spec.wedgeHigh props ≤ 360 - 360 / (((w P).props.node.nodes.length : α) + 1) / 2
      ∧ 0 < props.angle ∧ props.angle < 360
      ∧ 0 < Spec.wedgeLow props ∧ Spec.wedgeHigh props < 360
      ∧ (∀ (j : Nat) (later : NodeProps α), i < j → (Node.render M w P)[j]? = some later →
          Spec.wedgeHigh props ≤ Spec.wedgeLow later)
      ∧ (∀ next : NodeProps α, (Node.render M w P)[i + 1]? = some next →
          Spec.wedgeHigh props = Spec.wedgeLow next)
      ∧ (∀ (w2 : World α) (q : Nat) (L : α), (w2 q).props = props →
          getNodeBoundaries M w2 q L
            = ( Point.lineTo (Point.negative (getOffset M w2 q))
                  { x := (M.cos ((props.startingAngle.getD 0 + Spec.wedgeHigh props)
                        * 0.0174533) * L) - (getOffset M w2 q).x
                    y := (M.sin ((props.startingAngle.getD 0 + Spec.wedgeHigh props)
                        * 0.0174533) * L) - (getOffset M w2 q).y },
                Point.lineTo (Point.negative (getOffset M w2 q))
                  { x := (M.cos ((props.startingAngle.getD 0 + Spec.wedgeLow props)
                        * 0.0174533) * L) - (getOffset M w2 q).x
                    y := (M.sin ((props.startingAngle.getD 0 + Spec.wedgeLow props)
                        * 0.0174533) * L) - (getOffset M w2 q).y } )) := by
  have hangles : ∀ k : Nat, k < (w P).props.node.nodes.length →
      ∃ props : NodeProps α, (Node.render M w P)[k]? = some props
        ∧ props.angleDifference = 360 / (((w P).props.node.nodes.length : α) + 1)
        ∧ props.angle = 360 / (((w P).props.node.nodes.length : α) + 1) * ((k : α) + 1) := by
    intro k hk
    obtain ⟨n, _, hget⟩ := Node.render_getElem? M w P hactive k hk
    exact ⟨_, hget, rfl, rfl⟩
  obtain ⟨props, hget, hwidth, hangle⟩ := hangles i hi
  have hpos : (0 : α) < ((w P).props.node.nodes.length : α) + 1 := by positivity
  have hd : (0 : α) < 360 / (((w P).props.node.nodes.length : α) + 1) :=
    div_pos (by norm_num) hpos
  have h360 : 360 / (((w P).props.node.nodes.length : α) + 1)
      * (((w P).props.node.nodes.length : α) + 1) = 360 :=
    div_mul_cancel₀ _ (ne_of_gt hpos)
  have hi0 : (0 : α) ≤ (i : α) := Nat.cast_nonneg i
  have hin : (i : α) + 1 ≤ ((w P).props.node.nodes.length : α) := by exact_mod_cast hi
  have hlow : Spec.wedgeLow props
      = props.angle - 360 / (((w P).props.node.nodes.length : α) + 1) / 2 := by
    rw [Spec.wedgeLow, hwidth]
  have hhigh : Spec.wedgeHigh props
      = props.angle + 360 / (((w P).props.node.nodes.length : α) + 1) / 2 := by
    rw [Spec.wedgeHigh, hwidth]
  have hlater : ∀ (j : Nat) (later : NodeProps α), i < j →
      (Node.render M w P)[j]? = some later →
      Spec.wedgeHigh props ≤ Spec.wedgeLow later
      ∧ (j = i + 1 → Spec.wedgeHigh props = Spec.wedgeLow later) := by
    intro j later hij hj
    have hjlen : j < (Node.render M w P).length := by
      by_contra hnot
      rw [List.getElem?_eq_none (not_lt.mp hnot)] at hj
      cases hj
    have hjn : j < (w P).props.node.nodes.length := by
      rw [Node.render_active M w P hactive] at hjlen
      simpa using hjlen
    obtain ⟨props2, hget2, hwidth2, hangle2⟩ := hangles j hjn
    rw [hget2] at hj
    have hl : props2 = later := Option.some.inj hj
    subst hl
    have hij2 : (i : α) + 1 ≤ (j : α) := by exact_mod_cast hij
    rw [hhigh, hangle, Spec.wedgeLow, hwidth2, hangle2]
    constructor
    · linarith [mul_le_mul_of_nonneg_left hij2 hd.le]
    · intro hjeq
      rw [hjeq]
      push_cast
      ring
  refine ⟨props, hget, hwidth, hangle, hlow, hhigh, ?_, ?_, ?_, ?_, ?_, ?_, ?_, ?_, ?_⟩
  · rw [hlow, hangle]
    linarith [mul_nonneg hd.le hi0]
  · rw [hhigh, hangle]
    linarith [mul_le_mul_of_nonneg_left hin hd.le, h360]
  · rw [hangle]
    exact mul_pos hd (by positivity)
  · rw [hangle]
    linarith [mul_le_mul_of_nonneg_left hin hd.le, h360]
  · rw [hlow, hangle]
    linarith [mul_nonneg hd.le hi0]
  · rw [hhigh, hangle]
    linarith [mul_le_mul_of_nonneg_left hin hd.le, h360]
  · intro j later hij hj
    exact (hlater j later hij hj).1
  · intro next hnext
    exact (hlater (i + 1) next (Nat.lt_succ_self i) hnext).2 rfl
  · intro w2 q L hprops
    rw [getNodeBoundaries_wedge M w2 q L, hprops]

/-- Witness of C31: the active node at position 1 of scenario B has five children, so
`d = 60`; its second child has the local angle `120` and the wedge `[90, 150]`. -/
theorem render_child_wedges_disjoint_witness :
    (worldB2 1).state.active = true
    ∧ 1 < (worldB2 1).props.node.nodes.length
    ∧ ∃ props : NodeProps ℚ, (Node.render qMath worldB2 1)[1]? = some props
      ∧ props.angle = 120 ∧ Spec.wedgeLow props = 90 ∧ Spec.wedgeHigh props = 150
      ∧ 0 < Spec.wedgeLow props ∧ Spec.wedgeHigh props < 360
      ∧ (∀ next : NodeProps ℚ, (Node.render qMath worldB2 1)[1 + 1]? = some next →
          Spec.wedgeHigh props = Spec.wedgeLow next) := by
  have hactive : (worldB2 1).state.active = true := by decide!
  have hlen : (worldB2 1).props.node.nodes.length = 5 := by decide!
  have hi : 1 < (worldB2 1).props.node.nodes.length := by rw [hlen]; norm_num
  obtain ⟨props, hget, _, hangle, hlow, hhigh, _, _, _, _, hpos, hlt, _, hnext, _⟩ :=
    render_child_wedges_disjoint qMath worldB2 1 hactive 1 hi
  rw [hlen] at hangle hlow hhigh
  refine ⟨hactive, hi, props, hget, ?_, ?_, ?_, hpos, hlt, hnext⟩
  · rw [hangle]; norm_num
  · rw [hlow, hangle]; norm_num
  · rw [hhigh, hangle]; norm_num

end Wedges

end Snowflake
